import Mathlib

/-!
Verification development for the refua-regulatory evidence-bundle core.

The Python sources under `src/refua_regulatory/` are shallowly embedded:
pure functions become Lean functions, filesystem state becomes an explicit
association list from relative paths to file data, and the primitives the
design document declares out of scope (SHA-256 hashing, `uuid5`, JSON
read/write) are taken as parameters or modelled by paired raw/parsed file
contents.  Counters are natural numbers, as the Python ints here are
unbounded.
-/

namespace RefuaReg

/-! ## String utilities (`utils.py`)

Python `str.strip`, modelled on the character list of a string.  Lean's
`Char.isWhitespace` covers the ASCII whitespace characters that matter for
the inputs handled here.
-/

/-- Characters stripped by Python `str.strip()`. -/
def wsChar (c : Char) : Bool := c.isWhitespace

/-- `str.strip` on a character list: drop whitespace from both ends. -/
def stripChars (l : List Char) : List Char :=
  ((l.dropWhile wsChar).reverse.dropWhile wsChar).reverse

/-- Model of Python `str.strip()`. -/
def pstrip (s : String) : String := ⟨stripChars s.data⟩

/-- `"::".join(parts)` as used by `utils.stable_id`. -/
def joinSep : List String → String
  | [] => ""
  | [p] => p
  | p :: q :: rest => p ++ "::" ++ joinSep (q :: rest)

/-- `utils.stable_id`: join the stripped parts with `::` and hash the result.
`uuid5(NAMESPACE_URL, _).hex` is an out-of-scope library primitive and is
passed in as the function `uh`. -/
def stable_id (uh : String → String) (parts : List String) : String :=
  uh (joinSep (parts.map pstrip))

theorem dropWhile_dropWhile (p : Char → Bool) (l : List Char) :
    (l.dropWhile p).dropWhile p = l.dropWhile p := by
  induction l with
  | nil => rfl
  | cons c t ih =>
    by_cases h : p c
    · simp [List.dropWhile_cons, h, ih]
    · simp [List.dropWhile_cons, h]

theorem head_dropWhile_false (p : Char → Bool) :
    ∀ (m : List Char) (c : Char) (t : List Char),
      m.dropWhile p = c :: t → p c = false := by
  intro m
  induction m with
  | nil => intro c t h; simp at h
  | cons a m ih =>
    intro c t h
    by_cases ha : p a
    · rw [List.dropWhile_cons, if_pos ha] at h
      exact ih c t h
    · rw [List.dropWhile_cons, if_neg ha] at h
      cases h
      simpa using ha

theorem stripChars_idem (l : List Char) :
    stripChars (stripChars l) = stripChars l := by
  have hpre : ((l.dropWhile wsChar).reverse.dropWhile wsChar).reverse <+:
      l.dropWhile wsChar := by
    have h := List.reverse_prefix.mpr
      (List.dropWhile_suffix (l := (l.dropWhile wsChar).reverse) wsChar)
    simpa using h
  have hdrop :
      (((l.dropWhile wsChar).reverse.dropWhile wsChar).reverse).dropWhile wsChar
        = ((l.dropWhile wsChar).reverse.dropWhile wsChar).reverse := by
    cases hBr : ((l.dropWhile wsChar).reverse.dropWhile wsChar).reverse with
    | nil => rfl
    | cons c t =>
      obtain ⟨tail, htail⟩ := hpre
      rw [hBr] at htail
      have hc : wsChar c = false := by
        refine head_dropWhile_false wsChar l c (t ++ tail) ?h
        rw [← htail]
        simp
      simp [List.dropWhile_cons, hc]
  show stripChars (((l.dropWhile wsChar).reverse.dropWhile wsChar).reverse)
      = ((l.dropWhile wsChar).reverse.dropWhile wsChar).reverse
  unfold stripChars
  rw [hdrop, List.reverse_reverse, dropWhile_dropWhile]

theorem pstrip_idem (s : String) : pstrip (pstrip s) = pstrip s := by
  unfold pstrip
  simp [stripChars_idem]

end RefuaReg

namespace RefuaReg

/-! ## JSON-like values

The campaign record has no fixed schema; per the design notes it is
modelled as a generic structured value (map / array / scalar union).
Numbers are modelled as integers; no claim depends on float payloads.
-/

inductive JVal where
  | jnull
  | jbool (b : Bool)
  | jnum (n : Int)
  | jstr (s : String)
  | jarr (items : List JVal)
  | jobj (fields : List (String × JVal))

/-- Python truthiness of a JSON-like value. -/
def jtruthy : JVal → Bool
  | .jnull => false
  | .jbool b => b
  | .jnum n => n != 0
  | .jstr s => s != ""
  | .jarr items => !items.isEmpty
  | .jobj fields => !fields.isEmpty

/-- `dict.get(key)` on the fields of a JSON object. -/
def jget (fields : List (String × JVal)) (k : String) : Option JVal :=
  (fields.find? (fun kv => kv.1 == k)).map (fun kv => kv.2)

/-- Generic join with a separator, as `sep.join(parts)`. -/
def joinWith (sep : String) : List String → String
  | [] => ""
  | [p] => p
  | p :: q :: rest => p ++ sep ++ joinWith sep (q :: rest)

/-- One character of JSON string escaping (`ensure_ascii` escapes for exotic
characters are elided; the control characters that matter for line structure
are covered). -/
def escChar (c : Char) : String :=
  if c = '"' then "\\\""
  else if c = '\\' then "\\\\"
  else if c = '\n' then "\\n"
  else if c = '\r' then "\\r"
  else if c = '\t' then "\\t"
  else String.mk [c]

def escChars : List Char → String
  | [] => ""
  | c :: rest => escChar c ++ escChars rest

/-- JSON string literal rendering. -/
def jquote (s : String) : String := "\"" ++ escChars s.data ++ "\""

/-- Stable sort of rendered object entries by key, as `sort_keys=True`. -/
def sortPairsByKey (l : List (String × String)) : List (String × String) :=
  List.insertionSort (fun a b => a.1 ≤ b.1) l

def renderPair (kv : String × String) : String := jquote kv.1 ++ ": " ++ kv.2

mutual
/-- Model of `json.dumps(value, sort_keys=True)` with default separators. -/
def jdump : JVal → String
  | .jnull => "null"
  | .jbool true => "true"
  | .jbool false => "false"
  | .jnum n => toString n
  | .jstr s => jquote s
  | .jarr items => "[" ++ joinWith ", " (jdumpList items) ++ "]"
  | .jobj fields =>
      "\x7b" ++ joinWith ", " ((sortPairsByKey (jdumpPairs fields)).map renderPair) ++ "\x7d"
def jdumpList : List JVal → List String
  | [] => []
  | v :: rest => jdump v :: jdumpList rest
def jdumpPairs : List (String × JVal) → List (String × String)
  | [] => []
  | (k, v) :: rest => (k, jdump v) :: jdumpPairs rest
end

mutual
/-- Python `repr` of a JSON-like value (quote escaping elided). -/
def pyRepr : JVal → String
  | .jnull => "None"
  | .jbool true => "True"
  | .jbool false => "False"
  | .jnum n => toString n
  | .jstr s => "\x27" ++ s ++ "\x27"
  | .jarr items => "[" ++ joinWith ", " (pyReprL items) ++ "]"
  | .jobj fields => "\x7b" ++ joinWith ", " (pyReprP fields) ++ "\x7d"
def pyReprL : List JVal → List String
  | [] => []
  | v :: rest => pyRepr v :: pyReprL rest
def pyReprP : List (String × JVal) → List String
  | [] => []
  | (k, v) :: rest => ("\x27" ++ k ++ "\x27: " ++ pyRepr v) :: pyReprP rest
end

/-- Python `str()` of a JSON-like value. -/
def pyStr : JVal → String
  | .jstr s => s
  | .jnull => "None"
  | .jbool true => "True"
  | .jbool false => "False"
  | .jnum n => toString n
  | .jarr items => pyRepr (.jarr items)
  | .jobj fields => pyRepr (.jobj fields)

/-- `str(payload.get(k) or "")`: falsy values collapse to the empty string. -/
def pyStrOr (v : Option JVal) : String :=
  match v with
  | none => ""
  | some v => if jtruthy v then pyStr v else ""

/-- `utils.truncate_preview` with an explicit `max_chars` argument: render as
sorted-key JSON and truncate to a bounded length with a visible `...` marker.
`to_plain_data` is the identity on these already-plain values. -/
def truncate_preview_max (v : JVal) (maxChars : Nat) : String :=
  let rendered := jdump v
  if rendered.length ≤ maxChars then rendered
  else (rendered.take (maxChars - 3)) ++ "..."

/-- `utils.truncate_preview` at its default bound of 1000 characters. -/
def truncate_preview (v : JVal) : String := truncate_preview_max v 1000

end RefuaReg

namespace RefuaReg

/-! ## Data model (`models.py`)

Dataclasses become structures.  Python `str | None` becomes `Option String`,
tuples become lists, open `dict[str, Any]` maps become association lists of
`JVal`.  `decision_type` is a string drawn from the `DecisionType` literal
values.  Execution provenance is, per the design scope, an opaque blob
supplied by an external collaborator and is carried as a `JVal`.
-/

structure ArtifactRef where
  artifact_id : String
  role : String
  rel_path : String
  sha256 : String
  size_bytes : Nat
  media_type : Option String
  metadata : List (String × JVal)

structure ModelProvenance where
  model_name : String
  model_version : Option String
  tool : Option String
  backend : Option String
  parameters : List (String × JVal)

structure DataProvenance where
  dataset_id : String
  version : Option String
  source_url : Option String
  sha256 : Option String
  license_name : Option String
  manifest_rel_path : Option String
  metadata : List (String × JVal)

structure DecisionRecord where
  decision_id : String
  campaign_run_id : String
  step_index : Nat
  timestamp : String
  decision_type : String
  actor : String
  rationale : String
  tool : Option String
  args : List (String × JVal)
  output_preview : Option String
  input_refs : List String
  output_refs : List String
  metadata : List (String × JVal)

structure EvidenceBundleManifest where
  schema_version : String
  bundle_id : String
  created_at : String
  campaign_run_id : String
  source_kind : String
  source_rel_path : String
  decision_count : Nat
  artifact_count : Nat
  model_count : Nat
  data_count : Nat
  files : List String
  model_provenance : List ModelProvenance
  data_provenance : List DataProvenance
  execution_provenance : JVal
  checklist_reports : List String
  checklist_summary : JVal
  warnings : List String

structure VerificationResult where
  ok : Bool
  checked_files : Nat
  errors : List String
  warnings : List String

/-- `None → null`, `some s → "s"` in serialized form. -/
def optStrJ : Option String → JVal
  | none => .jnull
  | some s => .jstr s

/-- `to_plain_data` on a `DecisionRecord` (dataclass `asdict`). -/
def decisionToJVal (d : DecisionRecord) : JVal :=
  .jobj [
    ("decision_id", .jstr d.decision_id),
    ("campaign_run_id", .jstr d.campaign_run_id),
    ("step_index", .jnum d.step_index),
    ("timestamp", .jstr d.timestamp),
    ("decision_type", .jstr d.decision_type),
    ("actor", .jstr d.actor),
    ("rationale", .jstr d.rationale),
    ("tool", optStrJ d.tool),
    ("args", .jobj d.args),
    ("output_preview", optStrJ d.output_preview),
    ("input_refs", .jarr (d.input_refs.map .jstr)),
    ("output_refs", .jarr (d.output_refs.map .jstr)),
    ("metadata", .jobj d.metadata)]

/-- `to_plain_data` on a `ModelProvenance`. -/
def modelProvToJVal (m : ModelProvenance) : JVal :=
  .jobj [
    ("model_name", .jstr m.model_name),
    ("model_version", optStrJ m.model_version),
    ("tool", optStrJ m.tool),
    ("backend", optStrJ m.backend),
    ("parameters", .jobj m.parameters)]

/-- `to_plain_data` on a `DataProvenance`. -/
def dataProvToJVal (d : DataProvenance) : JVal :=
  .jobj [
    ("dataset_id", .jstr d.dataset_id),
    ("version", optStrJ d.version),
    ("source_url", optStrJ d.source_url),
    ("sha256", optStrJ d.sha256),
    ("license_name", optStrJ d.license_name),
    ("manifest_rel_path", optStrJ d.manifest_rel_path),
    ("metadata", .jobj d.metadata)]

/-- `to_plain_data` on an `ArtifactRef`. -/
def artifactToJVal (a : ArtifactRef) : JVal :=
  .jobj [
    ("artifact_id", .jstr a.artifact_id),
    ("role", .jstr a.role),
    ("rel_path", .jstr a.rel_path),
    ("sha256", .jstr a.sha256),
    ("size_bytes", .jnum a.size_bytes),
    ("media_type", optStrJ a.media_type),
    ("metadata", .jobj a.metadata)]

/-- `to_plain_data` on an `EvidenceBundleManifest`. -/
def manifestToJVal (m : EvidenceBundleManifest) : JVal :=
  .jobj [
    ("schema_version", .jstr m.schema_version),
    ("bundle_id", .jstr m.bundle_id),
    ("created_at", .jstr m.created_at),
    ("campaign_run_id", .jstr m.campaign_run_id),
    ("source_kind", .jstr m.source_kind),
    ("source_rel_path", .jstr m.source_rel_path),
    ("decision_count", .jnum m.decision_count),
    ("artifact_count", .jnum m.artifact_count),
    ("model_count", .jnum m.model_count),
    ("data_count", .jnum m.data_count),
    ("files", .jarr (m.files.map .jstr)),
    ("model_provenance", .jarr (m.model_provenance.map modelProvToJVal)),
    ("data_provenance", .jarr (m.data_provenance.map dataProvToJVal)),
    ("execution_provenance", m.execution_provenance),
    ("checklist_reports", .jarr (m.checklist_reports.map .jstr)),
    ("checklist_summary", m.checklist_summary),
    ("warnings", .jarr (m.warnings.map .jstr))]

/-- `to_plain_data` on a `VerificationResult`. -/
def verificationToJVal (v : VerificationResult) : JVal :=
  .jobj [
    ("ok", .jbool v.ok),
    ("checked_files", .jnum v.checked_files),
    ("errors", .jarr (v.errors.map .jstr)),
    ("warnings", .jarr (v.warnings.map .jstr))]

end RefuaReg

namespace RefuaReg

/-! ## Decision extraction (`extractors.py`)

`utcnow_iso()` is impure; the model takes the wall-clock reading as a
string parameter `now` shared by the records of one extraction run, which
suffices because no claim depends on the timestamps themselves.
-/

/-- Python `a or b` on optional JSON values. -/
def pyOr (a b : Option JVal) : Option JVal :=
  match a with
  | some v => if jtruthy v then some v else b
  | none => b

/-- `extractors.infer_campaign_run_id`. -/
def infer_campaign_run_id (uh : String → String) (payload : List (String × JVal))
    (source_path : String) : String :=
  let explicit := pyOr (jget payload "campaign_run_id") (jget payload "run_id")
  match explicit with
  | some (.jstr s) =>
      if pstrip s ≠ "" then pstrip s
      else stable_id uh ["campaign_run", pyStrOr (jget payload "objective"),
        pyStrOr (jget payload "planner_response_text"), source_path]
  | _ =>
      stable_id uh ["campaign_run", pyStrOr (jget payload "objective"),
        pyStrOr (jget payload "planner_response_text"), source_path]

/-- `extractors._decision`: build one `DecisionRecord`; the identifier is the
stable hash of `(campaign_run_id, str(step_index), decision_type, tool or "")`. -/
def decision_helper (uh : String → String) (now : String) (campaign_run_id : String)
    (step_index : Nat) (decision_type actor rationale : String) (tool : Option String)
    (args : List (String × JVal)) (output_preview : Option String)
    (input_refs output_refs : List String) (metadata : List (String × JVal)) :
    DecisionRecord :=
  { decision_id :=
      stable_id uh [campaign_run_id, toString step_index, decision_type, tool.getD ""]
    campaign_run_id := campaign_run_id
    step_index := step_index
    timestamp := now
    decision_type := decision_type
    actor := actor
    rationale := rationale
    tool := tool
    args := args
    output_preview := output_preview
    input_refs := input_refs
    output_refs := output_refs
    metadata := metadata }

/-- Accumulated decisions plus the next `step_index` value. -/
abbrev ExtState := List DecisionRecord × Nat

/-- Append one decision and advance the step counter. -/
def emitD (s : ExtState) (d : DecisionRecord) : ExtState := (s.1 ++ [d], s.2 + 1)

/-- Step (1): non-blank `objective` string. -/
def objectiveBlock (uh : String → String) (now rid : String)
    (payload : List (String × JVal)) (s : ExtState) : ExtState :=
  let objective := pstrip (pyStrOr (jget payload "objective"))
  if objective ≠ "" then
    emitD s (decision_helper uh now rid s.2 "objective" "campaign"
      "Campaign objective accepted." none [] (some objective) [] [] [])
  else s

/-- Step (2): initial `plan` object. -/
def planBlock (uh : String → String) (now rid : String)
    (payload : List (String × JVal)) (s : ExtState) : ExtState :=
  match jget payload "plan" with
  | some (.jobj planFields) =>
      emitD s (decision_helper uh now rid s.2 "planning" "planner"
        "Initial tool plan generated." none []
        (some (truncate_preview (.jobj planFields))) [] ["plan:initial"] [])
  | _ => s

/-- The `policy` sub-step of one iteration entry. -/
def policyStep (uh : String → String) (now rid : String) (idx : Nat)
    (fields : List (String × JVal)) (s : ExtState) : ExtState :=
  match jget fields "policy" with
  | some (.jobj policyFields) =>
      emitD s (decision_helper uh now rid s.2 "policy" "policy"
        ("Policy evaluation completed for round " ++ toString idx ++ ".") none []
        (some (truncate_preview (.jobj policyFields))) [] []
        [("round_index", .jnum idx)])
  | _ => s

/-- The `critic` sub-step of one iteration entry. -/
def criticStep (uh : String → String) (now rid : String) (idx : Nat)
    (fields : List (String × JVal)) (s : ExtState) : ExtState :=
  match jget fields "critic" with
  | some (.jobj criticFields) =>
      emitD s (decision_helper uh now rid s.2 "critic" "critic"
        ("Critic evaluation completed for round " ++ toString idx ++ ".") none []
        (some (truncate_preview (.jobj criticFields))) [] []
        [("round_index", .jnum idx)])
  | _ => s

/-- Step (3) loop body for one iteration entry: one `policy` then one
`critic` decision when the respective sub-objects are present. -/
def iterStep (uh : String → String) (now rid : String) (idx : Nat) (item : JVal)
    (s : ExtState) : ExtState :=
  match item with
  | .jobj fields => criticStep uh now rid idx fields (policyStep uh now rid idx fields s)
  | _ => s

/-- Step (3) loop over the iteration entries. -/
def iterLoop (uh : String → String) (now rid : String) :
    List JVal → Nat → ExtState → ExtState
  | [], _, s => s
  | item :: rest, idx, s =>
      iterLoop uh now rid rest (idx + 1) (iterStep uh now rid idx item s)

/-- Step (3): the `iterations` sequence. -/
def iterationsBlock (uh : String → String) (now rid : String)
    (payload : List (String × JVal)) (s : ExtState) : ExtState :=
  match jget payload "iterations" with
  | some (.jarr items) => iterLoop uh now rid items 1 s
  | _ => s

/-- Step (4): `final_plan` object whose canonical serialization differs from
the initial plan. -/
def finalPlanBlock (uh : String → String) (now rid : String)
    (payload : List (String × JVal)) (s : ExtState) : ExtState :=
  match jget payload "final_plan" with
  | some (.jobj finalFields) =>
      let rendered_plan := match jget payload "plan" with
        | some (.jobj planFields) => jdump (.jobj planFields)
        | _ => ""
      let rendered_final := jdump (.jobj finalFields)
      if rendered_final ≠ rendered_plan then
        emitD s (decision_helper uh now rid s.2 "planning" "planner"
          "Final autonomous plan approved." none []
          (some (truncate_preview (.jobj finalFields))) [] ["plan:final"]
          [("stage", .jstr "final")])
      else s
  | _ => s

/-- `tool_name or "unknown"`. -/
def toolOrUnknown (t : Option String) : String :=
  match t with
  | some s => if s ≠ "" then s else "unknown"
  | none => "unknown"

/-- Step (5) loop body for one results entry: a `tool_call` then a
`tool_result` decision. -/
def resStep (uh : String → String) (now rid : String) (idx : Nat) (item : JVal)
    (s : ExtState) : ExtState :=
  match item with
  | .jobj fields =>
      let tool_name : Option String := match jget fields "tool" with
        | some (.jstr t) => some t
        | _ => none
      let tool_args : List (String × JVal) := match jget fields "args" with
        | some (.jobj a) => a
        | _ => []
      let output := (jget fields "output").getD .jnull
      let s1 := emitD s (decision_helper uh now rid s.2 "tool_call" "executor"
        ("Dispatch tool call #" ++ toString idx ++ ".") tool_name tool_args none
        ["tool:" ++ toolOrUnknown tool_name] ["result:" ++ toString idx]
        [("tool_index", .jnum idx)])
      emitD s1 (decision_helper uh now rid s1.2 "tool_result" "executor"
        ("Captured tool result #" ++ toString idx ++ ".") tool_name tool_args
        (some (truncate_preview output)) ["result:" ++ toString idx]
        ["artifact:tool_result:" ++ toString idx] [("tool_index", .jnum idx)])
  | _ => s

/-- Step (5) loop over the results entries. -/
def resLoop (uh : String → String) (now rid : String) :
    List JVal → Nat → ExtState → ExtState
  | [], _, s => s
  | item :: rest, idx, s =>
      resLoop uh now rid rest (idx + 1) (resStep uh now rid idx item s)

/-- Step (5): the `results` sequence. -/
def resultsBlock (uh : String → String) (now rid : String)
    (payload : List (String × JVal)) (s : ExtState) : ExtState :=
  match jget payload "results" with
  | some (.jarr items) => resLoop uh now rid items 1 s
  | _ => s

/-- Step (6): trailing note for a non-empty `warnings` list. -/
def warningsBlock (uh : String → String) (now rid : String)
    (payload : List (String × JVal)) (s : ExtState) : ExtState :=
  match jget payload "warnings" with
  | some (.jarr items) =>
      if !items.isEmpty then
        emitD s (decision_helper uh now rid s.2 "note" "system"
          "Run emitted warnings." none [] (some (truncate_preview (.jarr items))) [] [] [])
      else s
  | _ => s

/-- Fallback decision when no structured rule fired. -/
def fallbackNote (uh : String → String) (now rid : String)
    (payload : List (String × JVal)) : DecisionRecord :=
  decision_helper uh now rid 1 "note" "system"
    "No structured decisions were detected in payload." none []
    (some (truncate_preview (.jobj payload))) [] [] []

/-- `extractors.extract_decisions_from_campaign`. -/
def extract_decisions_from_campaign (uh : String → String) (now : String)
    (payload : List (String × JVal)) (campaign_run_id : String) : List DecisionRecord :=
  let s0 : ExtState := ([], 1)
  let s1 := objectiveBlock uh now campaign_run_id payload s0
  let s2 := planBlock uh now campaign_run_id payload s1
  let s3 := iterationsBlock uh now campaign_run_id payload s2
  let s4 := finalPlanBlock uh now campaign_run_id payload s3
  let s5 := resultsBlock uh now campaign_run_id payload s4
  let s6 := warningsBlock uh now campaign_run_id payload s5
  if s6.1.isEmpty then [fallbackNote uh now campaign_run_id payload] else s6.1

end RefuaReg

namespace RefuaReg

/-! ## Model provenance extraction (`extractors.py`) -/

/-- The static tool-to-model lookup table `_TOOL_TO_MODEL`. -/
def TOOL_TO_MODEL : List (String × String) :=
  [("refua_validate_spec", "refua-validator"),
   ("refua_fold", "refua-boltz"),
   ("refua_affinity", "refua-boltz-affinity"),
   ("refua_antibody_design", "refua-boltzgen-antibody"),
   ("refua_admet_profile", "refua-admet"),
   ("refua_job", "refua-job-tracker")]

/-- `_TOOL_TO_MODEL.get(tool_name, tool_name)`. -/
def toolToModel (t : String) : String :=
  match TOOL_TO_MODEL.find? (fun kv => kv.1 == t) with
  | some kv => kv.2
  | none => t

/-- Python `a or b` for an optional string against a default. -/
def strOr (a : Option String) (b : String) : String :=
  match a with
  | some s => if s ≠ "" then s else b
  | none => b

/-- The deduplication key `(model_name, model_version, tool, backend)`. -/
abbrev MKey := String × Option String × Option String × Option String

def modelKey (m : ModelProvenance) : MKey :=
  (m.model_name, m.model_version, m.tool, m.backend)

/-- The `ModelProvenance` derived from one `results` entry that has a string
`tool` field, before deduplication. -/
def deriveModel (onm ov : Option String) (t : String) (fields : List (String × JVal)) :
    ModelProvenance :=
  let output_map : List (String × JVal) := match jget fields "output" with
    | some (.jobj o) => o
    | _ => []
  let backend : Option String := match jget output_map "backend" with
    | some (.jstr b) => some b
    | _ => none
  let model_name := strOr onm (toolToModel t)
  let model_version : Option String := match ov with
    | some v => some v
    | none => match jget output_map "model_version" with
        | some (.jstr c) => if pstrip c ≠ "" then some (pstrip c) else none
        | _ => none
  let params : List (String × JVal) := match jget fields "args" with
    | some (.jobj a) => a
    | _ => []
  ⟨model_name, model_version, some t, backend, params⟩

/-- The model record derived from one `results` entry, or `none` when the
entry is skipped (not a dict, or no string `tool` field). -/
def resultEntryModel (onm ov : Option String) (item : JVal) : Option ModelProvenance :=
  match item with
  | .jobj fields =>
      match jget fields "tool" with
      | some (.jstr t) => some (deriveModel onm ov t fields)
      | _ => none
  | _ => none

/-- The `results` loop of `extract_model_provenance`, threading the `seen`
key set and the accumulated records. -/
def mpLoop (onm ov : Option String) :
    List JVal → List MKey → List ModelProvenance → List ModelProvenance
  | [], _, acc => acc
  | item :: rest, seen, acc =>
      match resultEntryModel onm ov item with
      | none => mpLoop onm ov rest seen acc
      | some m =>
          if modelKey m ∈ seen then mpLoop onm ov rest seen acc
          else mpLoop onm ov rest (seen ++ [modelKey m]) (acc ++ [m])

/-- `extractors.extract_model_provenance`. -/
def extract_model_provenance (payload : List (String × JVal))
    (override_model_name override_model_version : Option String) :
    List ModelProvenance :=
  let models := match jget payload "results" with
    | some (.jarr items) => mpLoop override_model_name override_model_version items [] []
    | _ => []
  if models.isEmpty then
    match override_model_name with
    | some nm =>
        if nm ≠ "" then [⟨nm, override_model_version, none, none, []⟩] else []
    | none => []
  else models

/-- Reference stream for the deduplication claim: the records the `results`
loop derives before deduplication, in entry order. -/
def modelCandidates (payload : List (String × JVal)) (onm ov : Option String) :
    List ModelProvenance :=
  match jget payload "results" with
  | some (.jarr items) => items.filterMap (resultEntryModel onm ov)
  | _ => []

end RefuaReg

namespace RefuaReg

/-! ## Lineage graph builder (`lineage.py`)

Node and edge dictionaries become structures; the `from` / `to` / `type`
keys of an edge dictionary are the `src` / `dst` / `etype` fields.
-/

structure LNode where
  id : String
  kind : String
  label : String
  metadata : JVal

structure LEdge where
  src : String
  dst : String
  etype : String

structure LineageGraph where
  graph_version : String
  campaign_run_id : String
  nodes : List LNode
  edges : List LEdge

/-- `model_nodes_by_tool.setdefault(tool, []).append(node_id)`. -/
def addToolNode : List (String × List String) → String → String → List (String × List String)
  | [], t, nid => [(t, [nid])]
  | (k, ids) :: rest, t, nid =>
      if k = t then (k, ids ++ [nid]) :: rest
      else (k, ids) :: addToolNode rest t nid

/-- `model_nodes_by_tool.get(tool, [])`. -/
def toolNodes (m : List (String × List String)) (t : String) : List String :=
  match m.find? (fun kv => kv.1 == t) with
  | some kv => kv.2
  | none => []

/-- The model-provenance loop: nodes, `uses_model` edges, and the
tool-to-node-id index, with 1-based ordinals, in loop order. -/
def modelLoop (runNodeId : String) :
    List ModelProvenance → Nat →
      List LNode × List LEdge × List (String × List String) →
      List LNode × List LEdge × List (String × List String)
  | [], _, acc => acc
  | model :: rest, index, (nodes, edges, byTool) =>
      let nodeId := "model:" ++ toString index
      let node : LNode :=
        ⟨nodeId, "model", model.model_name,
          .jobj [("version", optStrJ model.model_version),
                 ("tool", optStrJ model.tool),
                 ("backend", optStrJ model.backend),
                 ("parameters", .jobj model.parameters)]⟩
      let edge : LEdge := ⟨runNodeId, nodeId, "uses_model"⟩
      let byToolNext := match model.tool with
        | some t => addToolNode byTool t nodeId
        | none => byTool
      modelLoop runNodeId rest (index + 1)
        (nodes ++ [node], edges ++ [edge], byToolNext)

/-- The data-provenance loop: dataset nodes and `uses_dataset` edges. -/
def dataLoop (runNodeId : String) :
    List DataProvenance → Nat → List LNode × List LEdge →
      List LNode × List LEdge
  | [], _, acc => acc
  | dataset :: rest, index, (nodes, edges) =>
      let nodeId := "data:" ++ toString index
      let node : LNode :=
        ⟨nodeId, "dataset", dataset.dataset_id,
          .jobj [("version", optStrJ dataset.version),
                 ("source_url", optStrJ dataset.source_url),
                 ("sha256", optStrJ dataset.sha256),
                 ("license_name", optStrJ dataset.license_name),
                 ("manifest_rel_path", optStrJ dataset.manifest_rel_path),
                 ("metadata", .jobj dataset.metadata)]⟩
      let edge : LEdge := ⟨runNodeId, nodeId, "uses_dataset"⟩
      dataLoop runNodeId rest (index + 1) (nodes ++ [node], edges ++ [edge])

/-- The artifact loop: artifact nodes, `produced_artifact` edges, and the
collected artifact node ids. -/
def artifactLoop (runNodeId : String) :
    List ArtifactRef → List LNode × List LEdge × List String →
      List LNode × List LEdge × List String
  | [], acc => acc
  | artifact :: rest, (nodes, edges, ids) =>
      let nodeId := "artifact:" ++ artifact.artifact_id
      let node : LNode :=
        ⟨nodeId, "artifact", artifact.rel_path,
          .jobj [("role", .jstr artifact.role),
                 ("sha256", .jstr artifact.sha256),
                 ("size_bytes", .jnum artifact.size_bytes),
                 ("media_type", optStrJ artifact.media_type),
                 ("metadata", .jobj artifact.metadata)]⟩
      let edge : LEdge := ⟨runNodeId, nodeId, "produced_artifact"⟩
      artifactLoop runNodeId rest (nodes ++ [node], edges ++ [edge], ids ++ [nodeId])

/-- One decision node dictionary. -/
def decisionNode (d : DecisionRecord) : LNode :=
  ⟨"decision:" ++ d.decision_id, "decision", d.decision_type,
    .jobj [("step_index", .jnum d.step_index),
           ("actor", .jstr d.actor),
           ("tool", optStrJ d.tool),
           ("timestamp", .jstr d.timestamp),
           ("rationale", .jstr d.rationale),
           ("input_refs", .jarr (d.input_refs.map .jstr)),
           ("output_refs", .jarr (d.output_refs.map .jstr)),
           ("metadata", .jobj d.metadata)]⟩

/-- The `next`-chain contribution of one decision given its predecessor. -/
def prevNextEdge (previous : Option String) (d : DecisionRecord) : List LEdge :=
  match previous with
  | some p => [⟨p, "decision:" ++ d.decision_id, "next"⟩]
  | none => []

/-- The edges appended for one decision in the decision loop: the
`has_decision` edge, the chain edge from the previous decision, `used_model`
edges for models whose tool matches, and the `recorded_in` edge to the first
artifact for `tool_result` decisions. -/
def decisionStepEdges (runNodeId : String) (byTool : List (String × List String))
    (artifactNodeIds : List String) (decision : DecisionRecord)
    (previous : Option String) : List LEdge :=
  let nodeId := "decision:" ++ decision.decision_id
  let hasEdge : LEdge := ⟨runNodeId, nodeId, "has_decision"⟩
  let usedModelEdges : List LEdge := match decision.tool with
    | some t => (toolNodes byTool t).map (fun mid => ⟨nodeId, mid, "used_model"⟩)
    | none => []
  let recordedEdges : List LEdge :=
    if decision.decision_type = "tool_result" then
      match artifactNodeIds with
      | firstId :: _ => [⟨nodeId, firstId, "recorded_in"⟩]
      | [] => []
    else []
  [hasEdge] ++ prevNextEdge previous decision ++ usedModelEdges ++ recordedEdges

/-- The decision loop over the step-sorted decisions. -/
def decisionLoop (runNodeId : String) (byTool : List (String × List String))
    (artifactNodeIds : List String) :
    List DecisionRecord → Option String → List LNode × List LEdge →
      List LNode × List LEdge
  | [], _, acc => acc
  | decision :: rest, previous, acc =>
      decisionLoop runNodeId byTool artifactNodeIds rest
        (some ("decision:" ++ decision.decision_id))
        (acc.1 ++ [decisionNode decision],
         acc.2 ++ decisionStepEdges runNodeId byTool artifactNodeIds decision previous)

/-- `sorted(decisions, key=lambda item: item.step_index)` (stable). -/
def sortDecisions (decisions : List DecisionRecord) : List DecisionRecord :=
  List.insertionSort (fun a b => a.step_index ≤ b.step_index) decisions

/-- `lineage.build_lineage_graph`. -/
def build_lineage_graph (campaign_run_id : String) (decisions : List DecisionRecord)
    (artifacts : List ArtifactRef) (model_provenance : List ModelProvenance)
    (data_provenance : List DataProvenance) : LineageGraph :=
  let runNodeId := "run:" ++ campaign_run_id
  let runNode : LNode :=
    ⟨runNodeId, "campaign_run", campaign_run_id,
      .jobj [("decision_count", .jnum decisions.length),
             ("artifact_count", .jnum artifacts.length),
             ("model_count", .jnum model_provenance.length),
             ("data_count", .jnum data_provenance.length)]⟩
  let m := modelLoop runNodeId model_provenance 1 ([], [], [])
  let dl := dataLoop runNodeId data_provenance 1 ([], [])
  let al := artifactLoop runNodeId artifacts ([], [], [])
  let dec := decisionLoop runNodeId m.2.2 al.2.2 (sortDecisions decisions) none ([], [])
  { graph_version := "1.0.0"
    campaign_run_id := campaign_run_id
    nodes := [runNode] ++ m.1 ++ dl.1 ++ al.1 ++ dec.1
    edges := m.2.1 ++ dl.2 ++ al.2.1 ++ dec.2 }

/-- `to_plain_data` on a lineage node. -/
def lnodeToJVal (n : LNode) : JVal :=
  .jobj [("id", .jstr n.id), ("kind", .jstr n.kind), ("label", .jstr n.label),
         ("metadata", n.metadata)]

/-- `to_plain_data` on a lineage edge (`from` / `to` / `type` keys). -/
def ledgeToJVal (e : LEdge) : JVal :=
  .jobj [("from", .jstr e.src), ("to", .jstr e.dst), ("type", .jstr e.etype)]

/-- `to_plain_data` on the lineage graph dictionary. -/
def lineageToJVal (g : LineageGraph) : JVal :=
  .jobj [("graph_version", .jstr g.graph_version),
         ("campaign_run_id", .jstr g.campaign_run_id),
         ("nodes", .jarr (g.nodes.map lnodeToJVal)),
         ("edges", .jarr (g.edges.map ledgeToJVal))]

end RefuaReg

namespace RefuaReg

/-! ## Filesystem model and bundle verification (`bundle.py`)

A bundle directory is an association list from relative paths to file data.
The spec places JSON read/write and SHA-256 among the out-of-scope library
primitives, so a file carries its raw text (the hashing and line-counting
view) together with the library's parse of that text: `jsonDoc` models
`json.loads(raw)` and `jsonLines` models the per-non-blank-line parses used
for `.jsonl` files.  Writers construct the two views consistently, which
encodes the library round-trip `loads(dumps(v)) = v`; the verifier and the
checklist engine are quantified over arbitrary file data, a superset of the
reachable states.  The SHA-256 digest function is a parameter `sha`.
-/

structure FileData where
  raw : String
  jsonDoc : Option JVal
  jsonLines : List (Option JVal)

abbrev FS := List (String × FileData)

def fsGet (fs : FS) (path : String) : Option FileData :=
  (fs.find? (fun e => e.1 == path)).map (fun e => e.2)

def fsExists (fs : FS) (path : String) : Bool := (fsGet fs path).isSome

/-- Write (create or replace) one file. -/
def fsWrite (fs : FS) (path : String) (fd : FileData) : FS :=
  (fs.filter (fun e => e.1 != path)) ++ [(path, fd)]

/-- Plain text file (never JSON-parsed by the code under verification). -/
def fdText (raw : String) : FileData := ⟨raw, none, []⟩

/-- `utils.write_json`: serialized JSON document plus trailing newline. -/
def fdJson (v : JVal) : FileData := ⟨jdump v ++ "\n", some v, [some v]⟩

def jsonlRaw : List JVal → String
  | [] => ""
  | v :: rest => jdump v ++ "\n" ++ jsonlRaw rest

/-- `utils.write_jsonl`: one sorted-key JSON object per line. -/
def fdJsonl (vs : List JVal) : FileData := ⟨jsonlRaw vs, none, vs.map some⟩

/-- `utils.read_json_object` on a file: the parsed document when it is an
object, an error otherwise. -/
def read_json_object (fd : FileData) : Except String (List (String × JVal)) :=
  match fd.jsonDoc with
  | some (.jobj fields) => .ok fields
  | some _ => .error "JSON payload must be an object"
  | none => .error "invalid JSON"

/-- Python `str.splitlines` on a character list (no trailing empty line for a
trailing newline). -/
def splitLinesChars : List Char → List (List Char)
  | [] => []
  | c :: rest =>
    if c = '\n' then [] :: splitLinesChars rest
    else match splitLinesChars rest with
      | [] => [[c]]
      | line :: lines => (c :: line) :: lines

def splitLines (s : String) : List String := (splitLinesChars s.data).map (fun l => ⟨l⟩)

/-- `line.split("  ", maxsplit=1)`: split at the first occurrence of two
consecutive spaces, or fail. -/
def splitTwoSpace : List Char → Option (List Char × List Char)
  | [] => none
  | c :: rest =>
      if c = ' ' ∧ rest.head? = some ' ' then some ([], rest.tail)
      else (splitTwoSpace rest).map (fun pr => (c :: pr.1, pr.2))

/-- The line loop of `bundle._parse_checksum_file`, with 1-based numbering:
strip the line, skip it when blank, split at the two-space separator, strip
the two fields, and validate digest length and path non-emptiness. -/
def parseChecksumLines : Nat → List String → Except String (List (String × String))
  | _, [] => .ok []
  | lineNumber, rawLine :: rest =>
    if pstrip rawLine = "" then parseChecksumLines (lineNumber + 1) rest
    else
      match splitTwoSpace (pstrip rawLine).data with
      | none => .error ("Invalid checksum format on line " ++ toString lineNumber)
      | some (d0, r0) =>
          if (pstrip ⟨d0⟩).length ≠ 64 then
            .error ("Invalid checksum digest on line " ++ toString lineNumber)
          else if pstrip ⟨r0⟩ = "" then
            .error ("Invalid checksum path on line " ++ toString lineNumber)
          else
            match parseChecksumLines (lineNumber + 1) rest with
            | .ok entries => .ok ((pstrip ⟨d0⟩, pstrip ⟨r0⟩) :: entries)
            | .error e => .error e

/-- `bundle._parse_checksum_file` over the raw text of `checksums.sha256`. -/
def parse_checksum_file (raw : String) : Except String (List (String × String)) :=
  parseChecksumLines 1 (splitLines raw)

/-- `bundle._count_jsonl_lines`: non-blank line count. -/
def count_jsonl_lines (raw : String) : Nat :=
  (splitLines raw).countP (fun line => pstrip line ≠ "")

def REQUIRED_BUNDLE_FILES : List String :=
  ["manifest.json", "decisions.jsonl", "lineage.json", "checksums.sha256"]

/-- The per-entry checksum loop of `verify_evidence_bundle`. -/
def checksumLoop (sha : String → String) (fs : FS) :
    List (String × String) → Nat → List String → List String →
      Nat × List String × List String
  | [], checked, errors, warnings => (checked, errors, warnings)
  | (digest, relPath) :: rest, checked, errors, warnings =>
      if relPath = "checksums.sha256" then
        checksumLoop sha fs rest checked errors
          (warnings ++ ["checksums.sha256 should not include itself"])
      else
        match fsGet fs relPath with
        | none =>
            checksumLoop sha fs rest checked
              (errors ++ ["Checksum file missing target: " ++ relPath]) warnings
        | some fd =>
            let actual := sha fd.raw
            if actual ≠ digest then
              checksumLoop sha fs rest (checked + 1)
                (errors ++ ["Checksum mismatch for " ++ relPath ++ ": expected "
                  ++ digest ++ ", observed " ++ actual]) warnings
            else checksumLoop sha fs rest (checked + 1) errors warnings

/-- The `manifest.files` loop: stops at the first non-string entry, otherwise
collects the missing names. -/
def filesLoop (fs : FS) : List JVal → List String → List String × List String
  | [], missing => ([], missing)
  | item :: rest, missing =>
      match item with
      | .jstr rel =>
          if fsExists fs rel then filesLoop fs rest missing
          else filesLoop fs rest (missing ++ [rel])
      | _ => (["manifest.files must contain only strings"], missing)

def sortStrings (l : List String) : List String :=
  List.insertionSort (fun a b => a ≤ b) l

/-- `bundle.verify_evidence_bundle`.  `fs = none` models a bundle path that
does not exist or is not a directory; exceptions in the source are
return-value errors here, so the function is total by construction. -/
def verify_evidence_bundle (sha : String → String) (bundleDirPath : String)
    (fs : Option FS) : VerificationResult :=
  match fs with
  | none =>
      ⟨false, 0, ["Bundle directory not found: " ++ bundleDirPath], []⟩
  | some fs =>
    let errors0 := (REQUIRED_BUNDLE_FILES.filter (fun n => !(fsExists fs n))).map
      (fun n => "Missing required file: " ++ n)
    let manifestStep : Option (List (String × JVal)) × List String :=
      match fsGet fs "manifest.json" with
      | some fd =>
          match read_json_object fd with
          | .ok fields => (some fields, errors0)
          | .error e => (none, errors0 ++ ["Invalid manifest.json: " ++ e])
      | none => (none, errors0)
    let manifestPayload := manifestStep.1
    let errors1 := manifestStep.2
    let checksumStep : List (String × String) × List String :=
      match fsGet fs "checksums.sha256" with
      | some fd =>
          match parse_checksum_file fd.raw with
          | .ok entries => (entries, errors1)
          | .error e => ([], errors1 ++ ["Invalid checksums.sha256: " ++ e])
      | none => ([], errors1)
    let loopOut := checksumLoop sha fs checksumStep.1 0 checksumStep.2 []
    let checked := loopOut.1
    let errors3 := loopOut.2.1
    let warnings1 := loopOut.2.2
    let errors4 :=
      match manifestPayload with
      | some payload =>
          let fErr :=
            match jget payload "files" with
            | some (.jarr items) =>
                let fl := filesLoop fs items []
                fl.1 ++
                  (if fl.2.isEmpty then [] else
                    ["manifest.files contains missing files: "
                      ++ joinWith ", " (sortStrings fl.2)])
            | _ => ["manifest.files must be a list"]
          let dErr :=
            match fsGet fs "decisions.jsonl" with
            | some fd =>
                let observed := count_jsonl_lines fd.raw
                match jget payload "decision_count" with
                | some (.jnum declared) =>
                    if declared ≠ (observed : Int) then
                      ["Decision count mismatch: manifest=" ++ toString declared
                        ++ ", decisions.jsonl=" ++ toString observed]
                    else []
                | _ => []
            | none => []
          errors3 ++ fErr ++ dErr
      | none => errors3
    ⟨errors4.isEmpty, checked, errors4, warnings1⟩

end RefuaReg

namespace RefuaReg

/-! ## Checklist engine (`checklist.py`) -/

/-- The outcome dictionary returned by one check evaluation function. -/
structure CheckOutcome where
  status : String
  details : String
  recommendation : String
  evidence : List String

/-- `_ChecklistContext`: the read-only evaluation context.  `fs` carries the
bundle directory contents (`none` when the directory is absent), standing in
for the `bundle_dir` path handle. -/
structure ChecklistCtx where
  bundle_dir : String
  fs : Option FS
  manifest : Option (List (String × JVal))
  lineage : Option (List (String × JVal))
  decisions : List (List (String × JVal))
  campaign_run : Option (List (String × JVal))
  verification_ok : Bool
  verification_errors : List String
  verification_warnings : List String

/-- `int(manifest.get(k)) if isinstance(.., int) else 0`. -/
def ctxIntField (m : Option (List (String × JVal))) (k : String) : Int :=
  match m with
  | some payload =>
      match jget payload k with
      | some (.jnum n) => n
      | _ => 0
  | none => 0

def ChecklistCtx.decision_count (ctx : ChecklistCtx) : Int :=
  ctxIntField ctx.manifest "decision_count"

def ChecklistCtx.model_count (ctx : ChecklistCtx) : Int :=
  ctxIntField ctx.manifest "model_count"

def ChecklistCtx.data_count (ctx : ChecklistCtx) : Int :=
  ctxIntField ctx.manifest "data_count"

def ChecklistCtx.manifest_warnings (ctx : ChecklistCtx) : List String :=
  match ctx.manifest with
  | some payload =>
      match jget payload "warnings" with
      | some (.jarr items) => items.map pyStr
      | _ => []
  | none => []

def ChecklistCtx.objective (ctx : ChecklistCtx) : String :=
  match ctx.campaign_run with
  | some payload =>
      match jget payload "objective" with
      | some (.jstr s) => pstrip s
      | _ => ""
  | none => ""

def ChecklistCtx.planner_response_text (ctx : ChecklistCtx) : String :=
  match ctx.campaign_run with
  | some payload =>
      match jget payload "planner_response_text" with
      | some (.jstr s) => pstrip s
      | _ => ""
  | none => ""

/-- Dict entries of a `calls` list. -/
def dictItems (v : Option JVal) : Option (List (List (String × JVal))) :=
  match v with
  | some (.jarr items) =>
      some (items.filterMap (fun item => match item with
        | .jobj fields => some fields
        | _ => none))
  | _ => none

def ChecklistCtx.plan_calls (ctx : ChecklistCtx) : List (List (String × JVal)) :=
  match ctx.campaign_run with
  | none => []
  | some payload =>
      let fromFinal := match jget payload "final_plan" with
        | some (.jobj finalFields) => dictItems (jget finalFields "calls")
        | _ => none
      match fromFinal with
      | some calls => calls
      | none =>
          let fromPlan := match jget payload "plan" with
            | some (.jobj planFields) => dictItems (jget planFields "calls")
            | _ => none
          match fromPlan with
          | some calls => calls
          | none => []

def ChecklistCtx.tool_results (ctx : ChecklistCtx) : List (List (String × JVal)) :=
  match ctx.campaign_run with
  | none => []
  | some payload =>
      match jget payload "results" with
      | some (.jarr items) =>
          items.filterMap (fun item => match item with
            | .jobj fields => some fields
            | _ => none)
      | _ => []

def ChecklistCtx.first_tool (ctx : ChecklistCtx) : Option String :=
  match ctx.plan_calls with
  | [] => none
  | firstCall :: _ =>
      match jget firstCall "tool" with
      | some (.jstr t) => some t
      | _ => none

def ChecklistCtx.tools_used (ctx : ChecklistCtx) : List String :=
  ctx.plan_calls.filterMap (fun call => match jget call "tool" with
    | some (.jstr t) => some t
    | _ => none)

/-- File existence relative to the bundle directory. -/
def ctxExists (ctx : ChecklistCtx) (name : String) : Bool :=
  match ctx.fs with
  | some fs => fsExists fs name
  | none => false

/-- Python `str.lower()` (ASCII). -/
def pyLower (s : String) : String := ⟨s.data.map Char.toLower⟩

def listIsPrefix : List Char → List Char → Bool
  | [], _ => true
  | _ :: _, [] => false
  | a :: x, b :: y => a == b && listIsPrefix x y

/-- Python `needle in hay` substring test. -/
def listIsInfix (needle : List Char) : List Char → Bool
  | [] => needle.isEmpty
  | c :: rest => listIsPrefix needle (c :: rest) || listIsInfix needle rest

def strContains (hay needle : String) : Bool := listIsInfix needle.data hay.data

mutual
/-- `checklist._flatten_keys`: the set of lowercased dotted key paths,
modelled as the list of added paths (membership-equivalent to the set). -/
def flattenKeys : JVal → String → List String
  | .jobj fields, prefixPath => flattenKeysP fields prefixPath
  | .jarr items, prefixPath => flattenKeysL items 0 prefixPath
  | _, _ => []
def flattenKeysL : List JVal → Nat → String → List String
  | [], _, _ => []
  | nested :: rest, idx, prefixPath =>
      let path := if prefixPath = "" then "[" ++ toString idx ++ "]"
        else prefixPath ++ "[" ++ toString idx ++ "]"
      flattenKeys nested path ++ flattenKeysL rest (idx + 1) prefixPath
def flattenKeysP : List (String × JVal) → String → List String
  | [], _ => []
  | (k, nested) :: rest, prefixPath =>
      let path := if prefixPath = "" then k else prefixPath ++ "." ++ k
      pyLower path :: (flattenKeys nested path ++ flattenKeysP rest prefixPath)
end

def check_bundle_structure (ctx : ChecklistCtx) : CheckOutcome :=
  let required := ["manifest.json", "decisions.jsonl", "lineage.json",
    "checksums.sha256", "artifacts/campaign_run.json"]
  let missing := required.filter (fun name => !(ctxExists ctx name))
  if !missing.isEmpty then
    ⟨"fail", "Missing required bundle files.",
      "Rebuild bundle and ensure required artifacts are present.", missing⟩
  else
    ⟨"pass", "All required bundle files are present.", "", required⟩

def check_integrity_verification (ctx : ChecklistCtx) : CheckOutcome :=
  if ctx.verification_ok then
    ⟨"pass", "Bundle integrity verification passed.", "",
      ["verify_evidence_bundle.ok=true"]⟩
  else
    ⟨"fail", "Bundle integrity verification failed.",
      "Regenerate bundle and investigate checksum or missing-file errors.",
      ctx.verification_errors⟩

def check_objective_defined (ctx : ChecklistCtx) : CheckOutcome :=
  if ctx.objective ≠ "" then
    ⟨"pass", "Campaign objective is present.", "", [ctx.objective]⟩
  else
    ⟨"fail", "Campaign objective is missing.",
      "Set a clear, measurable campaign objective in run payload.", []⟩

def check_executable_plan_present (ctx : ChecklistCtx) : CheckOutcome :=
  let calls := ctx.plan_calls
  if !calls.isEmpty then
    ⟨"pass", "Executable tool plan is present.", "",
      ["call_count=" ++ toString calls.length]⟩
  else
    ⟨"fail", "No executable tool plan calls were found.",
      "Ensure plan/final_plan contains a `calls` list.", []⟩

def check_validation_first_policy (ctx : ChecklistCtx) : CheckOutcome :=
  match ctx.first_tool with
  | none =>
      ⟨"fail", "No first tool is available for validation-first policy.",
        "Provide a non-empty plan.", []⟩
  | some first_tool =>
      if first_tool = "refua_validate_spec" then
        ⟨"pass", "Validation-first policy satisfied.", "",
          ["first_tool=" ++ first_tool]⟩
      else
        ⟨"fail", "Plan does not start with `refua_validate_spec`.",
          "Run validate_spec before expensive fold/affinity calls.",
          ["first_tool=" ++ first_tool]⟩

def check_tool_results_present (ctx : ChecklistCtx) : CheckOutcome :=
  let results := ctx.tool_results
  if !results.isEmpty then
    ⟨"pass", "Tool execution results are present.", "",
      ["result_count=" ++ toString results.length]⟩
  else
    ⟨"manual_review",
      "No tool execution results were found (dry-run or missing outputs).",
      "Attach execution outputs for reproducible evidence.", []⟩

def check_traceability (ctx : ChecklistCtx) : CheckOutcome :=
  match ctx.manifest with
  | none =>
      ⟨"fail", "Manifest is missing or invalid.", "Rebuild the evidence bundle.", []⟩
  | some _ =>
      if ctx.decision_count < 1 then
        ⟨"fail", "No decision records were captured.",
          "Ensure campaign outputs include plan/results and rebuild bundle.",
          ["decision_count=" ++ toString ctx.decision_count]⟩
      else
        let node_count := match ctx.lineage with
          | some lineagePayload =>
              match jget lineagePayload "nodes" with
              | some (.jarr nodes) => nodes.length
              | _ => 0
          | none => 0
        let edge_count := match ctx.lineage with
          | some lineagePayload =>
              match jget lineagePayload "edges" with
              | some (.jarr edges) => edges.length
              | _ => 0
          | none => 0
        if node_count = 0 ∨ edge_count = 0 then
          ⟨"fail", "Lineage graph is empty or malformed.",
            "Inspect `lineage.json` generation and rebuild.",
            ["node_count=" ++ toString node_count, "edge_count=" ++ toString edge_count]⟩
        else
          ⟨"pass", "Decision trail and lineage graph are present.", "",
            ["decision_count=" ++ toString ctx.decision_count,
             "node_count=" ++ toString node_count,
             "edge_count=" ++ toString edge_count]⟩

def check_model_provenance (ctx : ChecklistCtx) : CheckOutcome :=
  if ctx.model_count < 1 then
    ⟨"fail", "No model provenance records were captured.",
      "Include tool results and model metadata in campaign output.",
      ["model_count=" ++ toString ctx.model_count]⟩
  else
    ⟨"pass", "Model provenance records are present.", "",
      ["model_count=" ++ toString ctx.model_count]⟩

def check_data_provenance (ctx : ChecklistCtx) : CheckOutcome :=
  if ctx.data_count < 1 then
    ⟨"fail", "No data provenance records were captured.",
      "Provide `--data-manifest` inputs during bundle build when external datasets inform campaign decisions.",
      ["data_count=" ++ toString ctx.data_count]⟩
  else
    ⟨"pass", "Data provenance records are present.", "",
      ["data_count=" ++ toString ctx.data_count]⟩

def check_execution_provenance (ctx : ChecklistCtx) : CheckOutcome :=
  match ctx.manifest with
  | none => ⟨"fail", "Manifest is missing or invalid.", "Rebuild bundle.", []⟩
  | some payload =>
      match jget payload "execution_provenance" with
      | some (.jobj execution) =>
          (match jget execution "runtime", jget execution "git",
              jget execution "dependencies" with
           | some (.jobj runtime), some (.jobj git), some (.jobj dependencies) =>
              ⟨"pass", "Execution provenance is present and structured.", "",
                ["runtime_keys=" ++ toString runtime.length,
                 "git_available=" ++ (match jget git "available" with
                   | some v => pyStr v
                   | none => "None"),
                 "dependency_keys=" ++ toString dependencies.length]⟩
           | _, _, _ =>
              ⟨"fail", "Execution provenance block is malformed.",
                "Inspect provenance serialization and rebuild bundle.", []⟩)
      | _ =>
          ⟨"fail", "Execution provenance block is missing.",
            "Capture execution provenance during bundle generation.", []⟩

def uncertaintyTokens : List String :=
  ["binding_probability", "confidence", "confidence_score", "uncertainty",
   "ci_low", "ci_high", "warnings"]

/-- Keys of one result entry's `output`, recursively flattened. -/
def outputKeys (item : List (String × JVal)) : List String :=
  flattenKeys ((jget item "output").getD .jnull) ""

def check_uncertainty_reporting (ctx : ChecklistCtx) : CheckOutcome :=
  let results := ctx.tool_results
  if results.isEmpty then
    ⟨"manual_review", "No tool results available to evaluate uncertainty reporting.",
      "Attach execution outputs with confidence/uncertainty fields.", []⟩
  else
    let matched := uncertaintyTokens.filter (fun token =>
      results.any (fun item => (outputKeys item).any (fun key => strContains key token)))
    if !matched.isEmpty then
      ⟨"pass", "Uncertainty/confidence fields were detected in outputs.", "",
        sortStrings matched⟩
    else
      ⟨"fail", "No uncertainty/confidence fields detected in tool outputs.",
        "Include confidence metrics and uncertainty qualifiers in outputs.", []⟩

def safetyTokens : List String :=
  ["admet", "tox", "toxic", "hERG", "ames", "warning", "warnings",
   "assessment", "safety"]

def check_safety_signal_capture (ctx : ChecklistCtx) : CheckOutcome :=
  let results := ctx.tool_results
  if results.isEmpty then
    ⟨"manual_review", "No tool results available to evaluate safety signal capture.",
      "Attach safety-related outputs (ADMET/toxicity/warnings).", []⟩
  else
    let matched := (safetyTokens.map pyLower).filter (fun token =>
      results.any (fun item => (outputKeys item).any (fun key => strContains key token)))
    if !matched.isEmpty then
      ⟨"pass", "Safety-related signal fields are present in outputs.", "",
        sortStrings matched⟩
    else
      ⟨"fail", "No safety-related fields detected in tool outputs.",
        "Include ADMET/toxicity/warning outputs in decision evidence.", []⟩

def reproducibilityKeys : List String :=
  ["bundle_id", "campaign_run_id", "created_at", "source_rel_path", "decision_count"]

def check_reproducibility_identifiers (ctx : ChecklistCtx) : CheckOutcome :=
  match ctx.manifest with
  | none => ⟨"fail", "Manifest is missing.", "Rebuild bundle.", []⟩
  | some payload =>
      let missing := reproducibilityKeys.filter (fun name => (jget payload name).isNone)
      if !missing.isEmpty then
        ⟨"fail", "Manifest is missing reproducibility identifiers.",
          "Populate missing identifiers during bundle generation.", missing⟩
      else
        ⟨"pass", "Bundle contains core reproducibility identifiers.", "",
          reproducibilityKeys⟩

def prohibitedPhrases : List String :=
  ["guaranteed cure", "guaranteed remission", "proven cure", "certain cure",
   "eradicate all disease"]

def check_no_prohibited_claims (ctx : ChecklistCtx) : CheckOutcome :=
  let text_blobs :=
    (if ctx.objective ≠ "" then [ctx.objective] else []) ++
    (if ctx.planner_response_text ≠ "" then [ctx.planner_response_text] else [])
  let lowered := pyLower (joinWith "\n" text_blobs)
  let matchedPhrases := prohibitedPhrases.filter (fun phrase => strContains lowered phrase)
  if !matchedPhrases.isEmpty then
    ⟨"fail", "Prohibited overclaim language detected.",
      "Replace absolute cure/guarantee language with evidence-qualified claims.",
      matchedPhrases⟩
  else
    ⟨"pass", "No prohibited overclaim phrases detected.", "", []⟩

def benchmarkTokens : List String :=
  ["benchmark", "baseline", "compare", "gate", "validation", "refua-bench"]

def check_benchmark_evidence_linkage (ctx : ChecklistCtx) : CheckOutcome :=
  match ctx.manifest with
  | none =>
      ⟨"manual_review", "Manifest unavailable to inspect benchmark artifacts.",
        "Attach benchmark and regression reports.", []⟩
  | some payload =>
      let files := match jget payload "files" with
        | some (.jarr items) => items
        | _ => []
      let matched := files.filterMap (fun path => match path with
        | .jstr s =>
            if benchmarkTokens.any (fun token => strContains (pyLower s) token) then
              some s
            else none
        | _ => none)
      if !matched.isEmpty then
        ⟨"pass", "Benchmark/regression artifacts were detected in bundle files.", "",
          matched⟩
      else
        ⟨"manual_review", "No explicit benchmark/regression artifact linkage found.",
          "Attach `refua-bench` compare/gate outputs for model-change justification.",
          []⟩

def check_warning_review (ctx : ChecklistCtx) : CheckOutcome :=
  let warnings := ctx.manifest_warnings
  if !warnings.isEmpty then
    ⟨"manual_review", "Bundle contains warnings that require reviewer sign-off.",
      "Review all warning entries and document disposition.", warnings⟩
  else
    ⟨"pass", "No bundle warnings were reported.", "", []⟩

def manual_assay_strategy (_ctx : ChecklistCtx) : CheckOutcome :=
  ⟨"manual_review", "Assay strategy and endpoint definitions require SME review.",
    "Attach assay protocols, endpoint rationale, and acceptance criteria.", []⟩

def manual_experimental_controls (_ctx : ChecklistCtx) : CheckOutcome :=
  ⟨"manual_review",
    "Experimental controls and reproducibility protocol require manual review.",
    "Document positive/negative controls and replication strategy.", []⟩

def manual_human_data_governance (_ctx : ChecklistCtx) : CheckOutcome :=
  ⟨"manual_review",
    "Human-data governance, privacy, and consent controls require manual review.",
    "Attach IRB/privacy governance documentation when applicable.", []⟩

def manual_translation_plan (_ctx : ChecklistCtx) : CheckOutcome :=
  ⟨"manual_review", "PK/PD and translational validation strategy require manual review.",
    "Link in vitro, in vivo, and translational bridge plans.", []⟩

def manual_change_control (_ctx : ChecklistCtx) : CheckOutcome :=
  ⟨"manual_review", "Model/data change control approvals require manual review.",
    "Attach change tickets, approvals, and impact assessments.", []⟩

def manual_benefit_risk (_ctx : ChecklistCtx) : CheckOutcome :=
  ⟨"manual_review", "Benefit-risk rationale requires manual clinical/scientific review.",
    "Provide reviewer-signed benefit-risk narrative.", []⟩

def manual_gxp_readiness (_ctx : ChecklistCtx) : CheckOutcome :=
  ⟨"manual_review", "GxP readiness and quality-system alignment require manual review.",
    "Map bundle artifacts to relevant GxP/quality SOP controls.", []⟩

def manual_submission_mapping (_ctx : ChecklistCtx) : CheckOutcome :=
  ⟨"manual_review",
    "Regulatory submission mapping to dossier sections requires manual review.",
    "Map evidence artifacts to IND/CTA sections and reviewer notes.", []⟩

end RefuaReg

namespace RefuaReg

/-- One checklist check definition (`ChecklistItem`). -/
structure ChecklistItemDef where
  check_id : String
  title : String
  domain : String
  severity : String
  automated : Bool
  regulatory_tags : List String
  evaluate : ChecklistCtx → CheckOutcome

/-- One evaluated checklist row, as assembled in `evaluate_regulatory_checklist`. -/
structure EvalItem where
  id : String
  title : String
  domain : String
  severity : String
  automated : Bool
  regulatory_tags : List String
  status : String
  details : String
  recommendation : String
  evidence : List String

/-- The derived summary dictionary of a checklist report. -/
structure ChecklistSummary where
  total_checks : Nat
  passed : Nat
  failed : Nat
  manual_review : Nat
  not_applicable : Nat
  auto_checks_passed : Bool
  submission_ready : Bool
  blocking_failed : Nat
  by_severity : List (String × (Nat × Nat × Nat))

/-- `checklist._count`: items with the given severity and status. -/
def sevStatusCount (items : List EvalItem) (severity status : String) : Nat :=
  items.countP (fun item => item.severity == severity && item.status == status)

/-- `checklist._build_summary`. -/
def build_summary (items : List EvalItem) : ChecklistSummary :=
  let passed := items.countP (fun item => item.status == "pass")
  let failed := items.countP (fun item => item.status == "fail")
  let manual_review := items.countP (fun item => item.status == "manual_review")
  let not_applicable := items.countP (fun item => item.status == "not_applicable")
  let auto_failed := items.countP (fun item => item.automated && item.status == "fail")
  let auto_manual :=
    items.countP (fun item => item.automated && item.status == "manual_review")
  let blocking_failed := items.countP (fun item =>
    item.status == "fail" && (item.severity == "critical" || item.severity == "high"))
  { total_checks := items.length
    passed := passed
    failed := failed
    manual_review := manual_review
    not_applicable := not_applicable
    auto_checks_passed := auto_failed == 0 && auto_manual == 0
    submission_ready := failed == 0 && manual_review == 0
    blocking_failed := blocking_failed
    by_severity :=
      ["critical", "high", "medium", "low"].map (fun severity =>
        (severity,
          (sevStatusCount items severity "pass",
           sevStatusCount items severity "fail",
           sevStatusCount items severity "manual_review"))) }

def CORE_TEMPLATE : List ChecklistItemDef :=
  [⟨"bundle_structure", "Evidence bundle contains required files",
    "audit_integrity", "critical", true, ["traceability", "audit"],
    check_bundle_structure⟩,
   ⟨"integrity_verification", "Evidence bundle integrity verification passes",
    "audit_integrity", "critical", true, ["integrity", "audit"],
    check_integrity_verification⟩,
   ⟨"objective_defined", "Campaign objective is explicitly defined",
    "campaign_design", "critical", true, ["intended_use"],
    check_objective_defined⟩,
   ⟨"executable_plan_present", "Executable plan with tool calls is present",
    "campaign_design", "critical", true, ["traceability"],
    check_executable_plan_present⟩,
   ⟨"validation_first_policy", "Validation-first tool policy is satisfied",
    "model_execution", "high", true, ["risk_control"],
    check_validation_first_policy⟩,
   ⟨"traceability_lineage", "Decision traceability and lineage graph are complete",
    "traceability", "high", true, ["audit", "lineage"],
    check_traceability⟩,
   ⟨"model_provenance", "Model provenance is captured",
    "model_governance", "high", true, ["reproducibility"],
    check_model_provenance⟩,
   ⟨"data_provenance", "Data provenance is captured",
    "data_governance", "high", true, ["reproducibility", "data_lineage"],
    check_data_provenance⟩,
   ⟨"execution_provenance", "Execution environment provenance is captured",
    "reproducibility", "high", true, ["reproducibility", "audit"],
    check_execution_provenance⟩,
   ⟨"tool_results_present", "Tool execution results are present",
    "evidence_completeness", "high", true, ["evidence"],
    check_tool_results_present⟩,
   ⟨"uncertainty_reporting", "Uncertainty/confidence reporting is present",
    "scientific_rigor", "medium", true, ["uncertainty"],
    check_uncertainty_reporting⟩,
   ⟨"safety_signal_capture", "Safety signal capture fields are present",
    "safety", "high", true, ["safety"],
    check_safety_signal_capture⟩,
   ⟨"reproducibility_identifiers", "Bundle reproducibility identifiers are complete",
    "reproducibility", "medium", true, ["traceability"],
    check_reproducibility_identifiers⟩,
   ⟨"no_prohibited_claims", "No prohibited overclaim language is present",
    "communications", "critical", true, ["risk_control", "labeling"],
    check_no_prohibited_claims⟩,
   ⟨"warning_review", "Warnings have been dispositioned",
    "quality_review", "medium", true, ["quality_system"],
    check_warning_review⟩]

/-- The eight always-manual domain checks added by the comprehensive and FDA
templates. -/
def MANUAL_COMPREHENSIVE_CHECKS : List ChecklistItemDef :=
  [⟨"assay_strategy_documented", "Assay strategy and endpoints are documented",
    "experimental_design", "high", false, ["scientific_rigor"],
    manual_assay_strategy⟩,
   ⟨"experimental_controls_documented",
    "Experimental controls and replication are documented",
    "experimental_design", "high", false, ["scientific_rigor", "quality_system"],
    manual_experimental_controls⟩,
   ⟨"human_data_governance", "Human-data governance controls are documented",
    "governance", "high", false, ["privacy", "ethics"],
    manual_human_data_governance⟩,
   ⟨"translation_plan", "Translational PK/PD validation plan is documented",
    "translation", "high", false, ["translation"],
    manual_translation_plan⟩,
   ⟨"change_control", "Model/data change-control approvals are documented",
    "quality_system", "high", false, ["change_control", "quality_system"],
    manual_change_control⟩,
   ⟨"benefit_risk_narrative", "Benefit-risk narrative is documented",
    "clinical_rationale", "high", false, ["benefit_risk"],
    manual_benefit_risk⟩,
   ⟨"gxp_readiness", "GxP readiness mapping is documented",
    "quality_system", "medium", false, ["gxp", "quality_system"],
    manual_gxp_readiness⟩]

def DRUG_DISCOVERY_COMPREHENSIVE_TEMPLATE : List ChecklistItemDef :=
  CORE_TEMPLATE ++
  [⟨"benchmark_evidence_linkage", "Benchmark/regression evidence linkage is present",
    "model_validation", "medium", true, ["validation", "change_control"],
    check_benchmark_evidence_linkage⟩] ++
  MANUAL_COMPREHENSIVE_CHECKS

def FDA_CDER_AI_ML_TEMPLATE : List ChecklistItemDef :=
  DRUG_DISCOVERY_COMPREHENSIVE_TEMPLATE ++
  [⟨"submission_mapping", "Evidence artifacts are mapped to submission sections",
    "regulatory_submission", "high", false, ["submission"],
    manual_submission_mapping⟩]

/-- `_TEMPLATES` name lookup. -/
def templatesLookup (name : String) : Option (List ChecklistItemDef) :=
  if name = "core" then some CORE_TEMPLATE
  else if name = "drug_discovery_comprehensive" then
    some DRUG_DISCOVERY_COMPREHENSIVE_TEMPLATE
  else if name = "fda_cder_ai_ml" then some FDA_CDER_AI_ML_TEMPLATE
  else none

/-- The checklist report structure produced by `evaluate_regulatory_checklist`.
`bundle_id` / `campaign_run_id` are raw manifest values (`none` for Python
`None`). -/
structure ChecklistReport where
  schema_version : String
  template : String
  generated_at : String
  bundle_dir : String
  bundle_id : Option JVal
  campaign_run_id : Option JVal
  summary : ChecklistSummary
  items : List EvalItem

/-- `checklist._safe_read_json_object`. -/
def safe_read_json_object (ofs : Option FS) (path : String) :
    Option (List (String × JVal)) :=
  match ofs with
  | none => none
  | some fs =>
      match fsGet fs path with
      | none => none
      | some fd =>
          match read_json_object fd with
          | .ok fields => some fields
          | .error _ => none

/-- `checklist._load_decisions`: per-line parses of `decisions.jsonl`,
keeping only objects. -/
def load_decisions (ofs : Option FS) (path : String) :
    List (List (String × JVal)) :=
  match ofs with
  | none => []
  | some fs =>
      match fsGet fs path with
      | none => []
      | some fd =>
          fd.jsonLines.filterMap (fun parsed => match parsed with
            | some (.jobj fields) => some fields
            | _ => none)

/-- Context assembly inside `evaluate_regulatory_checklist`. -/
def mkChecklistContext (sha : String → String) (bundleDirPath : String)
    (ofs : Option FS) : ChecklistCtx :=
  let verification := verify_evidence_bundle sha bundleDirPath ofs
  { bundle_dir := bundleDirPath
    fs := ofs
    manifest := safe_read_json_object ofs "manifest.json"
    lineage := safe_read_json_object ofs "lineage.json"
    decisions := load_decisions ofs "decisions.jsonl"
    campaign_run := safe_read_json_object ofs "artifacts/campaign_run.json"
    verification_ok := verification.ok
    verification_errors := verification.errors
    verification_warnings := verification.warnings }

/-- Evaluate each check of a template against the context, in order. -/
def evalChecks (ctx : ChecklistCtx) (checks : List ChecklistItemDef) : List EvalItem :=
  checks.map (fun check =>
    let payload := check.evaluate ctx
    { id := check.check_id
      title := check.title
      domain := check.domain
      severity := check.severity
      automated := check.automated
      regulatory_tags := check.regulatory_tags
      status := payload.status
      details := payload.details
      recommendation := payload.recommendation
      evidence := payload.evidence })

/-- `checklist.evaluate_regulatory_checklist`; the raised `ValueError` for an
unknown template is the error branch. -/
def evaluate_regulatory_checklist (sha : String → String) (now : String)
    (bundleDirPath : String) (ofs : Option FS) (template : String) :
    Except String ChecklistReport :=
  match templatesLookup template with
  | none =>
      .error ("Unknown checklist template \x27" ++ template
        ++ "\x27. Available: core, drug_discovery_comprehensive, fda_cder_ai_ml")
  | some checks =>
      let ctx := mkChecklistContext sha bundleDirPath ofs
      let items := evalChecks ctx checks
      let summary := build_summary items
      .ok
        { schema_version := "1.1.0"
          template := template
          generated_at := now
          bundle_dir := bundleDirPath
          bundle_id := match ctx.manifest with
            | some m => jget m "bundle_id"
            | none => none
          campaign_run_id := match ctx.manifest with
            | some m => jget m "campaign_run_id"
            | none => none
          summary := summary
          items := items }

end RefuaReg

namespace RefuaReg

/-- Serialization of a checklist summary (for `write_json`). -/
def summaryToJVal (s : ChecklistSummary) : JVal :=
  .jobj [
    ("total_checks", .jnum s.total_checks),
    ("passed", .jnum s.passed),
    ("failed", .jnum s.failed),
    ("manual_review", .jnum s.manual_review),
    ("not_applicable", .jnum s.not_applicable),
    ("auto_checks_passed", .jbool s.auto_checks_passed),
    ("submission_ready", .jbool s.submission_ready),
    ("blocking_failed", .jnum s.blocking_failed),
    ("by_severity", .jobj (s.by_severity.map (fun sev =>
      (sev.1, .jobj [("pass", .jnum sev.2.1),
                     ("fail", .jnum sev.2.2.1),
                     ("manual_review", .jnum sev.2.2.2)]))))]

def evalItemToJVal (item : EvalItem) : JVal :=
  .jobj [
    ("id", .jstr item.id),
    ("title", .jstr item.title),
    ("domain", .jstr item.domain),
    ("severity", .jstr item.severity),
    ("automated", .jbool item.automated),
    ("regulatory_tags", .jarr (item.regulatory_tags.map .jstr)),
    ("status", .jstr item.status),
    ("details", .jstr item.details),
    ("recommendation", .jstr item.recommendation),
    ("evidence", .jarr (item.evidence.map .jstr))]

def optJ : Option JVal → JVal
  | none => .jnull
  | some v => v

def reportToJVal (r : ChecklistReport) : JVal :=
  .jobj [
    ("schema_version", .jstr r.schema_version),
    ("template", .jstr r.template),
    ("generated_at", .jstr r.generated_at),
    ("bundle_dir", .jstr r.bundle_dir),
    ("bundle_id", optJ r.bundle_id),
    ("campaign_run_id", optJ r.campaign_run_id),
    ("summary", summaryToJVal r.summary),
    ("items", .jarr (r.items.map evalItemToJVal))]

def pyBool (b : Bool) : String := if b then "True" else "False"

/-- `details.replace("|", "\\|")` for the markdown table. -/
def escPipesChars : List Char → String
  | [] => ""
  | c :: rest => (if c = '|' then "\\|" else String.mk [c]) ++ escPipesChars rest

def escPipes (s : String) : String := escPipesChars s.data

/-- Rendering of a report field that may hold a raw manifest value. -/
def renderOptJVal : Option JVal → String
  | none => "None"
  | some v => pyStr v

/-- `checklist.render_checklist_markdown`: the deterministic, purely
presentational rendering. -/
def render_checklist_markdown (report : ChecklistReport) : String :=
  let headerLines : List String :=
    ["# Regulatory Checklist: " ++ report.template,
     "",
     "- Bundle ID: `" ++ renderOptJVal report.bundle_id ++ "`",
     "- Campaign Run ID: `" ++ renderOptJVal report.campaign_run_id ++ "`",
     "- Generated At: `" ++ report.generated_at ++ "`",
     "",
     "## Summary",
     "",
     "- Total Checks: `" ++ toString report.summary.total_checks ++ "`",
     "- Passed: `" ++ toString report.summary.passed ++ "`",
     "- Failed: `" ++ toString report.summary.failed ++ "`",
     "- Manual Review: `" ++ toString report.summary.manual_review ++ "`",
     "- Not Applicable: `" ++ toString report.summary.not_applicable ++ "`",
     "- Auto Checks Passed: `" ++ pyBool report.summary.auto_checks_passed ++ "`",
     "- Submission Ready: `" ++ pyBool report.summary.submission_ready ++ "`",
     "- Blocking Failed: `" ++ toString report.summary.blocking_failed ++ "`",
     "",
     "## Check Items",
     "",
     "| ID | Domain | Severity | Automated | Status | Details |",
     "|---|---|---|---|---|---|"]
  let rows := report.items.map (fun item =>
    "| " ++ item.id ++ " | " ++ item.domain ++ " | " ++ item.severity ++ " | "
      ++ pyBool item.automated ++ " | " ++ item.status ++ " | "
      ++ escPipes item.details ++ " |")
  joinWith "\n" (headerLines ++ rows) ++ "\n"

end RefuaReg

namespace RefuaReg

/-! ## Bundle builder (`bundle.py`)

The build is modelled for the claim scenario: the campaign record exists and
parses as a JSON object (`recordText` with parse `payload`), the output
directory is fresh (nonexistent or empty), and no external data manifests or
extra artifacts are supplied, matching the builder's defaults.  Execution
provenance is the opaque external-collaborator blob `execProv`.  `now`
stands for the `utcnow_iso()` readings and `sourcePathStr` for
`str(campaign_run_path)`.  Aborting `ValueError`s become the error branch.
-/

def sortFS (fs : FS) : FS :=
  List.insertionSort (fun a b : String × FileData => a.1 ≤ b.1) fs

/-- `bundle._bundle_file_list`. -/
def bundleFileList (fs : FS) (includeChecksums : Bool) : List String :=
  (sortStrings (fs.map (fun e => e.1))).filter
    (fun n => includeChecksums || n ≠ "checksums.sha256")

def checksumLinesText : List (String × String) → String
  | [] => ""
  | (digest, relName) :: rest => digest ++ "  " ++ relName ++ "\n" ++ checksumLinesText rest

/-- The checksum entries `_write_checksums` computes: every file but the
checksum file itself, in sorted path order, paired with its digest. -/
def checksumEntriesOf (sha : String → String) (fs : FS) : List (String × String) :=
  ((sortFS fs).filter (fun e => e.1 ≠ "checksums.sha256")).map
    (fun e => (sha e.2.raw, e.1))

/-- `bundle._write_checksums`. -/
def write_checksums (sha : String → String) (fs : FS) : FS :=
  fsWrite fs "checksums.sha256" (fdText (checksumLinesText (checksumEntriesOf sha fs)))

/-- One template-summary dictionary of `_generate_checklist_reports`. -/
def templateSummaryJVal (r : ChecklistReport) : JVal :=
  .jobj [
    ("template", .jstr r.template),
    ("total_checks", .jnum r.summary.total_checks),
    ("failed", .jnum r.summary.failed),
    ("manual_review", .jnum r.summary.manual_review),
    ("blocking_failed", .jnum r.summary.blocking_failed),
    ("auto_checks_passed", .jbool r.summary.auto_checks_passed),
    ("submission_ready", .jbool r.summary.submission_ready)]

/-- The aggregate block of `_generate_checklist_reports`. -/
def checklistAggregateJVal (reports : List ChecklistReport) : JVal :=
  .jobj [
    ("template_count", .jnum reports.length),
    ("failed_templates", .jarr ((reports.filter (fun r => r.summary.failed > 0)).map
      (fun r => .jstr r.template))),
    ("manual_review_templates",
      .jarr ((reports.filter (fun r => r.summary.manual_review > 0)).map
        (fun r => .jstr r.template))),
    ("blocking_failed_templates",
      .jarr ((reports.filter (fun r => r.summary.blocking_failed > 0)).map
        (fun r => .jstr r.template)))]

def checklistSummaryJVal (reports : List ChecklistReport) : JVal :=
  .jobj [("templates", .jarr (reports.map templateSummaryJVal)),
         ("aggregate", checklistAggregateJVal reports)]

/-- The per-template loop of `_generate_checklist_reports`: evaluate against
the bundle as written so far, then write the JSON and Markdown renderings. -/
def checklistGenLoop (sha : String → String) (now dirPath : String) :
    List String → FS → List ChecklistReport → List String →
      Except String (FS × List ChecklistReport × List String)
  | [], fs, reports, relPaths => .ok (fs, reports, relPaths)
  | template :: rest, fs, reports, relPaths =>
      match evaluate_regulatory_checklist sha now dirPath (some fs) template with
      | .error e => .error e
      | .ok report =>
          let jsonPath := "checklists/" ++ template ++ ".json"
          let mdPath := "checklists/" ++ template ++ ".md"
          let fs2 := fsWrite fs jsonPath (fdJson (reportToJVal report))
          let fs3 := fsWrite fs2 mdPath (fdText (render_checklist_markdown report))
          checklistGenLoop sha now dirPath rest fs3 (reports ++ [report])
            (relPaths ++ [jsonPath, mdPath])

/-- `bundle._enforce_checklist_policy`. -/
def enforce_checklist_policy (reports : List ChecklistReport)
    (strict require_no_manual_review : Bool) : Except String Unit :=
  if !strict && !require_no_manual_review then .ok ()
  else
    let failed_templates := reports.filterMap (fun r =>
      if strict && r.summary.failed > 0 then some r.template else none)
    let manual_templates := reports.filterMap (fun r =>
      if require_no_manual_review && r.summary.manual_review > 0 then
        some r.template
      else none)
    let errors :=
      (if !failed_templates.isEmpty then
        ["Checklist strict mode failed for templates: "
          ++ joinWith ", " (sortStrings failed_templates)]
      else []) ++
      (if !manual_templates.isEmpty then
        ["Checklist no-manual-review mode failed for templates: "
          ++ joinWith ", " (sortStrings manual_templates)]
      else [])
    if !errors.isEmpty then .error (joinWith "; " errors) else .ok ()

def BUNDLE_SCHEMA_VERSION : String := "1.0.0"

def DEFAULT_CHECKLIST_TEMPLATES : List String := ["drug_discovery_comprehensive"]

/-- `bundle.build_evidence_bundle` for a fresh output directory with no data
manifests and no extra artifacts; returns the resulting bundle directory
contents. -/
def build_evidence_bundle (sha uh : String → String) (now : String)
    (recordText : String) (payload : List (String × JVal)) (sourcePathStr : String)
    (execProv : JVal) (source_kind : String) (bundle_id : Option String)
    (model_name model_version : Option String) (outputDirPath : String)
    (include_checklists : Bool) (checklist_templates : List String)
    (checklist_strict checklist_require_no_manual_review : Bool) :
    Except String FS :=
  let resolved_templates :=
    if checklist_templates.isEmpty then DEFAULT_CHECKLIST_TEMPLATES
    else checklist_templates
  let campaign_run_id := infer_campaign_run_id uh payload sourcePathStr
  let resolved_bundle_id := match bundle_id with
    | some b => if b ≠ "" then b else stable_id uh ["bundle", campaign_run_id, now]
    | none => stable_id uh ["bundle", campaign_run_id, now]
  let decisions := extract_decisions_from_campaign uh now payload campaign_run_id
  let models := extract_model_provenance payload model_name model_version
  let datasets : List DataProvenance := []
  let copiedArtifact : ArtifactRef :=
    ⟨"campaign_run", "campaign_run", "artifacts/campaign_run.json",
      sha recordText, recordText.length, some "application/json", []⟩
  let copied_artifacts := [copiedArtifact]
  let lineage := build_lineage_graph campaign_run_id decisions copied_artifacts
    models datasets
  let fs1 : FS := fsWrite [] "artifacts/campaign_run.json"
    ⟨recordText, some (.jobj payload), []⟩
  let fs2 := fsWrite fs1 "decisions.jsonl" (fdJsonl (decisions.map decisionToJVal))
  let fs3 := fsWrite fs2 "lineage.json" (fdJson (lineageToJVal lineage))
  let mkManifest := fun (files : List String) (checklist_reports : List String)
      (checklist_summary : JVal) =>
    ({ schema_version := BUNDLE_SCHEMA_VERSION
       bundle_id := resolved_bundle_id
       created_at := now
       campaign_run_id := campaign_run_id
       source_kind := source_kind
       source_rel_path := "artifacts/campaign_run.json"
       decision_count := decisions.length
       artifact_count := copied_artifacts.length
       model_count := models.length
       data_count := datasets.length
       files := files
       model_provenance := models
       data_provenance := datasets
       execution_provenance := execProv
       checklist_reports := checklist_reports
       checklist_summary := checklist_summary
       warnings := [] } : EvidenceBundleManifest)
  let bootstrap_manifest := mkManifest (bundleFileList fs3 false) [] (.jobj [])
  let fs4 := fsWrite fs3 "manifest.json" (fdJson (manifestToJVal bootstrap_manifest))
  let fs5 := write_checksums sha fs4
  let checklistStep : Except String (FS × List String × JVal) :=
    if include_checklists && !resolved_templates.isEmpty then
      match checklistGenLoop sha now outputDirPath resolved_templates fs5 [] [] with
      | .error e => .error e
      | .ok (fs6, reports, relPaths) =>
          match enforce_checklist_policy reports checklist_strict
              checklist_require_no_manual_review with
          | .error e => .error e
          | .ok _ => .ok (fs6, relPaths, checklistSummaryJVal reports)
    else .ok (fs5, [], .jobj [])
  match checklistStep with
  | .error e => .error e
  | .ok (fs6, relPaths, summaryJ) =>
      let final_manifest := mkManifest (bundleFileList fs6 false) relPaths summaryJ
      let fs7 := fsWrite fs6 "manifest.json" (fdJson (manifestToJVal final_manifest))
      .ok (write_checksums sha fs7)

end RefuaReg

namespace RefuaReg

/-! ## Claim theorems -/

/-- C10: `stable_id` strips leading and trailing whitespace from each part
before hashing: the id of a part list equals the id of its stripped parts,
and any two part lists that agree part-by-part after stripping (for example
campaign-run ids differing only in surrounding whitespace) produce identical
ids, for every hash primitive. -/
theorem C10_stable_id_strip_normalization (uh : String → String)
    (parts : List String) :
    stable_id uh parts = stable_id uh (parts.map pstrip)
    ∧ ∀ parts2 : List String, parts.map pstrip = parts2.map pstrip →
        stable_id uh parts = stable_id uh parts2 := by
  constructor
  · show uh (joinSep (parts.map pstrip)) = uh (joinSep ((parts.map pstrip).map pstrip))
    rw [List.map_map]
    have h : parts.map (pstrip ∘ pstrip) = parts.map pstrip :=
      List.map_congr_left (fun a _ => pstrip_idem a)
    rw [h]
  · intro parts2 h
    show uh (joinSep (parts.map pstrip)) = uh (joinSep (parts2.map pstrip))
    rw [h]

theorem C10_witness :
    stable_id (fun s => s) ["a "] = stable_id (fun s => s) [" a"] :=
  (C10_stable_id_strip_normalization (fun s => s) ["a "]).2 [" a"] (by decide)

/-- C9: `verify_evidence_bundle` is a total function of the bundle-directory
state (the source catches every I/O and parse failure into the returned
result, and the embedding returns a `VerificationResult` for every input by
construction), and on a path that does not exist or is not a directory it
returns `ok = false` with exactly one error and zero checked files. -/
theorem C9_verify_never_raises_missing_dir (sha : String → String)
    (dirPath : String) (ofs : Option FS) :
    (∃ r : VerificationResult, verify_evidence_bundle sha dirPath ofs = r)
    ∧ (verify_evidence_bundle sha dirPath none).ok = false
    ∧ (verify_evidence_bundle sha dirPath none).errors.length = 1
    ∧ (verify_evidence_bundle sha dirPath none).checked_files = 0 :=
  ⟨⟨_, rfl⟩, rfl, rfl, rfl⟩

/-- C6: summary aggregation.  `blocking_failed` counts exactly the failed
checks of critical or high severity; `auto_checks_passed` holds iff no
automated check is failed or in manual review; `submission_ready` holds iff
no check at all is failed or in manual review. -/
theorem C6_build_summary_fields (items : List EvalItem) :
    (build_summary items).blocking_failed
        = ((items.filter (fun i => i.severity == "critical" || i.severity == "high")).countP
            (fun i => i.status == "fail"))
    ∧ ((build_summary items).auto_checks_passed = true ↔
        ∀ i ∈ items, i.automated = true → i.status ≠ "fail" ∧ i.status ≠ "manual_review")
    ∧ ((build_summary items).submission_ready = true ↔
        (∀ i ∈ items, i.status ≠ "fail") ∧ (∀ i ∈ items, i.status ≠ "manual_review")) := by
  refine ⟨?blocking, ?auto, ?ready⟩
  case blocking =>
    show items.countP _ = _
    rw [List.countP_filter]
  case auto =>
    show (items.countP (fun item => item.automated && item.status == "fail") == 0
        && items.countP (fun item => item.automated && item.status == "manual_review") == 0)
        = true ↔ _
    simp only [Bool.and_eq_true, beq_iff_eq, List.countP_eq_zero, Bool.not_eq_true]
    constructor
    · rintro ⟨h1, h2⟩ i hi ha
      have hf := h1 i hi
      have hm := h2 i hi
      rw [ha] at hf hm
      simp at hf hm
      exact ⟨hf, hm⟩
    · intro h
      constructor
      · intro i hi
        by_cases ha : i.automated
        · have := (h i hi ha).1
          simp [ha, this]
        · simp [ha]
      · intro i hi
        by_cases ha : i.automated
        · have := (h i hi ha).2
          simp [ha, this]
        · simp [ha]
  case ready =>
    show (items.countP (fun item => item.status == "fail") == 0
        && items.countP (fun item => item.status == "manual_review") == 0) = true ↔ _
    simp only [Bool.and_eq_true, beq_iff_eq, List.countP_eq_zero, Bool.not_eq_true,
      beq_eq_false_iff_ne]

end RefuaReg

namespace RefuaReg

/-! ### Checksum-line parsing (C2) -/

theorem dropWhile_eq_self_of_head (p : Char → Bool) (l : List Char)
    (h : ∀ c, l.head? = some c → p c = false) : l.dropWhile p = l := by
  cases l with
  | nil => rfl
  | cons c t =>
      rw [List.dropWhile_cons, if_neg]
      simp [h c rfl]

theorem stripChars_eq_self (l : List Char)
    (hh : ∀ c, l.head? = some c → wsChar c = false)
    (hl : ∀ c, l.getLast? = some c → wsChar c = false) :
    stripChars l = l := by
  unfold stripChars
  rw [dropWhile_eq_self_of_head wsChar l hh]
  rw [dropWhile_eq_self_of_head wsChar l.reverse (by
    intro c hc
    rw [List.head?_reverse] at hc
    exact hl c hc)]
  exact List.reverse_reverse l

theorem pstrip_eq_self (s : String) (h : ∀ c ∈ s.data, wsChar c = false) :
    pstrip s = s := by
  apply String.ext
  show stripChars s.data = s.data
  apply stripChars_eq_self
  · intro c hc
    exact h c (List.mem_of_mem_head? (by simp [hc]))
  · intro c hc
    rw [← List.head?_reverse] at hc
    exact h c (List.mem_reverse.mp (List.mem_of_mem_head? (by simp [hc])))

theorem splitLinesChars_single (l : List Char) (h : ∀ c ∈ l, c ≠ '\n')
    (hne : l ≠ []) : splitLinesChars l = [l] := by
  induction l with
  | nil => exact absurd rfl hne
  | cons c t ih =>
      have hc : c ≠ '\n' := h c (by simp)
      rw [splitLinesChars, if_neg hc]
      cases ht : t with
      | nil => subst ht; rfl
      | cons a r =>
          rw [← ht, ih (fun x hx => h x (by simp [hx])) (by simp [ht])]

theorem splitTwoSpace_append (d p : List Char) (hd : ' ' ∉ d) :
    splitTwoSpace (d ++ ' ' :: ' ' :: p) = some (d, p) := by
  induction d with
  | nil => simp [splitTwoSpace]
  | cons c t ih =>
      have hc : c ≠ ' ' := fun hcc => hd (by simp [hcc])
      have ht : ' ' ∉ t := fun htt => hd (by simp [htt])
      rw [List.cons_append, splitTwoSpace, if_neg (fun hand => hc hand.1), ih ht]
      rfl

theorem splitTwoSpace_none (l : List Char) (h : ' ' ∉ l) :
    splitTwoSpace l = none := by
  induction l with
  | nil => rfl
  | cons c t ih =>
      have hc : c ≠ ' ' := fun hcc => h (by simp [hcc])
      have ht : ' ' ∉ t := fun htt => h (by simp [htt])
      rw [splitTwoSpace, if_neg (fun hand => hc hand.1), ih ht]
      rfl

theorem splitTwoSpace_single_sep (d q : List Char) (hd : ' ' ∉ d)
    (hq : ' ' ∉ q) (hqne : q ≠ []) :
    splitTwoSpace (d ++ ' ' :: q) = none := by
  induction d with
  | nil =>
      rw [List.nil_append]
      cases q with
      | nil => exact absurd rfl hqne
      | cons a r =>
          have ha : a ≠ ' ' := fun haa => hq (by simp [haa])
          rw [splitTwoSpace, if_neg (by
            intro hand
            rw [List.head?_cons] at hand
            exact ha (Option.some.inj hand.2.symm).symm)]
          rw [splitTwoSpace_none (a :: r) hq]
          rfl
  | cons c t ih =>
      have hc : c ≠ ' ' := fun hcc => hd (by simp [hcc])
      have ht : ' ' ∉ t := fun htt => hd (by simp [htt])
      rw [List.cons_append, splitTwoSpace, if_neg (fun hand => hc hand.1), ih ht]
      rfl

end RefuaReg

namespace RefuaReg

theorem data_ne_nil_of_ne_empty {s : String} (h : s ≠ "") : s.data ≠ [] := by
  intro hd
  exact h (String.ext hd)

theorem mem_of_getLast? {l : List Char} {c : Char} (h : l.getLast? = some c) :
    c ∈ l := by
  rw [← List.head?_reverse] at h
  exact List.mem_reverse.mp (List.mem_of_mem_head? (by simp [h]))

theorem getLast?_isSome_of_ne_nil {l : List Char} (h : l ≠ []) :
    ∃ c, l.getLast? = some c := by
  rw [← List.head?_reverse]
  cases hr : l.reverse with
  | nil => exact absurd (by simpa using hr) h
  | cons a t => exact ⟨a, by simp [hr]⟩

theorem no_space_of_no_ws {l : List Char} (h : ∀ c ∈ l, wsChar c = false) :
    ' ' ∉ l := by
  intro hmem
  exact absurd (h ' ' hmem) (by decide)

theorem no_newline_of_no_ws {l : List Char} (h : ∀ c ∈ l, wsChar c = false) :
    ∀ c ∈ l, c ≠ '\n' := by
  intro c hc heq
  subst heq
  exact absurd (h '\n' hc) (by decide)

/-- Stripping a line of the form `left ++ sep ++ right` is the identity when
the left part starts and the right part ends with a non-whitespace
character. -/
theorem pstrip_sep_line (d mid p : String)
    (hd : ∀ c ∈ d.data, wsChar c = false) (hdne : d ≠ "")
    (hp : ∀ c ∈ p.data, wsChar c = false) (hpne : p ≠ "") :
    pstrip (d ++ mid ++ p) = (d ++ mid ++ p) := by
  obtain ⟨a, ta, hda⟩ := List.exists_cons_of_ne_nil (data_ne_nil_of_ne_empty hdne)
  obtain ⟨b, hb⟩ := getLast?_isSome_of_ne_nil (data_ne_nil_of_ne_empty hpne)
  apply String.ext
  show stripChars (d ++ mid ++ p).data = (d ++ mid ++ p).data
  have hdata : (d ++ mid ++ p).data = d.data ++ (mid.data ++ p.data) := by
    simp [String.data_append]
  apply stripChars_eq_self
  · intro c hc
    rw [hdata, hda, List.cons_append, List.head?_cons] at hc
    cases Option.some.inj hc
    exact hd a (by rw [hda]; exact List.mem_cons_self a ta)
  · intro c hc
    rw [hdata, List.getLast?_append, List.getLast?_append, hb] at hc
    have hc2 : some b = some c := hc
    cases Option.some.inj hc2
    exact hp b (mem_of_getLast? hb)

/-- A well-formed non-blank line is split into exactly itself by
`splitlines`. -/
theorem splitLines_sep_line (d mid p : String)
    (hd : ∀ c ∈ d.data, wsChar c = false)
    (hmid : ∀ c ∈ mid.data, c ≠ '\n')
    (hp : ∀ c ∈ p.data, wsChar c = false) (hdne : d ≠ "") :
    splitLines (d ++ mid ++ p) = [d ++ mid ++ p] := by
  have hdata : (d ++ mid ++ p).data = d.data ++ (mid.data ++ p.data) := by
    simp [String.data_append]
  unfold splitLines
  rw [splitLinesChars_single]
  · simp only [List.map_cons, List.map_nil]
  · intro c hc
    rw [hdata] at hc
    rcases List.mem_append.mp hc with h | h
    · exact no_newline_of_no_ws hd c h
    · rcases List.mem_append.mp h with h | h
      · exact hmid c h
      · exact no_newline_of_no_ws hp c h
  · rw [hdata]
    obtain ⟨a, ta, hda⟩ := List.exists_cons_of_ne_nil (data_ne_nil_of_ne_empty hdne)
    rw [hda]
    simp

theorem pstrip_mk_eq_self (l : List Char) (h : ∀ c ∈ l, wsChar c = false) :
    pstrip ⟨l⟩ = ⟨l⟩ :=
  pstrip_eq_self ⟨l⟩ h

theorem sep_line_ne_empty (d mid p : String) (hdne : d ≠ "") :
    (d ++ mid ++ p) ≠ "" := by
  intro h0
  have h1 := congrArg String.data h0
  have hdata : (d ++ mid ++ p).data = d.data ++ (mid.data ++ p.data) := by
    simp [String.data_append]
  rw [hdata] at h1
  obtain ⟨a, ta, hda⟩ := List.exists_cons_of_ne_nil (data_ne_nil_of_ne_empty hdne)
  rw [hda] at h1
  simp at h1

/-- Parsing one well-formed two-space line: accepted exactly when the digest
field has 64 characters, with no constraint on the characters themselves. -/
theorem parse_two_space_line (d p : String)
    (hd : ∀ c ∈ d.data, wsChar c = false) (hdne : d ≠ "")
    (hp : ∀ c ∈ p.data, wsChar c = false) (hpne : p ≠ "") :
    parse_checksum_file (d ++ "  " ++ p)
      = if d.length ≠ 64 then .error "Invalid checksum digest on line 1"
        else .ok [(d, p)] := by
  have hdata : (d ++ "  " ++ p).data = d.data ++ ' ' :: ' ' :: p.data := by
    simp [String.data_append]
  unfold parse_checksum_file
  rw [splitLines_sep_line d "  " p hd
    (by intro c hc; simp at hc; subst hc; decide) hp hdne]
  rw [parseChecksumLines]
  rw [pstrip_sep_line d "  " p hd hdne hp hpne]
  rw [if_neg (sep_line_ne_empty d "  " p hdne)]
  rw [hdata, splitTwoSpace_append d.data p.data (no_space_of_no_ws hd)]
  simp only []
  rw [pstrip_mk_eq_self d.data hd, pstrip_mk_eq_self p.data hp]
  by_cases h64 : d.length = 64
  · rw [if_neg (by simpa using h64)]
    rw [if_neg (by
      show ¬ (⟨p.data⟩ : String) = ""
      intro h0
      exact (data_ne_nil_of_ne_empty hpne) (by
        have h1 := congrArg String.data h0
        simpa using h1))]
    rw [if_neg (by simpa using h64)]
    rw [parseChecksumLines]
  · rw [if_pos (by simpa using h64), if_pos (by simpa using h64)]
    rfl

/-- A single-space separator is a hard parse error. -/
theorem parse_single_space_line (d p : String)
    (hd : ∀ c ∈ d.data, wsChar c = false) (hdne : d ≠ "")
    (hp : ∀ c ∈ p.data, wsChar c = false) (hpne : p ≠ "") :
    parse_checksum_file (d ++ " " ++ p)
      = .error "Invalid checksum format on line 1" := by
  have hdata : (d ++ " " ++ p).data = d.data ++ ' ' :: p.data := by
    simp [String.data_append]
  unfold parse_checksum_file
  rw [splitLines_sep_line d " " p hd
    (by intro c hc; simp at hc; subst hc; decide) hp hdne]
  rw [parseChecksumLines]
  rw [pstrip_sep_line d " " p hd hdne hp hpne]
  rw [if_neg (sep_line_ne_empty d " " p hdne)]
  rw [hdata, splitTwoSpace_single_sep d.data p.data (no_space_of_no_ws hd)
    (no_space_of_no_ws hp) (data_ne_nil_of_ne_empty hpne)]
  rfl

end RefuaReg

namespace RefuaReg

/-- C2 counterexample: the claim says a 64-character digest containing a
non-hex character is rejected as a hard parse error, and that the separator
must be exactly two spaces.  In the code, `_parse_checksum_file` checks only
the digest's length: a line of 64 `z` characters parses successfully, a
three-space separator also parses (the path is stripped), and verification
proceeds to the checksum comparison (one checked file) instead of reporting
a parse error. -/
theorem C2_counterexample :
    parse_checksum_file (String.mk (List.replicate 64 'z') ++ "  file.txt")
      = .ok [(String.mk (List.replicate 64 'z'), "file.txt")]
    ∧ parse_checksum_file (String.mk (List.replicate 64 'a') ++ "   p")
      = .ok [(String.mk (List.replicate 64 'a'), "p")]
    ∧ (verify_evidence_bundle (fun _ => String.mk (List.replicate 64 'a')) "b"
        (some [("file.txt", fdText "x"),
               ("checksums.sha256",
                 fdText (String.mk (List.replicate 64 'z') ++ "  file.txt\n"))])).checked_files
        = 1 :=
  ⟨rfl, rfl, rfl⟩

/-- C2 (amended): during verification a checksum line is split at the first
two-space separator and its digest field must be exactly 64 characters after
stripping — but the characters themselves are not validated, so a
64-character digest with non-hex characters parses and proceeds to checksum
comparison; a line whose digest field is not exactly 64 characters, or whose
fields are separated by only a single space, is a hard parse error. -/
theorem C2_checksum_line_validation (d p : String)
    (hd : ∀ c ∈ d.data, wsChar c = false) (hdne : d ≠ "")
    (hp : ∀ c ∈ p.data, wsChar c = false) (hpne : p ≠ "") :
    (d.length = 64 → parse_checksum_file (d ++ "  " ++ p) = .ok [(d, p)])
    ∧ (d.length ≠ 64 →
        parse_checksum_file (d ++ "  " ++ p)
          = .error "Invalid checksum digest on line 1")
    ∧ parse_checksum_file (d ++ " " ++ p)
        = .error "Invalid checksum format on line 1" := by
  refine ⟨?ok, ?len, parse_single_space_line d p hd hdne hp hpne⟩
  case ok =>
    intro h64
    rw [parse_two_space_line d p hd hdne hp hpne, if_neg (by simpa using h64)]
  case len =>
    intro h64
    rw [parse_two_space_line d p hd hdne hp hpne, if_pos h64]

theorem C2_checksum_line_validation_witness :
    parse_checksum_file (String.mk (List.replicate 64 'z') ++ "  " ++ "f")
      = .ok [(String.mk (List.replicate 64 'z'), "f")]
    ∧ parse_checksum_file ("abc" ++ "  " ++ "f")
        = .error "Invalid checksum digest on line 1"
    ∧ parse_checksum_file ("abc" ++ " " ++ "f")
        = .error "Invalid checksum format on line 1" :=
  ⟨(C2_checksum_line_validation (String.mk (List.replicate 64 'z')) "f"
      (by decide) (by decide) (by decide) (by decide)).1 (by decide),
   (C2_checksum_line_validation "abc" "f"
      (by decide) (by decide) (by decide) (by decide)).2.1 (by decide),
   (C2_checksum_line_validation "abc" "f"
      (by decide) (by decide) (by decide) (by decide)).2.2⟩

end RefuaReg

namespace RefuaReg

/-! ### Lineage graph invariants (C5) -/

/-- Edge type test used to isolate the `next` chain. -/
def isNextEdge (e : LEdge) : Bool := e.etype == "next"

/-- The `next` chain the spec describes: consecutive pairs of the decisions
in ascending `step_index` order. -/
def chainNextEdges (ds : List DecisionRecord) : List LEdge :=
  (ds.zip ds.tail).map (fun ab =>
    ⟨"decision:" ++ ab.1.decision_id, "decision:" ++ ab.2.decision_id, "next"⟩)

/-- The chain emitted by the decision loop from a given predecessor node. -/
def chainFrom : Option String → List DecisionRecord → List LEdge
  | _, [] => []
  | prev, d :: rest =>
      prevNextEdge prev d ++ chainFrom (some ("decision:" ++ d.decision_id)) rest

theorem chainFrom_cons (prev : Option String) (d : DecisionRecord)
    (rest : List DecisionRecord) :
    chainFrom prev (d :: rest)
      = prevNextEdge prev d ++ chainFrom (some ("decision:" ++ d.decision_id)) rest := by
  cases prev <;> rfl

theorem chainFrom_some (l : List DecisionRecord) :
    ∀ d : DecisionRecord,
      chainFrom (some ("decision:" ++ d.decision_id)) l = chainNextEdges (d :: l) := by
  induction l with
  | nil => intro d; rfl
  | cons e rest ih =>
      intro d
      show (⟨"decision:" ++ d.decision_id, "decision:" ++ e.decision_id, "next"⟩ : LEdge)
          :: chainFrom (some ("decision:" ++ e.decision_id)) rest
        = chainNextEdges (d :: e :: rest)
      rw [ih e]
      rfl

theorem chainFrom_none (ds : List DecisionRecord) :
    chainFrom none ds = chainNextEdges ds := by
  cases ds with
  | nil => rfl
  | cons d rest =>
      show chainFrom (some ("decision:" ++ d.decision_id)) rest = _
      rw [chainFrom_some rest d]

theorem modelLoop_filter_next (r : String) (l : List ModelProvenance) :
    ∀ idx acc, ((modelLoop r l idx acc).2.1).filter isNextEdge
      = acc.2.1.filter isNextEdge := by
  induction l with
  | nil => intro idx acc; rfl
  | cons m rest ih =>
      intro idx acc
      obtain ⟨nodes, edges, byTool⟩ := acc
      rw [modelLoop, ih]
      simp [List.filter_append, isNextEdge]

theorem dataLoop_filter_next (r : String) (l : List DataProvenance) :
    ∀ idx acc, ((dataLoop r l idx acc).2).filter isNextEdge
      = acc.2.filter isNextEdge := by
  induction l with
  | nil => intro idx acc; rfl
  | cons d rest ih =>
      intro idx acc
      obtain ⟨nodes, edges⟩ := acc
      rw [dataLoop, ih]
      simp [List.filter_append, isNextEdge]

theorem artifactLoop_filter_next (r : String) (l : List ArtifactRef) :
    ∀ acc, ((artifactLoop r l acc).2.1).filter isNextEdge
      = acc.2.1.filter isNextEdge := by
  induction l with
  | nil => intro acc; rfl
  | cons a rest ih =>
      intro acc
      obtain ⟨nodes, edges, ids⟩ := acc
      rw [artifactLoop, ih]
      simp [List.filter_append, isNextEdge]

theorem filter_next_stepEdges (r : String) (byTool : List (String × List String))
    (artIds : List String) (d : DecisionRecord) (prev : Option String) :
    (decisionStepEdges r byTool artIds d prev).filter isNextEdge
      = prevNextEdge prev d := by
  unfold decisionStepEdges
  simp only [List.filter_append]
  have h1 : List.filter isNextEdge [(⟨r, "decision:" ++ d.decision_id,
      "has_decision"⟩ : LEdge)] = [] := by simp [isNextEdge]
  have h2 : (match d.tool with
      | some t => (toolNodes byTool t).map
          (fun mid => (⟨"decision:" ++ d.decision_id, mid, "used_model"⟩ : LEdge))
      | none => ([] : List LEdge)).filter isNextEdge = [] := by
    cases d.tool with
    | none => rfl
    | some t =>
        simp only [List.filter_map]
        rw [List.filter_eq_nil_iff.mpr]
        · simp
        · intro a _
          simp [Function.comp, isNextEdge]
  have h3 : (if d.decision_type = "tool_result" then
      match artIds with
      | firstId :: _ => [(⟨"decision:" ++ d.decision_id, firstId,
          "recorded_in"⟩ : LEdge)]
      | [] => ([] : List LEdge)
    else []).filter isNextEdge = [] := by
    split
    · split
      · simp [isNextEdge]
      · rfl
    · rfl
  have h4 : (prevNextEdge prev d).filter isNextEdge = prevNextEdge prev d := by
    cases prev with
    | none => rfl
    | some p => simp [prevNextEdge, isNextEdge]
  rw [h1, h2, h3, h4]
  simp

theorem decisionLoop_filter_next (r : String) (byTool : List (String × List String))
    (artIds : List String) (l : List DecisionRecord) :
    ∀ prev acc, ((decisionLoop r byTool artIds l prev acc).2).filter isNextEdge
      = acc.2.filter isNextEdge ++ chainFrom prev l := by
  induction l with
  | nil => intro prev acc; simp [decisionLoop, chainFrom]
  | cons d rest ih =>
      intro prev acc
      rw [decisionLoop, ih, chainFrom_cons]
      simp only [List.filter_append, filter_next_stepEdges, List.append_assoc]

theorem decisionLoop_edges_length (r : String) (byTool : List (String × List String))
    (artIds : List String) (l : List DecisionRecord) :
    ∀ prev acc, acc.2.length + l.length
      ≤ ((decisionLoop r byTool artIds l prev acc).2).length := by
  induction l with
  | nil => intro prev acc; simp [decisionLoop]
  | cons d rest ih =>
      intro prev acc
      rw [decisionLoop]
      refine le_trans ?step (ih _ _)
      simp only [List.length_append, List.length_cons]
      have : 1 ≤ (decisionStepEdges r byTool artIds d prev).length := by
        unfold decisionStepEdges
        simp
      omega

end RefuaReg

namespace RefuaReg

instance : IsTotal DecisionRecord (fun a b => a.step_index ≤ b.step_index) :=
  ⟨fun a b => Nat.le_total a.step_index b.step_index⟩

instance : IsTrans DecisionRecord (fun a b => a.step_index ≤ b.step_index) :=
  ⟨fun _ _ _ h1 h2 => Nat.le_trans h1 h2⟩

/-- C5: the lineage graph always contains the campaign-run root node, has at
least one edge whenever at least one decision is supplied, and its `next`
edges are exactly the consecutive pairs of the decisions sorted by ascending
`step_index` — a single chain with N-1 edges for N decisions. -/
theorem C5_lineage_graph_invariants (rid : String) (ds : List DecisionRecord)
    (arts : List ArtifactRef) (models : List ModelProvenance)
    (datasets : List DataProvenance) :
    1 ≤ (build_lineage_graph rid ds arts models datasets).nodes.length
    ∧ (ds ≠ [] → 1 ≤ (build_lineage_graph rid ds arts models datasets).edges.length)
    ∧ ((build_lineage_graph rid ds arts models datasets).edges.filter isNextEdge
        = chainNextEdges (sortDecisions ds))
    ∧ (((build_lineage_graph rid ds arts models datasets).edges.filter
          isNextEdge).length = ds.length - 1)
    ∧ List.Sorted (fun a b => a.step_index ≤ b.step_index) (sortDecisions ds) := by
  have hsortlen : (sortDecisions ds).length = ds.length := by
    unfold sortDecisions
    exact (List.perm_insertionSort _ ds).length_eq
  have hfilter : (build_lineage_graph rid ds arts models datasets).edges.filter
      isNextEdge = chainNextEdges (sortDecisions ds) := by
    show ((modelLoop ("run:" ++ rid) models 1 ([], [], [])).2.1
        ++ (dataLoop ("run:" ++ rid) datasets 1 ([], [])).2
        ++ (artifactLoop ("run:" ++ rid) arts ([], [], [])).2.1
        ++ (decisionLoop ("run:" ++ rid)
              (modelLoop ("run:" ++ rid) models 1 ([], [], [])).2.2
              (artifactLoop ("run:" ++ rid) arts ([], [], [])).2.2
              (sortDecisions ds) none ([], [])).2).filter isNextEdge
      = chainNextEdges (sortDecisions ds)
    simp only [List.filter_append]
    rw [modelLoop_filter_next, dataLoop_filter_next, artifactLoop_filter_next,
      decisionLoop_filter_next, chainFrom_none]
    simp
  refine ⟨?nodes, ?edges1, hfilter, ?len, ?sorted⟩
  case nodes =>
    show 1 ≤ ([_] ++ _ ++ _ ++ _ ++ _ : List LNode).length
    simp
  case edges1 =>
    intro hne
    have hlen := decisionLoop_edges_length ("run:" ++ rid)
      (modelLoop ("run:" ++ rid) models 1 ([], [], [])).2.2
      (artifactLoop ("run:" ++ rid) arts ([], [], [])).2.2
      (sortDecisions ds) none ([], [])
    have hdslen : 1 ≤ ds.length := by
      cases ds with
      | nil => exact absurd rfl hne
      | cons a t => simp
    show 1 ≤ ((modelLoop ("run:" ++ rid) models 1 ([], [], [])).2.1
        ++ (dataLoop ("run:" ++ rid) datasets 1 ([], [])).2
        ++ (artifactLoop ("run:" ++ rid) arts ([], [], [])).2.1
        ++ (decisionLoop ("run:" ++ rid)
              (modelLoop ("run:" ++ rid) models 1 ([], [], [])).2.2
              (artifactLoop ("run:" ++ rid) arts ([], [], [])).2.2
              (sortDecisions ds) none ([], [])).2).length
    simp only [List.length_append]
    simp only [List.length_nil, Nat.zero_add, hsortlen] at hlen
    omega
  case len =>
    rw [hfilter]
    unfold chainNextEdges
    rw [List.length_map, List.length_zip, List.length_tail, hsortlen,
      min_eq_right (Nat.sub_le _ _)]
  case sorted =>
    unfold sortDecisions
    exact List.sorted_insertionSort (fun a b => a.step_index ≤ b.step_index) ds

theorem C5_lineage_graph_invariants_witness :
    1 ≤ (build_lineage_graph "r"
        [⟨"i", "r", 1, "t", "note", "a", "x", none, [], none, [], [], []⟩]
        [] [] []).nodes.length
    ∧ 1 ≤ (build_lineage_graph "r"
        [⟨"i", "r", 1, "t", "note", "a", "x", none, [], none, [], [], []⟩]
        [] [] []).edges.length :=
  ⟨(C5_lineage_graph_invariants "r"
      [⟨"i", "r", 1, "t", "note", "a", "x", none, [], none, [], [], []⟩] [] [] []).1,
   (C5_lineage_graph_invariants "r"
      [⟨"i", "r", 1, "t", "note", "a", "x", none, [], none, [], [], []⟩] [] [] []).2.1
     (List.cons_ne_nil _ _)⟩

end RefuaReg

namespace RefuaReg

/-! ### Model-provenance deduplication (C8) -/

/-- First-occurrence deduplication by `modelKey` against a seen-key set. -/
def dedupByKey : List ModelProvenance → List MKey → List ModelProvenance
  | [], _ => []
  | m :: rest, seen =>
      if modelKey m ∈ seen then dedupByKey rest seen
      else m :: dedupByKey rest (seen ++ [modelKey m])

theorem mpLoop_eq_dedup (onm ov : Option String) :
    ∀ (items : List JVal) (seen : List MKey) (acc : List ModelProvenance),
      mpLoop onm ov items seen acc
        = acc ++ dedupByKey (items.filterMap (resultEntryModel onm ov)) seen := by
  intro items
  induction items with
  | nil => intro seen acc; simp [mpLoop, dedupByKey]
  | cons item rest ih =>
      intro seen acc
      rw [mpLoop]
      cases hm : resultEntryModel onm ov item with
      | none => rw [ih, List.filterMap_cons, hm]
      | some m =>
          rw [List.filterMap_cons, hm]
          simp only []
          by_cases hseen : modelKey m ∈ seen
          · rw [if_pos hseen, ih, dedupByKey, if_pos hseen]
          · rw [if_neg hseen, ih, dedupByKey, if_neg hseen]
            simp

theorem dedupByKey_sublist :
    ∀ (l : List ModelProvenance) (seen : List MKey), (dedupByKey l seen).Sublist l := by
  intro l
  induction l with
  | nil => intro seen; exact List.Sublist.refl _
  | cons c rest ih =>
      intro seen
      rw [dedupByKey]
      by_cases h : modelKey c ∈ seen
      · rw [if_pos h]
        exact (ih seen).cons c
      · rw [if_neg h]
        exact (ih (seen ++ [modelKey c])).cons₂ c

theorem dedupByKey_keys_fresh :
    ∀ (l : List ModelProvenance) (seen : List MKey) (m : ModelProvenance),
      m ∈ dedupByKey l seen → modelKey m ∉ seen := by
  intro l
  induction l with
  | nil => intro seen m hm; simp [dedupByKey] at hm
  | cons c rest ih =>
      intro seen m hm
      rw [dedupByKey] at hm
      by_cases h : modelKey c ∈ seen
      · rw [if_pos h] at hm
        exact ih seen m hm
      · rw [if_neg h] at hm
        rcases List.mem_cons.mp hm with hc | hrest
        · subst hc; exact h
        · intro hin
          exact ih (seen ++ [modelKey c]) m hrest (by simp [hin])

theorem dedupByKey_pairwise :
    ∀ (l : List ModelProvenance) (seen : List MKey),
      List.Pairwise (fun a b => modelKey a ≠ modelKey b) (dedupByKey l seen) := by
  intro l
  induction l with
  | nil => intro seen; simp [dedupByKey]
  | cons c rest ih =>
      intro seen
      rw [dedupByKey]
      by_cases h : modelKey c ∈ seen
      · rw [if_pos h]; exact ih seen
      · rw [if_neg h]
        refine List.Pairwise.cons ?head (ih (seen ++ [modelKey c]))
        intro b hb heq
        have := dedupByKey_keys_fresh rest (seen ++ [modelKey c]) b hb
        exact this (by simp [heq])

theorem dedupByKey_covers :
    ∀ (l : List ModelProvenance) (seen : List MKey) (c : ModelProvenance),
      c ∈ l → modelKey c ∈ seen
        ∨ ∃ m ∈ dedupByKey l seen, modelKey m = modelKey c := by
  intro l
  induction l with
  | nil => intro seen c hc; simp at hc
  | cons a rest ih =>
      intro seen c hc
      rw [dedupByKey]
      rcases List.mem_cons.mp hc with hca | hcr
      · subst hca
        by_cases h : modelKey c ∈ seen
        · exact Or.inl h
        · refine Or.inr ⟨c, ?memc, rfl⟩
          rw [if_neg h]
          exact List.mem_cons_self c _
      · by_cases h : modelKey a ∈ seen
        · rw [if_pos h]
          exact ih seen c hcr
        · rw [if_neg h]
          rcases ih (seen ++ [modelKey a]) c hcr with hs | ⟨m, hm, hk⟩
          · rcases List.mem_append.mp hs with hs1 | hs2
            · exact Or.inl hs1
            · refine Or.inr ⟨a, List.mem_cons_self a _, ?keq⟩
              have hca : modelKey c = modelKey a := by simpa using hs2
              exact hca.symm
          · exact Or.inr ⟨m, List.mem_cons_of_mem a hm, hk⟩

theorem dedupByKey_first_wins :
    ∀ (l : List ModelProvenance) (seen : List MKey) (m : ModelProvenance),
      m ∈ dedupByKey l seen →
        l.find? (fun c => decide (modelKey c = modelKey m)) = some m := by
  intro l
  induction l with
  | nil => intro seen m hm; simp [dedupByKey] at hm
  | cons a rest ih =>
      intro seen m hm
      rw [dedupByKey] at hm
      by_cases h : modelKey a ∈ seen
      · rw [if_pos h] at hm
        have hfresh := dedupByKey_keys_fresh rest seen m hm
        have hne : modelKey a ≠ modelKey m := by
          intro heq; exact hfresh (heq ▸ h)
        rw [List.find?_cons]
        have : decide (modelKey a = modelKey m) = false := by
          simpa using hne
        rw [this]
        exact ih seen m hm
      · rw [if_neg h] at hm
        rcases List.mem_cons.mp hm with hma | hmr
        · subst hma
          rw [List.find?_cons]
          have : decide (modelKey m = modelKey m) = true := by simp
          rw [this]
        · have hfresh := dedupByKey_keys_fresh rest (seen ++ [modelKey a]) m hmr
          have hne : modelKey a ≠ modelKey m := by
            intro heq
            exact hfresh (by simp [heq])
          rw [List.find?_cons]
          have : decide (modelKey a = modelKey m) = false := by simpa using hne
          rw [this]
          exact ih (seen ++ [modelKey a]) m hmr

theorem extract_model_provenance_eq (payload : List (String × JVal))
    (onm ov : Option String) :
    extract_model_provenance payload onm ov
      = (if (dedupByKey (modelCandidates payload onm ov) []).isEmpty then
          (match onm with
            | some nm => if nm ≠ "" then [⟨nm, ov, none, none, []⟩] else []
            | none => [])
        else dedupByKey (modelCandidates payload onm ov) []) := by
  unfold extract_model_provenance modelCandidates
  cases hres : jget payload "results" with
  | none => rfl
  | some v =>
      cases v with
      | jarr items =>
          simp only []
          rw [mpLoop_eq_dedup]
          rfl
      | jnull => rfl
      | jbool b => rfl
      | jnum n => rfl
      | jstr s => rfl
      | jobj fields => rfl

end RefuaReg

namespace RefuaReg

theorem dedupByKey_nil_ne_nil (c : ModelProvenance) (rest : List ModelProvenance) :
    dedupByKey (c :: rest) [] ≠ [] := by
  rw [dedupByKey, if_neg (by simp)]
  exact List.cons_ne_nil _ _

/-- C8: `extract_model_provenance` emits at most one record per
`(model_name, model_version, tool, backend)` key — the output keys are
pairwise distinct — and, on the deduplication path (no orphan override
fallback), the output is a subsequence of the per-entry candidate stream in
which every candidate key is represented and each surviving record is the
first candidate bearing its key. -/
theorem C8_model_provenance_dedup (payload : List (String × JVal))
    (onm ov : Option String) :
    List.Pairwise (fun a b => modelKey a ≠ modelKey b)
      (extract_model_provenance payload onm ov)
    ∧ (onm = none ∨ modelCandidates payload onm ov ≠ [] →
        (extract_model_provenance payload onm ov).Sublist
            (modelCandidates payload onm ov)
        ∧ (∀ c ∈ modelCandidates payload onm ov,
            ∃ m ∈ extract_model_provenance payload onm ov, modelKey m = modelKey c)
        ∧ ∀ m ∈ extract_model_provenance payload onm ov,
            (modelCandidates payload onm ov).find?
              (fun c => decide (modelKey c = modelKey m)) = some m) := by
  rw [extract_model_provenance_eq]
  by_cases hemp : (dedupByKey (modelCandidates payload onm ov) []).isEmpty
  · rw [if_pos hemp]
    have hcands : modelCandidates payload onm ov = [] := by
      cases hc : modelCandidates payload onm ov with
      | nil => rfl
      | cons c rest =>
          rw [hc] at hemp
          exact absurd (List.isEmpty_iff.mp hemp) (dedupByKey_nil_ne_nil c rest)
    constructor
    · cases onm with
      | none => simp
      | some nm =>
          simp only []
          by_cases hnm : nm ≠ ""
          · rw [if_pos hnm]
            simp
          · rw [if_neg hnm]
            simp
    · intro hyp
      rcases hyp with hnone | hne
      · subst hnone
        simp only []
        rw [hcands]
        exact ⟨List.nil_sublist _, by simp, by simp⟩
      · exact absurd hcands hne
  · rw [if_neg hemp]
    refine ⟨dedupByKey_pairwise _ _, ?rest⟩
    intro _
    refine ⟨dedupByKey_sublist _ _, ?cov, ?fw⟩
    · intro c hc
      rcases dedupByKey_covers (modelCandidates payload onm ov) [] c hc with hs | h
      · simp at hs
      · exact h
    · intro m hm
      exact dedupByKey_first_wins _ _ m hm

theorem C8_model_provenance_dedup_witness :
    List.Pairwise (fun a b => modelKey a ≠ modelKey b)
      (extract_model_provenance
        [("results", .jarr [.jobj [("tool", .jstr "refua_fold")],
                            .jobj [("tool", .jstr "refua_fold")]])] none none)
    ∧ (extract_model_provenance
        [("results", .jarr [.jobj [("tool", .jstr "refua_fold")],
                            .jobj [("tool", .jstr "refua_fold")]])] none none).Sublist
        (modelCandidates
          [("results", .jarr [.jobj [("tool", .jstr "refua_fold")],
                              .jobj [("tool", .jstr "refua_fold")]])] none none) :=
  ⟨(C8_model_provenance_dedup
      [("results", .jarr [.jobj [("tool", .jstr "refua_fold")],
                          .jobj [("tool", .jstr "refua_fold")]])] none none).1,
   ((C8_model_provenance_dedup
      [("results", .jarr [.jobj [("tool", .jstr "refua_fold")],
                          .jobj [("tool", .jstr "refua_fold")]])] none none).2
      (Or.inl rfl)).1⟩

end RefuaReg

namespace RefuaReg

/-! ### Decision extraction invariants (C3) -/

/-- Invariant of the extraction state: the emitted step indices are exactly
`1..n` in emission order and the counter is `n + 1`. -/
def StateOK (s : ExtState) : Prop :=
  s.1.map (fun d => d.step_index) = List.range' 1 s.1.length ∧ s.2 = s.1.length + 1

theorem StateOK_init : StateOK ([], 1) := ⟨rfl, rfl⟩

theorem StateOK_emit (s : ExtState) (d : DecisionRecord) (h : StateOK s)
    (hd : d.step_index = s.2) : StateOK (emitD s d) := by
  obtain ⟨h1, h2⟩ := h
  constructor
  · show (s.1 ++ [d]).map (fun d => d.step_index) = List.range' 1 (s.1 ++ [d]).length
    rw [List.map_append, h1, List.length_append]
    simp only [List.map_cons, List.map_nil, List.length_cons, List.length_nil]
    rw [List.range'_concat]
    congr 2
    omega
  · show s.2 + 1 = (s.1 ++ [d]).length + 1
    simp [h2]

theorem objectiveBlock_ok (uh : String → String) (now rid : String)
    (payload : List (String × JVal)) (s : ExtState) (h : StateOK s) :
    StateOK (objectiveBlock uh now rid payload s) := by
  unfold objectiveBlock
  simp only []
  split
  · exact StateOK_emit s _ h rfl
  · exact h

theorem planBlock_ok (uh : String → String) (now rid : String)
    (payload : List (String × JVal)) (s : ExtState) (h : StateOK s) :
    StateOK (planBlock uh now rid payload s) := by
  unfold planBlock
  split
  · exact StateOK_emit s _ h rfl
  · exact h

theorem policyStep_ok (uh : String → String) (now rid : String) (idx : Nat)
    (fields : List (String × JVal)) (s : ExtState) (h : StateOK s) :
    StateOK (policyStep uh now rid idx fields s) := by
  unfold policyStep
  split
  · exact StateOK_emit s _ h rfl
  · exact h

theorem criticStep_ok (uh : String → String) (now rid : String) (idx : Nat)
    (fields : List (String × JVal)) (s : ExtState) (h : StateOK s) :
    StateOK (criticStep uh now rid idx fields s) := by
  unfold criticStep
  split
  · exact StateOK_emit s _ h rfl
  · exact h

theorem iterStep_ok (uh : String → String) (now rid : String) (idx : Nat)
    (item : JVal) (s : ExtState) (h : StateOK s) :
    StateOK (iterStep uh now rid idx item s) := by
  unfold iterStep
  split
  · exact criticStep_ok uh now rid idx _ _ (policyStep_ok uh now rid idx _ s h)
  · exact h

theorem iterLoop_ok (uh : String → String) (now rid : String) :
    ∀ (items : List JVal) (idx : Nat) (s : ExtState), StateOK s →
      StateOK (iterLoop uh now rid items idx s) := by
  intro items
  induction items with
  | nil => intro idx s h; exact h
  | cons item rest ih =>
      intro idx s h
      rw [iterLoop]
      exact ih (idx + 1) _ (iterStep_ok uh now rid idx item s h)

theorem iterationsBlock_ok (uh : String → String) (now rid : String)
    (payload : List (String × JVal)) (s : ExtState) (h : StateOK s) :
    StateOK (iterationsBlock uh now rid payload s) := by
  unfold iterationsBlock
  split
  · exact iterLoop_ok uh now rid _ 1 s h
  · exact h

theorem finalPlanBlock_ok (uh : String → String) (now rid : String)
    (payload : List (String × JVal)) (s : ExtState) (h : StateOK s) :
    StateOK (finalPlanBlock uh now rid payload s) := by
  unfold finalPlanBlock
  split
  · simp only []
    split
    · exact StateOK_emit s _ h rfl
    · exact h
  · exact h

theorem resStep_ok (uh : String → String) (now rid : String) (idx : Nat)
    (item : JVal) (s : ExtState) (h : StateOK s) :
    StateOK (resStep uh now rid idx item s) := by
  unfold resStep
  split
  · simp only []
    exact StateOK_emit _ _ (StateOK_emit s _ h rfl) rfl
  · exact h

theorem resLoop_ok (uh : String → String) (now rid : String) :
    ∀ (items : List JVal) (idx : Nat) (s : ExtState), StateOK s →
      StateOK (resLoop uh now rid items idx s) := by
  intro items
  induction items with
  | nil => intro idx s h; exact h
  | cons item rest ih =>
      intro idx s h
      rw [resLoop]
      exact ih (idx + 1) _ (resStep_ok uh now rid idx item s h)

theorem resultsBlock_ok (uh : String → String) (now rid : String)
    (payload : List (String × JVal)) (s : ExtState) (h : StateOK s) :
    StateOK (resultsBlock uh now rid payload s) := by
  unfold resultsBlock
  split
  · exact resLoop_ok uh now rid _ 1 s h
  · exact h

theorem warningsBlock_ok (uh : String → String) (now rid : String)
    (payload : List (String × JVal)) (s : ExtState) (h : StateOK s) :
    StateOK (warningsBlock uh now rid payload s) := by
  unfold warningsBlock
  split
  · split
    · exact StateOK_emit s _ h rfl
    · exact h
  · exact h

end RefuaReg

namespace RefuaReg

/-- Rule (1) does not fire: the objective string is blank. -/
def objectiveAbsent (payload : List (String × JVal)) : Bool :=
  pstrip (pyStrOr (jget payload "objective")) == ""

/-- Rule (2) does not fire: no `plan` object. -/
def planAbsent (payload : List (String × JVal)) : Bool :=
  match jget payload "plan" with
  | some (.jobj _) => false
  | _ => true

/-- One iteration entry fires no rule. -/
def iterItemInert (item : JVal) : Bool :=
  match item with
  | .jobj fields =>
      (match jget fields "policy" with
        | some (.jobj _) => false
        | _ => true) &&
      (match jget fields "critic" with
        | some (.jobj _) => false
        | _ => true)
  | _ => true

/-- Rule (3) does not fire. -/
def iterationsInert (payload : List (String × JVal)) : Bool :=
  match jget payload "iterations" with
  | some (.jarr items) => items.all iterItemInert
  | _ => true

/-- Rule (4) does not fire: no `final_plan` object, or its serialization
matches the initial plan's. -/
def finalPlanInert (payload : List (String × JVal)) : Bool :=
  match jget payload "final_plan" with
  | some (.jobj finalFields) =>
      jdump (.jobj finalFields) ==
        (match jget payload "plan" with
          | some (.jobj planFields) => jdump (.jobj planFields)
          | _ => "")
  | _ => true

/-- One results entry fires no rule (it is not a dict). -/
def resItemInert (item : JVal) : Bool :=
  match item with
  | .jobj _ => false
  | _ => true

/-- Rule (5) does not fire. -/
def resultsInert (payload : List (String × JVal)) : Bool :=
  match jget payload "results" with
  | some (.jarr items) => items.all resItemInert
  | _ => true

/-- Rule (6) does not fire: no non-empty `warnings` list. -/
def warningsInert (payload : List (String × JVal)) : Bool :=
  match jget payload "warnings" with
  | some (.jarr items) => items.isEmpty
  | _ => true

/-- None of the six structured extraction rules fires on the payload. -/
def noRulesFire (payload : List (String × JVal)) : Bool :=
  objectiveAbsent payload && planAbsent payload && iterationsInert payload &&
  finalPlanInert payload && resultsInert payload && warningsInert payload

theorem objectiveBlock_id (uh : String → String) (now rid : String)
    (payload : List (String × JVal)) (s : ExtState)
    (h : objectiveAbsent payload = true) :
    objectiveBlock uh now rid payload s = s := by
  unfold objectiveBlock
  simp only []
  rw [if_neg]
  simp only [objectiveAbsent, beq_iff_eq] at h
  simp [h]

theorem planBlock_id (uh : String → String) (now rid : String)
    (payload : List (String × JVal)) (s : ExtState)
    (h : planAbsent payload = true) :
    planBlock uh now rid payload s = s := by
  unfold planBlock
  unfold planAbsent at h
  split
  · rename_i planFields heq
    rw [heq] at h
    simp at h
  · rfl

theorem policyStep_id (uh : String → String) (now rid : String) (idx : Nat)
    (fields : List (String × JVal)) (s : ExtState)
    (h : (match jget fields "policy" with
      | some (.jobj _) => false
      | _ => true) = true) :
    policyStep uh now rid idx fields s = s := by
  unfold policyStep
  split
  · rename_i policyFields heq
    rw [heq] at h
    simp at h
  · rfl

theorem criticStep_id (uh : String → String) (now rid : String) (idx : Nat)
    (fields : List (String × JVal)) (s : ExtState)
    (h : (match jget fields "critic" with
      | some (.jobj _) => false
      | _ => true) = true) :
    criticStep uh now rid idx fields s = s := by
  unfold criticStep
  split
  · rename_i criticFields heq
    rw [heq] at h
    simp at h
  · rfl

theorem iterStep_id (uh : String → String) (now rid : String) (idx : Nat)
    (item : JVal) (s : ExtState) (h : iterItemInert item = true) :
    iterStep uh now rid idx item s = s := by
  unfold iterStep
  unfold iterItemInert at h
  split
  · rename_i fields
    rw [Bool.and_eq_true] at h
    rw [policyStep_id uh now rid idx fields s h.1,
      criticStep_id uh now rid idx fields s h.2]
  · rfl

theorem iterLoop_id (uh : String → String) (now rid : String) :
    ∀ (items : List JVal) (idx : Nat) (s : ExtState),
      items.all iterItemInert = true → iterLoop uh now rid items idx s = s := by
  intro items
  induction items with
  | nil => intro idx s _; rfl
  | cons item rest ih =>
      intro idx s h
      rw [List.all_cons, Bool.and_eq_true] at h
      rw [iterLoop, iterStep_id uh now rid idx item s h.1, ih (idx + 1) s h.2]

theorem iterationsBlock_id (uh : String → String) (now rid : String)
    (payload : List (String × JVal)) (s : ExtState)
    (h : iterationsInert payload = true) :
    iterationsBlock uh now rid payload s = s := by
  unfold iterationsBlock
  unfold iterationsInert at h
  split
  · rename_i items heq
    rw [heq] at h
    exact iterLoop_id uh now rid items 1 s h
  · rfl

theorem finalPlanBlock_id (uh : String → String) (now rid : String)
    (payload : List (String × JVal)) (s : ExtState)
    (h : finalPlanInert payload = true) :
    finalPlanBlock uh now rid payload s = s := by
  unfold finalPlanBlock
  unfold finalPlanInert at h
  split
  · rename_i finalFields heq
    rw [heq] at h
    simp only [beq_iff_eq] at h
    simp only []
    rw [if_neg]
    simp [h]
  · rfl

theorem resStep_id (uh : String → String) (now rid : String) (idx : Nat)
    (item : JVal) (s : ExtState) (h : resItemInert item = true) :
    resStep uh now rid idx item s = s := by
  unfold resStep
  unfold resItemInert at h
  split
  · rename_i fields
    simp at h
  · rfl

theorem resLoop_id (uh : String → String) (now rid : String) :
    ∀ (items : List JVal) (idx : Nat) (s : ExtState),
      items.all resItemInert = true → resLoop uh now rid items idx s = s := by
  intro items
  induction items with
  | nil => intro idx s _; rfl
  | cons item rest ih =>
      intro idx s h
      rw [List.all_cons, Bool.and_eq_true] at h
      rw [resLoop, resStep_id uh now rid idx item s h.1, ih (idx + 1) s h.2]

theorem resultsBlock_id (uh : String → String) (now rid : String)
    (payload : List (String × JVal)) (s : ExtState)
    (h : resultsInert payload = true) :
    resultsBlock uh now rid payload s = s := by
  unfold resultsBlock
  unfold resultsInert at h
  split
  · rename_i items heq
    rw [heq] at h
    exact resLoop_id uh now rid items 1 s h
  · rfl

theorem warningsBlock_id (uh : String → String) (now rid : String)
    (payload : List (String × JVal)) (s : ExtState)
    (h : warningsInert payload = true) :
    warningsBlock uh now rid payload s = s := by
  unfold warningsBlock
  unfold warningsInert at h
  split
  · rename_i items heq
    rw [heq] at h
    simp only [] at h
    rw [if_neg]
    simp [List.isEmpty_iff.mp h]
  · rfl

end RefuaReg

namespace RefuaReg

/-- The composed extraction pipeline state after all six rule blocks. -/
def extractPipeline (uh : String → String) (now : String)
    (payload : List (String × JVal)) (rid : String) : ExtState :=
  warningsBlock uh now rid payload
    (resultsBlock uh now rid payload
      (finalPlanBlock uh now rid payload
        (iterationsBlock uh now rid payload
          (planBlock uh now rid payload
            (objectiveBlock uh now rid payload ([], 1))))))

theorem extract_eq_pipeline (uh : String → String) (now : String)
    (payload : List (String × JVal)) (rid : String) :
    extract_decisions_from_campaign uh now payload rid
      = if (extractPipeline uh now payload rid).1.isEmpty then
          [fallbackNote uh now rid payload]
        else (extractPipeline uh now payload rid).1 := rfl

theorem extractPipeline_ok (uh : String → String) (now : String)
    (payload : List (String × JVal)) (rid : String) :
    StateOK (extractPipeline uh now payload rid) :=
  warningsBlock_ok _ _ _ _ _ (resultsBlock_ok _ _ _ _ _ (finalPlanBlock_ok _ _ _ _ _
    (iterationsBlock_ok _ _ _ _ _ (planBlock_ok _ _ _ _ _
      (objectiveBlock_ok _ _ _ _ _ StateOK_init)))))

/-- C3: extraction always yields a non-empty decision list whose
`step_index` values, in emission order, are exactly `1..N`; and when none of
the structured rules fires, the result is exactly the single fallback `note`
decision carrying `step_index` 1. -/
theorem C3_extraction_step_indices (uh : String → String) (now : String)
    (payload : List (String × JVal)) (rid : String) :
    extract_decisions_from_campaign uh now payload rid ≠ []
    ∧ (extract_decisions_from_campaign uh now payload rid).map
        (fun d => d.step_index)
        = List.range' 1 (extract_decisions_from_campaign uh now payload rid).length
    ∧ (noRulesFire payload = true →
        extract_decisions_from_campaign uh now payload rid
          = [fallbackNote uh now rid payload]
        ∧ (fallbackNote uh now rid payload).step_index = 1
        ∧ (fallbackNote uh now rid payload).decision_type = "note") := by
  refine ⟨?ne, ?idx, ?fb⟩
  case ne =>
    rw [extract_eq_pipeline]
    by_cases hemp : (extractPipeline uh now payload rid).1.isEmpty
    · rw [if_pos hemp]
      exact List.cons_ne_nil _ _
    · rw [if_neg hemp]
      intro h0
      exact hemp (by rw [h0]; rfl)
  case idx =>
    rw [extract_eq_pipeline]
    by_cases hemp : (extractPipeline uh now payload rid).1.isEmpty
    · rw [if_pos hemp]
      rfl
    · rw [if_neg hemp]
      exact (extractPipeline_ok uh now payload rid).1
  case fb =>
    intro h
    unfold noRulesFire at h
    simp only [Bool.and_eq_true] at h
    obtain ⟨⟨⟨⟨⟨h1, h2⟩, h3⟩, h4⟩, h5⟩, h6⟩ := h
    have hpipe : extractPipeline uh now payload rid = ([], 1) := by
      unfold extractPipeline
      rw [objectiveBlock_id _ _ _ _ _ h1, planBlock_id _ _ _ _ _ h2,
        iterationsBlock_id _ _ _ _ _ h3, finalPlanBlock_id _ _ _ _ _ h4,
        resultsBlock_id _ _ _ _ _ h5, warningsBlock_id _ _ _ _ _ h6]
    refine ⟨?eq, rfl, rfl⟩
    rw [extract_eq_pipeline, hpipe]
    rfl

theorem C3_extraction_step_indices_witness :
    extract_decisions_from_campaign (fun s => s) "t" [] "r" ≠ []
    ∧ extract_decisions_from_campaign (fun s => s) "t" [] "r"
        = [fallbackNote (fun s => s) "t" "r" []] :=
  ⟨(C3_extraction_step_indices (fun s => s) "t" [] "r").1,
   ((C3_extraction_step_indices (fun s => s) "t" [] "r").2.2 (by decide)).1⟩

end RefuaReg

namespace RefuaReg

/-! ### Decision-id determinism and separation (C4) -/

/-- Replace a record's timestamp. -/
def retime (t : String) (d : DecisionRecord) : DecisionRecord :=
  { d with timestamp := t }

def mapState (f : DecisionRecord → DecisionRecord) (s : ExtState) : ExtState :=
  (s.1.map f, s.2)

theorem emitD_retime (s : ExtState) (now : String) (d : DecisionRecord) :
    emitD (mapState (retime now) s) (retime now d) = mapState (retime now) (emitD s d) := by
  unfold emitD mapState
  simp

theorem emitD_retime_helper (s : ExtState) (uh : String → String)
    (now now2 rid : String) (dt a r : String) (tool : Option String)
    (args : List (String × JVal)) (op : Option String) (ir orefs : List String)
    (md : List (String × JVal)) :
    emitD (mapState (retime now) s)
      (decision_helper uh now rid (mapState (retime now) s).2 dt a r tool args op ir orefs md)
    = mapState (retime now)
      (emitD s (decision_helper uh now2 rid s.2 dt a r tool args op ir orefs md)) := by
  unfold emitD mapState decision_helper retime
  simp

theorem objectiveBlock_retime (uh : String → String) (now now2 rid : String)
    (payload : List (String × JVal)) (s : ExtState) :
    objectiveBlock uh now rid payload (mapState (retime now) s)
      = mapState (retime now) (objectiveBlock uh now2 rid payload s) := by
  unfold objectiveBlock
  simp only []
  split
  · exact emitD_retime_helper s uh now now2 rid _ _ _ _ _ _ _ _ _
  · rfl

theorem planBlock_retime (uh : String → String) (now now2 rid : String)
    (payload : List (String × JVal)) (s : ExtState) :
    planBlock uh now rid payload (mapState (retime now) s)
      = mapState (retime now) (planBlock uh now2 rid payload s) := by
  unfold planBlock
  split
  · exact emitD_retime_helper s uh now now2 rid _ _ _ _ _ _ _ _ _
  · rfl

theorem policyStep_retime (uh : String → String) (now now2 rid : String) (idx : Nat)
    (fields : List (String × JVal)) (s : ExtState) :
    policyStep uh now rid idx fields (mapState (retime now) s)
      = mapState (retime now) (policyStep uh now2 rid idx fields s) := by
  unfold policyStep
  split
  · exact emitD_retime_helper s uh now now2 rid _ _ _ _ _ _ _ _ _
  · rfl

theorem criticStep_retime (uh : String → String) (now now2 rid : String) (idx : Nat)
    (fields : List (String × JVal)) (s : ExtState) :
    criticStep uh now rid idx fields (mapState (retime now) s)
      = mapState (retime now) (criticStep uh now2 rid idx fields s) := by
  unfold criticStep
  split
  · exact emitD_retime_helper s uh now now2 rid _ _ _ _ _ _ _ _ _
  · rfl

theorem iterStep_retime (uh : String → String) (now now2 rid : String) (idx : Nat)
    (item : JVal) (s : ExtState) :
    iterStep uh now rid idx item (mapState (retime now) s)
      = mapState (retime now) (iterStep uh now2 rid idx item s) := by
  unfold iterStep
  split
  · rename_i fields
    rw [policyStep_retime uh now now2 rid idx fields s,
      criticStep_retime uh now now2 rid idx fields _]
  · rfl

theorem iterLoop_retime (uh : String → String) (now now2 rid : String) :
    ∀ (items : List JVal) (idx : Nat) (s : ExtState),
      iterLoop uh now rid items idx (mapState (retime now) s)
        = mapState (retime now) (iterLoop uh now2 rid items idx s) := by
  intro items
  induction items with
  | nil => intro idx s; rfl
  | cons item rest ih =>
      intro idx s
      rw [iterLoop, iterLoop, iterStep_retime uh now now2 rid idx item s, ih]

theorem iterationsBlock_retime (uh : String → String) (now now2 rid : String)
    (payload : List (String × JVal)) (s : ExtState) :
    iterationsBlock uh now rid payload (mapState (retime now) s)
      = mapState (retime now) (iterationsBlock uh now2 rid payload s) := by
  unfold iterationsBlock
  split
  · exact iterLoop_retime uh now now2 rid _ 1 s
  · rfl

theorem finalPlanBlock_retime (uh : String → String) (now now2 rid : String)
    (payload : List (String × JVal)) (s : ExtState) :
    finalPlanBlock uh now rid payload (mapState (retime now) s)
      = mapState (retime now) (finalPlanBlock uh now2 rid payload s) := by
  unfold finalPlanBlock
  split
  · simp only []
    split
    · exact emitD_retime_helper s uh now now2 rid _ _ _ _ _ _ _ _ _
    · rfl
  · rfl

theorem resStep_retime (uh : String → String) (now now2 rid : String) (idx : Nat)
    (item : JVal) (s : ExtState) :
    resStep uh now rid idx item (mapState (retime now) s)
      = mapState (retime now) (resStep uh now2 rid idx item s) := by
  unfold resStep
  split
  · simp only []
    rw [emitD_retime_helper s uh now now2 rid]
    exact emitD_retime_helper _ uh now now2 rid _ _ _ _ _ _ _ _ _
  · rfl

theorem resLoop_retime (uh : String → String) (now now2 rid : String) :
    ∀ (items : List JVal) (idx : Nat) (s : ExtState),
      resLoop uh now rid items idx (mapState (retime now) s)
        = mapState (retime now) (resLoop uh now2 rid items idx s) := by
  intro items
  induction items with
  | nil => intro idx s; rfl
  | cons item rest ih =>
      intro idx s
      rw [resLoop, resLoop, resStep_retime uh now now2 rid idx item s, ih]

theorem resultsBlock_retime (uh : String → String) (now now2 rid : String)
    (payload : List (String × JVal)) (s : ExtState) :
    resultsBlock uh now rid payload (mapState (retime now) s)
      = mapState (retime now) (resultsBlock uh now2 rid payload s) := by
  unfold resultsBlock
  split
  · exact resLoop_retime uh now now2 rid _ 1 s
  · rfl

theorem warningsBlock_retime (uh : String → String) (now now2 rid : String)
    (payload : List (String × JVal)) (s : ExtState) :
    warningsBlock uh now rid payload (mapState (retime now) s)
      = mapState (retime now) (warningsBlock uh now2 rid payload s) := by
  unfold warningsBlock
  split
  · split
    · exact emitD_retime_helper s uh now now2 rid _ _ _ _ _ _ _ _ _
    · rfl
  · rfl

theorem extractPipeline_retime (uh : String → String) (now now2 : String)
    (payload : List (String × JVal)) (rid : String) :
    extractPipeline uh now payload rid
      = mapState (retime now) (extractPipeline uh now2 payload rid) := by
  unfold extractPipeline
  rw [show objectiveBlock uh now rid payload ([], 1)
      = objectiveBlock uh now rid payload (mapState (retime now) ([], 1)) from rfl]
  rw [objectiveBlock_retime uh now now2, planBlock_retime uh now now2,
    iterationsBlock_retime uh now now2, finalPlanBlock_retime uh now now2,
    resultsBlock_retime uh now now2, warningsBlock_retime uh now now2]

theorem extract_retime (uh : String → String) (now now2 : String)
    (payload : List (String × JVal)) (rid : String) :
    extract_decisions_from_campaign uh now payload rid
      = (extract_decisions_from_campaign uh now2 payload rid).map (retime now) := by
  rw [extract_eq_pipeline, extract_eq_pipeline,
    extractPipeline_retime uh now now2 payload rid]
  by_cases hemp : (extractPipeline uh now2 payload rid).1.isEmpty
  · rw [if_pos (by
      show ((extractPipeline uh now2 payload rid).1.map (retime now)).isEmpty = true
      rw [List.isEmpty_iff] at hemp ⊢
      simp [hemp]), if_pos hemp]
    rfl
  · rw [if_neg (by
      show ¬ ((extractPipeline uh now2 payload rid).1.map (retime now)).isEmpty = true
      rw [List.isEmpty_iff] at hemp ⊢
      simp [hemp]), if_neg hemp]
    rfl

end RefuaReg

namespace RefuaReg

/-- Every decision id produced for a run is the hash of a string that starts
with the stripped run id followed by the `::` separator. -/
def IdShaped (uh : String → String) (rid : String) (d : DecisionRecord) : Prop :=
  ∃ rest, d.decision_id = uh (pstrip rid ++ "::" ++ rest)

theorem decision_helper_shaped (uh : String → String) (now rid : String)
    (si : Nat) (dt a r : String) (tool : Option String)
    (args : List (String × JVal)) (op : Option String) (ir orefs : List String)
    (md : List (String × JVal)) :
    IdShaped uh rid (decision_helper uh now rid si dt a r tool args op ir orefs md) :=
  ⟨pstrip (toString si) ++ "::" ++ (pstrip dt ++ "::" ++ pstrip (tool.getD "")), by
    show stable_id uh [rid, toString si, dt, tool.getD ""] = _
    unfold stable_id
    simp only [List.map_cons, List.map_nil]
    simp [joinSep, String.append_assoc]⟩

def AllShaped (uh : String → String) (rid : String) (s : ExtState) : Prop :=
  ∀ d ∈ s.1, IdShaped uh rid d

theorem AllShaped_init (uh : String → String) (rid : String) :
    AllShaped uh rid ([], 1) := by
  intro d hd
  simp at hd

theorem AllShaped_emit (uh : String → String) (rid : String) (s : ExtState)
    (d : DecisionRecord) (h : AllShaped uh rid s) (hd : IdShaped uh rid d) :
    AllShaped uh rid (emitD s d) := by
  intro e he
  rcases List.mem_append.mp he with h1 | h2
  · exact h e h1
  · rw [List.mem_singleton.mp h2]
    exact hd

theorem objectiveBlock_shaped (uh : String → String) (now rid : String)
    (payload : List (String × JVal)) (s : ExtState) (h : AllShaped uh rid s) :
    AllShaped uh rid (objectiveBlock uh now rid payload s) := by
  unfold objectiveBlock
  simp only []
  split
  · exact AllShaped_emit uh rid s _ h (decision_helper_shaped uh now rid _ _ _ _ _ _ _ _ _ _)
  · exact h

theorem planBlock_shaped (uh : String → String) (now rid : String)
    (payload : List (String × JVal)) (s : ExtState) (h : AllShaped uh rid s) :
    AllShaped uh rid (planBlock uh now rid payload s) := by
  unfold planBlock
  split
  · exact AllShaped_emit uh rid s _ h (decision_helper_shaped uh now rid _ _ _ _ _ _ _ _ _ _)
  · exact h

theorem policyStep_shaped (uh : String → String) (now rid : String) (idx : Nat)
    (fields : List (String × JVal)) (s : ExtState) (h : AllShaped uh rid s) :
    AllShaped uh rid (policyStep uh now rid idx fields s) := by
  unfold policyStep
  split
  · exact AllShaped_emit uh rid s _ h (decision_helper_shaped uh now rid _ _ _ _ _ _ _ _ _ _)
  · exact h

theorem criticStep_shaped (uh : String → String) (now rid : String) (idx : Nat)
    (fields : List (String × JVal)) (s : ExtState) (h : AllShaped uh rid s) :
    AllShaped uh rid (criticStep uh now rid idx fields s) := by
  unfold criticStep
  split
  · exact AllShaped_emit uh rid s _ h (decision_helper_shaped uh now rid _ _ _ _ _ _ _ _ _ _)
  · exact h

theorem iterStep_shaped (uh : String → String) (now rid : String) (idx : Nat)
    (item : JVal) (s : ExtState) (h : AllShaped uh rid s) :
    AllShaped uh rid (iterStep uh now rid idx item s) := by
  unfold iterStep
  split
  · exact criticStep_shaped uh now rid idx _ _ (policyStep_shaped uh now rid idx _ s h)
  · exact h

theorem iterLoop_shaped (uh : String → String) (now rid : String) :
    ∀ (items : List JVal) (idx : Nat) (s : ExtState), AllShaped uh rid s →
      AllShaped uh rid (iterLoop uh now rid items idx s) := by
  intro items
  induction items with
  | nil => intro idx s h; exact h
  | cons item rest ih =>
      intro idx s h
      rw [iterLoop]
      exact ih (idx + 1) _ (iterStep_shaped uh now rid idx item s h)

theorem iterationsBlock_shaped (uh : String → String) (now rid : String)
    (payload : List (String × JVal)) (s : ExtState) (h : AllShaped uh rid s) :
    AllShaped uh rid (iterationsBlock uh now rid payload s) := by
  unfold iterationsBlock
  split
  · exact iterLoop_shaped uh now rid _ 1 s h
  · exact h

theorem finalPlanBlock_shaped (uh : String → String) (now rid : String)
    (payload : List (String × JVal)) (s : ExtState) (h : AllShaped uh rid s) :
    AllShaped uh rid (finalPlanBlock uh now rid payload s) := by
  unfold finalPlanBlock
  split
  · simp only []
    split
    · exact AllShaped_emit uh rid s _ h (decision_helper_shaped uh now rid _ _ _ _ _ _ _ _ _ _)
    · exact h
  · exact h

theorem resStep_shaped (uh : String → String) (now rid : String) (idx : Nat)
    (item : JVal) (s : ExtState) (h : AllShaped uh rid s) :
    AllShaped uh rid (resStep uh now rid idx item s) := by
  unfold resStep
  split
  · simp only []
    exact AllShaped_emit uh rid _ _
      (AllShaped_emit uh rid s _ h (decision_helper_shaped uh now rid _ _ _ _ _ _ _ _ _ _))
      (decision_helper_shaped uh now rid _ _ _ _ _ _ _ _ _ _)
  · exact h

theorem resLoop_shaped (uh : String → String) (now rid : String) :
    ∀ (items : List JVal) (idx : Nat) (s : ExtState), AllShaped uh rid s →
      AllShaped uh rid (resLoop uh now rid items idx s) := by
  intro items
  induction items with
  | nil => intro idx s h; exact h
  | cons item rest ih =>
      intro idx s h
      rw [resLoop]
      exact ih (idx + 1) _ (resStep_shaped uh now rid idx item s h)

theorem resultsBlock_shaped (uh : String → String) (now rid : String)
    (payload : List (String × JVal)) (s : ExtState) (h : AllShaped uh rid s) :
    AllShaped uh rid (resultsBlock uh now rid payload s) := by
  unfold resultsBlock
  split
  · exact resLoop_shaped uh now rid _ 1 s h
  · exact h

theorem warningsBlock_shaped (uh : String → String) (now rid : String)
    (payload : List (String × JVal)) (s : ExtState) (h : AllShaped uh rid s) :
    AllShaped uh rid (warningsBlock uh now rid payload s) := by
  unfold warningsBlock
  split
  · split
    · exact AllShaped_emit uh rid s _ h (decision_helper_shaped uh now rid _ _ _ _ _ _ _ _ _ _)
    · exact h
  · exact h

theorem extract_shaped (uh : String → String) (now : String)
    (payload : List (String × JVal)) (rid : String) :
    ∀ d ∈ extract_decisions_from_campaign uh now payload rid, IdShaped uh rid d := by
  intro d hd
  rw [extract_eq_pipeline] at hd
  by_cases hemp : (extractPipeline uh now payload rid).1.isEmpty
  · rw [if_pos hemp] at hd
    rw [List.mem_singleton.mp hd]
    exact decision_helper_shaped uh now rid _ _ _ _ _ _ _ _ _ _
  · rw [if_neg hemp] at hd
    refine warningsBlock_shaped uh now rid payload _ ?rest d hd
    exact resultsBlock_shaped uh now rid payload _ (finalPlanBlock_shaped uh now rid payload _
      (iterationsBlock_shaped uh now rid payload _ (planBlock_shaped uh now rid payload _
        (objectiveBlock_shaped uh now rid payload _ (AllShaped_init uh rid)))))

end RefuaReg

namespace RefuaReg

theorem colon_sep_inj (a : List Char) :
    ∀ (b u v : List Char), ':' ∉ a → ':' ∉ b →
      a ++ ':' :: ':' :: u = b ++ ':' :: ':' :: v → a = b := by
  induction a with
  | nil =>
      intro b u v _ hb h
      cases b with
      | nil => rfl
      | cons c bt =>
          rw [List.nil_append, List.cons_append] at h
          have hc : c = ':' := (List.cons.inj h).1.symm
          exact absurd (by rw [hc]; exact List.mem_cons_self ':' bt : ':' ∈ c :: bt) hb
  | cons c at' ih =>
      intro b u v ha hb h
      cases b with
      | nil =>
          rw [List.nil_append, List.cons_append] at h
          have hc : c = ':' := (List.cons.inj h).1
          exact absurd (by rw [← hc]; exact List.mem_cons_self c at' : ':' ∈ c :: at') ha
      | cons c2 bt =>
          rw [List.cons_append, List.cons_append] at h
          obtain ⟨hc, ht⟩ := List.cons.inj h
          have ha2 : ':' ∉ at' := fun hx => ha (List.mem_cons_of_mem c hx)
          have hb2 : ':' ∉ bt := fun hx => hb (List.mem_cons_of_mem c2 hx)
          rw [hc, ih bt u v ha2 hb2 ht]

theorem mem_stripChars {c : Char} {l : List Char} (h : c ∈ stripChars l) : c ∈ l := by
  unfold stripChars at h
  rw [List.mem_reverse] at h
  have h2 := (List.dropWhile_suffix wsChar).subset h
  rw [List.mem_reverse] at h2
  exact (List.dropWhile_suffix wsChar).subset h2

theorem colon_free_pstrip {r : String} (h : ':' ∉ r.data) :
    ':' ∉ (pstrip r).data := fun hx => h (mem_stripChars hx)

/-- C4 counterexample.  The claim as stated fails in two ways: run ids `"x"`
and `"x "` differ as strings but produce identical decision-id sets
(`stable_id` strips its parts), and even run ids that differ after stripping
can collide when one embeds the other plus `::`-separated components,
because the hash input is a plain `::`-join. -/
theorem C4_counterexample :
    ("x" ≠ "x "
      ∧ ∃ i, i ∈ (extract_decisions_from_campaign (fun s => s) "" [] "x").map
            (fun d => d.decision_id)
          ∧ i ∈ (extract_decisions_from_campaign (fun s => s) "" [] "x ").map
            (fun d => d.decision_id))
    ∧ ("z" ≠ "z::2::tool_call"
      ∧ ∃ i, i ∈ (extract_decisions_from_campaign (fun s => s) ""
            [("objective", .jstr "o"),
             ("results", .jarr [.jobj [("tool", .jstr "4::tool_call::w")],
                                .jobj [("tool", .jstr "w")]])] "z").map
            (fun d => d.decision_id)
          ∧ i ∈ (extract_decisions_from_campaign (fun s => s) ""
            [("objective", .jstr "o"),
             ("results", .jarr [.jobj [("tool", .jstr "4::tool_call::w")],
                                .jobj [("tool", .jstr "w")]])] "z::2::tool_call").map
            (fun d => d.decision_id)) :=
  ⟨⟨by decide, "x::1::note::", by decide, by decide⟩,
   ⟨by decide, "z::2::tool_call::4::tool_call::w", by decide, by decide⟩⟩

/-- C4 (amended): decision-id extraction is deterministic — re-running with
a different clock reading yields identical `decision_id` values at every
position — and, for an injective hash primitive, two campaign-run ids that
are colon-free and differ after whitespace stripping produce disjoint
decision-id sets on any payload. -/
theorem C4_decision_id_determinism_separation (uh : String → String)
    (payload : List (String × JVal)) :
    (∀ now1 now2 rid,
      (extract_decisions_from_campaign uh now1 payload rid).map (fun d => d.decision_id)
        = (extract_decisions_from_campaign uh now2 payload rid).map
            (fun d => d.decision_id))
    ∧ ∀ r1 r2 now1 now2, Function.Injective uh →
        ':' ∉ r1.data → ':' ∉ r2.data → pstrip r1 ≠ pstrip r2 →
        ∀ i ∈ (extract_decisions_from_campaign uh now1 payload r1).map
            (fun d => d.decision_id),
          i ∉ (extract_decisions_from_campaign uh now2 payload r2).map
            (fun d => d.decision_id) := by
  constructor
  · intro now1 now2 rid
    rw [extract_retime uh now1 now2 payload rid, List.map_map]
    rfl
  · intro r1 r2 now1 now2 hinj h1 h2 hne i hi1 hi2
    obtain ⟨d1, hd1, hid1⟩ := List.mem_map.mp hi1
    obtain ⟨d2, hd2, hid2⟩ := List.mem_map.mp hi2
    obtain ⟨rest1, he1⟩ := extract_shaped uh now1 payload r1 d1 hd1
    obtain ⟨rest2, he2⟩ := extract_shaped uh now2 payload r2 d2 hd2
    have heq : pstrip r1 ++ "::" ++ rest1 = pstrip r2 ++ "::" ++ rest2 := by
      apply hinj
      rw [← he1, ← he2, hid1, hid2]
    have hdata := congrArg String.data heq
    rw [String.data_append, String.data_append, String.data_append,
      String.data_append] at hdata
    have hpre : (pstrip r1).data = (pstrip r2).data := by
      refine colon_sep_inj (pstrip r1).data (pstrip r2).data rest1.data rest2.data
        (colon_free_pstrip h1) (colon_free_pstrip h2) ?eq
      simpa using hdata
    exact hne (String.ext hpre)

theorem C4_decision_id_determinism_separation_witness :
    ((extract_decisions_from_campaign (fun s => s) "t1" [] "a").map
        (fun d => d.decision_id)
      = (extract_decisions_from_campaign (fun s => s) "t2" [] "a").map
        (fun d => d.decision_id))
    ∧ ∀ i ∈ (extract_decisions_from_campaign (fun s => s) "t1" [] "a").map
        (fun d => d.decision_id),
        i ∉ (extract_decisions_from_campaign (fun s => s) "t2" [] "b").map
          (fun d => d.decision_id) :=
  ⟨(C4_decision_id_determinism_separation (fun s => s) []).1 "t1" "t2" "a",
   (C4_decision_id_determinism_separation (fun s => s) []).2 "a" "b" "t1" "t2"
     (fun _ _ h => h) (by decide) (by decide) (by decide)⟩

end RefuaReg

namespace RefuaReg

/-- C7: evaluating the `fda_cder_ai_ml` template on any bundle directory
state yields a report whose summary counts at least two manual-review items
(the template carries eight unconditionally-manual checks) and is therefore
never submission-ready. -/
theorem C7_fda_template_always_manual (sha : String → String)
    (now dirPath : String) (ofs : Option FS) :
    ∃ r, evaluate_regulatory_checklist sha now dirPath ofs "fda_cder_ai_ml" = .ok r
      ∧ 2 ≤ r.summary.manual_review
      ∧ r.summary.submission_ready = false := by
  have heval : evaluate_regulatory_checklist sha now dirPath ofs "fda_cder_ai_ml"
      = .ok
        { schema_version := "1.1.0"
          template := "fda_cder_ai_ml"
          generated_at := now
          bundle_dir := dirPath
          bundle_id := match (mkChecklistContext sha dirPath ofs).manifest with
            | some m => jget m "bundle_id"
            | none => none
          campaign_run_id := match (mkChecklistContext sha dirPath ofs).manifest with
            | some m => jget m "campaign_run_id"
            | none => none
          summary := build_summary (evalChecks (mkChecklistContext sha dirPath ofs)
            FDA_CDER_AI_ML_TEMPLATE)
          items := evalChecks (mkChecklistContext sha dirPath ofs)
            FDA_CDER_AI_ML_TEMPLATE } := rfl
  refine ⟨_, heval, ?man, ?ready⟩
  all_goals
    have hcount : (build_summary (evalChecks (mkChecklistContext sha dirPath ofs)
        FDA_CDER_AI_ML_TEMPLATE)).manual_review
        = (evalChecks (mkChecklistContext sha dirPath ofs)
            FDA_CDER_AI_ML_TEMPLATE).countP (fun i => i.status == "manual_review") := rfl
  all_goals
    have hsub : (FDA_CDER_AI_ML_TEMPLATE.drop 16).Sublist FDA_CDER_AI_ML_TEMPLATE :=
      List.drop_sublist 16 FDA_CDER_AI_ML_TEMPLATE
  all_goals
    have h8 : ((evalChecks (mkChecklistContext sha dirPath ofs)
        (FDA_CDER_AI_ML_TEMPLATE.drop 16)).countP
        (fun i => i.status == "manual_review")) = 8 := rfl
  all_goals
    have hge : 8 ≤ (evalChecks (mkChecklistContext sha dirPath ofs)
        FDA_CDER_AI_ML_TEMPLATE).countP (fun i => i.status == "manual_review") := by
      rw [← h8]
      exact List.Sublist.countP_le _ (hsub.map _)
  case man =>
    show 2 ≤ (build_summary (evalChecks (mkChecklistContext sha dirPath ofs)
        FDA_CDER_AI_ML_TEMPLATE)).manual_review
    rw [hcount]
    omega
  case ready =>
    show (build_summary (evalChecks (mkChecklistContext sha dirPath ofs)
        FDA_CDER_AI_ML_TEMPLATE)).submission_ready = false
    have hready : (build_summary (evalChecks (mkChecklistContext sha dirPath ofs)
        FDA_CDER_AI_ML_TEMPLATE)).submission_ready
        = (((evalChecks (mkChecklistContext sha dirPath ofs)
              FDA_CDER_AI_ML_TEMPLATE).countP (fun i => i.status == "fail") == 0)
          && ((evalChecks (mkChecklistContext sha dirPath ofs)
              FDA_CDER_AI_ML_TEMPLATE).countP
                (fun i => i.status == "manual_review") == 0)) := rfl
    rw [hready]
    have hz : ((evalChecks (mkChecklistContext sha dirPath ofs)
        FDA_CDER_AI_ML_TEMPLATE).countP
          (fun i => i.status == "manual_review") == 0) = false := by
      rw [beq_eq_false_iff_ne]
      omega
    rw [hz, Bool.and_false]

end RefuaReg

namespace RefuaReg

/-! ## Serialized JSON text is newline-free (toward claim C1)

`decisions.jsonl` is one `json.dumps` rendering per line; the line count
equals the decision count because no rendering contains a raw newline
(escaping turns `'\n'` into the two characters `\` `n`). -/

theorem digitChar_ne_nl : ∀ n : Nat, Nat.digitChar n ≠ '\n' := by
  intro n
  rcases Nat.lt_or_ge n 16 with h | h
  · interval_cases n <;> decide
  · unfold Nat.digitChar
    rw [if_neg (show ¬ n = 0 by omega)]
    rw [if_neg (show ¬ n = 1 by omega)]
    rw [if_neg (show ¬ n = 2 by omega)]
    rw [if_neg (show ¬ n = 3 by omega)]
    rw [if_neg (show ¬ n = 4 by omega)]
    rw [if_neg (show ¬ n = 5 by omega)]
    rw [if_neg (show ¬ n = 6 by omega)]
    rw [if_neg (show ¬ n = 7 by omega)]
    rw [if_neg (show ¬ n = 8 by omega)]
    rw [if_neg (show ¬ n = 9 by omega)]
    rw [if_neg (show ¬ n = 10 by omega)]
    rw [if_neg (show ¬ n = 11 by omega)]
    rw [if_neg (show ¬ n = 12 by omega)]
    rw [if_neg (show ¬ n = 13 by omega)]
    rw [if_neg (show ¬ n = 14 by omega)]
    rw [if_neg (show ¬ n = 15 by omega)]
    decide

theorem toDigitsCore_ne_nl : ∀ (fuel n : Nat) (ds : List Char),
    (∀ c ∈ ds, c ≠ '\n') → ∀ c ∈ Nat.toDigitsCore 10 fuel n ds, c ≠ '\n' := by
  intro fuel
  induction fuel with
  | zero => intro n ds hds; simpa [Nat.toDigitsCore] using hds
  | succ f ih =>
      intro n ds hds c hc
      rw [Nat.toDigitsCore] at hc
      split at hc
      · rcases List.mem_cons.mp hc with h | h
        · subst h; exact digitChar_ne_nl _
        · exact hds c h
      · refine ih _ _ ?_ c hc
        intro c' hc'
        rcases List.mem_cons.mp hc' with h | h
        · subst h; exact digitChar_ne_nl _
        · exact hds c' h

theorem nat_repr_ne_nl (n : Nat) : ∀ c ∈ (Nat.repr n).data, c ≠ '\n' := by
  show ∀ c ∈ Nat.toDigits 10 n, c ≠ '\n'
  exact toDigitsCore_ne_nl _ _ _ (by intro c hc; cases hc)

theorem int_toString_ne_nl (i : Int) : ∀ c ∈ (toString i).data, c ≠ '\n' := by
  cases i with
  | ofNat m =>
      show ∀ c ∈ (Nat.repr m).data, c ≠ '\n'
      exact nat_repr_ne_nl m
  | negSucc m =>
      show ∀ c ∈ ("-" ++ Nat.repr (m+1)).data, c ≠ '\n'
      intro c hc
      rw [String.data_append] at hc
      rcases List.mem_append.mp hc with h | h
      · simp at h; subst h; decide
      · exact nat_repr_ne_nl (m+1) c h

theorem escChar_ne_nl (c : Char) : ∀ c' ∈ (escChar c).data, c' ≠ '\n' := by
  unfold escChar
  by_cases h1 : c = '"'
  · rw [if_pos h1]; decide
  rw [if_neg h1]
  by_cases h2 : c = '\\'
  · rw [if_pos h2]; decide
  rw [if_neg h2]
  by_cases h3 : c = '\n'
  · rw [if_pos h3]; decide
  rw [if_neg h3]
  by_cases h4 : c = '\r'
  · rw [if_pos h4]; decide
  rw [if_neg h4]
  by_cases h5 : c = '\t'
  · rw [if_pos h5]; decide
  rw [if_neg h5]
  intro c' hc'
  have hx : c' ∈ [c] := hc'
  rw [List.mem_singleton] at hx
  subst hx
  exact h3

theorem escChars_ne_nl (l : List Char) : ∀ c' ∈ (escChars l).data, c' ≠ '\n' := by
  induction l with
  | nil => intro c' hc'; exact absurd hc' (List.not_mem_nil c')
  | cons c rest ih =>
      intro c' hc'
      have hc2 : c' ∈ (escChar c ++ escChars rest).data := hc'
      rw [String.data_append] at hc2
      rcases List.mem_append.mp hc2 with h | h
      · exact escChar_ne_nl c c' h
      · exact ih c' h

theorem jquote_ne_nl (s : String) : ∀ c ∈ (jquote s).data, c ≠ '\n' := by
  intro c hc
  have hc2 : c ∈ ("\"" ++ escChars s.data ++ "\"").data := hc
  rw [String.data_append, String.data_append] at hc2
  rcases List.mem_append.mp hc2 with h | h
  · rcases List.mem_append.mp h with h' | h'
    · simp at h'; subst h'; decide
    · exact escChars_ne_nl s.data c h'
  · simp at h; subst h; decide

theorem joinWith_ne_nl (sep : String) (hsep : ∀ c ∈ sep.data, c ≠ '\n') :
    ∀ parts : List String, (∀ s ∈ parts, ∀ c ∈ s.data, c ≠ '\n') →
      ∀ c ∈ (joinWith sep parts).data, c ≠ '\n' := by
  intro parts
  induction parts with
  | nil => intro _ c hc; exact absurd hc (List.not_mem_nil c)
  | cons p rest ih =>
      intro hp
      cases rest with
      | nil =>
          intro c hc
          exact hp p (List.mem_cons_self p []) c hc
      | cons q rest2 =>
          intro c hc
          have hc2 : c ∈ (p ++ sep ++ joinWith sep (q :: rest2)).data := hc
          rw [String.data_append, String.data_append] at hc2
          rcases List.mem_append.mp hc2 with h | h
          · rcases List.mem_append.mp h with h' | h'
            · exact hp p (List.mem_cons_self p (q :: rest2)) c h'
            · exact hsep c h'
          · exact ih (fun s hs => hp s (List.mem_cons_of_mem p hs)) c h

theorem renderPair_ne_nl (kv : String × String)
    (h : ∀ c ∈ kv.2.data, c ≠ '\n') : ∀ c ∈ (renderPair kv).data, c ≠ '\n' := by
  intro c hc
  have hc2 : c ∈ (jquote kv.1 ++ ": " ++ kv.2).data := hc
  rw [String.data_append, String.data_append] at hc2
  rcases List.mem_append.mp hc2 with h' | h'
  · rcases List.mem_append.mp h' with h2 | h2
    · exact jquote_ne_nl kv.1 c h2
    · simp at h2; rcases h2 with h3 | h3 <;> (subst h3; decide)
  · exact h c h'

mutual

theorem jdump_ne_nl : ∀ v : JVal, ∀ c ∈ (jdump v).data, c ≠ '\n'
  | .jnull => by decide
  | .jbool true => by decide
  | .jbool false => by decide
  | .jnum n => by
      intro c hc
      exact int_toString_ne_nl n c hc
  | .jstr s => by
      intro c hc
      exact jquote_ne_nl s c hc
  | .jarr items => by
      intro c hc
      have hc2 : c ∈ ("[" ++ joinWith ", " (jdumpList items) ++ "]").data := hc
      rw [String.data_append, String.data_append] at hc2
      rcases List.mem_append.mp hc2 with h | h
      · rcases List.mem_append.mp h with h' | h'
        · simp at h'; subst h'; decide
        · refine joinWith_ne_nl ", " (by decide) (jdumpList items) ?_ c h'
          exact jdumpList_ne_nl items
      · simp at h; subst h; decide
  | .jobj fields => by
      intro c hc
      have hc2 : c ∈ ("\x7b" ++
          joinWith ", " ((sortPairsByKey (jdumpPairs fields)).map renderPair)
          ++ "\x7d").data := hc
      rw [String.data_append, String.data_append] at hc2
      rcases List.mem_append.mp hc2 with h | h
      · rcases List.mem_append.mp h with h' | h'
        · simp at h'; subst h'; decide
        · refine joinWith_ne_nl ", " (by decide) _ ?_ c h'
          intro s hs
          rcases List.mem_map.mp hs with ⟨kv, hkv, hrend⟩
          have hkv2 : kv ∈ jdumpPairs fields := by
            have hperm := List.perm_insertionSort
              (fun a b : String × String => a.1 ≤ b.1) (jdumpPairs fields)
            exact hperm.mem_iff.mp hkv
          subst hrend
          exact renderPair_ne_nl kv (jdumpPairs_ne_nl fields kv hkv2)
      · simp at h; subst h; decide

theorem jdumpList_ne_nl : ∀ l : List JVal, ∀ s ∈ jdumpList l, ∀ c ∈ s.data, c ≠ '\n'
  | [] => by intro s hs; exact absurd hs (List.not_mem_nil s)
  | v :: rest => by
      intro s hs
      rcases List.mem_cons.mp hs with h | h
      · subst h; exact jdump_ne_nl v
      · exact jdumpList_ne_nl rest s h

theorem jdumpPairs_ne_nl : ∀ l : List (String × JVal),
    ∀ kv ∈ jdumpPairs l, ∀ c ∈ kv.2.data, c ≠ '\n'
  | [] => by intro kv hkv; exact absurd hkv (List.not_mem_nil kv)
  | (k, v) :: rest => by
      intro kv hkv
      rcases List.mem_cons.mp hkv with h | h
      · subst h; exact jdump_ne_nl v
      · exact jdumpPairs_ne_nl rest kv h

end

end RefuaReg

namespace RefuaReg

theorem mem_dropWhile_of_false {p : Char → Bool} {c : Char} :
    ∀ {l : List Char}, c ∈ l → p c = false → c ∈ l.dropWhile p := by
  intro l
  induction l with
  | nil => intro hc _; exact absurd hc (List.not_mem_nil c)
  | cons a rest ih =>
      intro hc hw
      by_cases ha : p a = true
      · rw [List.dropWhile_cons_of_pos ha]
        rcases List.mem_cons.mp hc with h | h
        · subst h; rw [hw] at ha; cases ha
        · exact ih h hw
      · rw [List.dropWhile_cons_of_neg ha]
        exact hc

theorem stripChars_mem_ne_nil {l : List Char} {c : Char}
    (hc : c ∈ l) (hw : wsChar c = false) : stripChars l ≠ [] := by
  unfold stripChars
  have h1 : c ∈ l.dropWhile wsChar := mem_dropWhile_of_false hc hw
  have h2 : c ∈ (l.dropWhile wsChar).reverse := List.mem_reverse.mpr h1
  have h3 : c ∈ (l.dropWhile wsChar).reverse.dropWhile wsChar :=
    mem_dropWhile_of_false h2 hw
  have h4 : c ∈ ((l.dropWhile wsChar).reverse.dropWhile wsChar).reverse :=
    List.mem_reverse.mpr h3
  exact List.ne_nil_of_mem h4

theorem pstrip_ne_empty {s : String} {c : Char}
    (hc : c ∈ s.data) (hw : wsChar c = false) : pstrip s ≠ "" := by
  intro h0
  have h1 : stripChars s.data = [] := congrArg String.data h0
  exact stripChars_mem_ne_nil hc hw h1

theorem splitLinesChars_append_nl :
    ∀ (a rest : List Char), (∀ c ∈ a, c ≠ '\n') →
      splitLinesChars (a ++ '\n' :: rest) = a :: splitLinesChars rest := by
  intro a
  induction a with
  | nil =>
      intro rest _
      simp [splitLinesChars]
  | cons c a2 ih =>
      intro rest ha
      have hc : ¬ c = '\n' := ha c (List.mem_cons_self c a2)
      rw [List.cons_append, splitLinesChars, if_neg hc,
        ih rest (fun c' h' => ha c' (List.mem_cons_of_mem c h'))]

theorem count_jsonl_lines_jsonl :
    ∀ vs : List JVal, (∀ v ∈ vs, ∃ f, v = JVal.jobj f) →
      count_jsonl_lines (jsonlRaw vs) = vs.length := by
  intro vs
  induction vs with
  | nil => intro _; rfl
  | cons v rest ih =>
      intro hv
      obtain ⟨f, hf⟩ := hv v (List.mem_cons_self v rest)
      unfold count_jsonl_lines splitLines
      have hdata : (jsonlRaw (v :: rest)).data
          = (jdump v).data ++ '\n' :: (jsonlRaw rest).data := by
        show (jdump v ++ "\n" ++ jsonlRaw rest).data = _
        simp [String.data_append]
      rw [hdata, splitLinesChars_append_nl _ _ (jdump_ne_nl v), List.map_cons]
      have hpos : pstrip (⟨(jdump v).data⟩ : String) ≠ "" := by
        have hmem : '\x7b' ∈ (jdump v).data := by
          rw [hf]
          show '\x7b' ∈ (jdump (.jobj f)).data
          have : jdump (.jobj f) = "\x7b" ++
              (joinWith ", " ((sortPairsByKey (jdumpPairs f)).map renderPair)
                ++ "\x7d") := by
            rw [jdump]
            simp [String.append_assoc]
          rw [this, String.data_append]
          simp
        exact pstrip_ne_empty hmem (by decide)
      rw [List.countP_cons_of_pos _ _ (by simpa using hpos)]
      have htail : List.countP (fun line => decide (pstrip line ≠ ""))
          (List.map (fun l => (⟨l⟩ : String)) (splitLinesChars (jsonlRaw rest).data))
          = count_jsonl_lines (jsonlRaw rest) := rfl
      rw [htail, ih (fun v' h' => hv v' (List.mem_cons_of_mem v h'))]
      simp

end RefuaReg

namespace RefuaReg

/-! ## Filesystem write/read algebra (toward claim C1) -/

theorem find?_filter_ne (fs : FS) (p q : String) (hne : q ≠ p) :
    (fs.filter (fun e => e.1 != p)).find? (fun e => e.1 == q)
      = fs.find? (fun e => e.1 == q) := by
  induction fs with
  | nil => rfl
  | cons e rest ih =>
      by_cases hep : e.1 = p
      · rw [List.filter_cons_of_neg (by simp [hep])]
        rw [List.find?_cons_of_neg _ (by
          simp only [beq_iff_eq, hep]
          exact fun h => hne h.symm)]
        exact ih
      · rw [List.filter_cons_of_pos (by simp [hep])]
        by_cases heq : e.1 = q
        · rw [List.find?_cons_of_pos _ (by simp [heq]),
            List.find?_cons_of_pos _ (by simp [heq])]
        · rw [List.find?_cons_of_neg _ (by simp [heq]),
            List.find?_cons_of_neg _ (by simp [heq])]
          exact ih

theorem fsGet_write_self (fs : FS) (p : String) (fd : FileData) :
    fsGet (fsWrite fs p fd) p = some fd := by
  unfold fsGet fsWrite
  rw [List.find?_append]
  have h1 : (fs.filter (fun e => e.1 != p)).find? (fun e => e.1 == p) = none := by
    rw [List.find?_eq_none]
    intro e he
    have h2 := List.of_mem_filter he
    simpa using h2
  rw [h1]
  simp

theorem fsGet_write_ne (fs : FS) (p q : String) (fd : FileData) (hne : q ≠ p) :
    fsGet (fsWrite fs p fd) q = fsGet fs q := by
  unfold fsGet fsWrite
  rw [List.find?_append, find?_filter_ne fs p q hne]
  have h2 : (([(p, fd)] : FS).find? (fun e => e.1 == q)) = none := by
    simp only [List.find?_cons, List.find?_nil]
    have : ((p, fd).1 == q) = false := by
      simp only [beq_eq_false_iff_ne]
      exact fun h => hne h.symm
    rw [this]
  rw [h2]
  cases fs.find? (fun e => e.1 == q) <;> rfl

theorem fsExists_write_mono {fs : FS} {q : String} (p : String) (fd : FileData)
    (h : fsExists fs q = true) : fsExists (fsWrite fs p fd) q = true := by
  by_cases hqp : q = p
  · subst hqp
    unfold fsExists
    rw [fsGet_write_self]
    rfl
  · unfold fsExists at h ⊢
    rw [fsGet_write_ne fs p q fd hqp]
    exact h

theorem fsExists_write_elim {fs : FS} {p q : String} {fd : FileData}
    (h : fsExists (fsWrite fs p fd) q = true) : q = p ∨ fsExists fs q = true := by
  by_cases hqp : q = p
  · exact Or.inl hqp
  · right
    unfold fsExists at h ⊢
    rw [fsGet_write_ne fs p q fd hqp] at h
    exact h

/-- The bundle directory never holds two files with the same relative path. -/
def fsNodup (fs : FS) : Prop := (fs.map Prod.fst).Nodup

theorem fsNodup_nil : fsNodup [] := List.nodup_nil

theorem fsNodup_write (fs : FS) (p : String) (fd : FileData) (h : fsNodup fs) :
    fsNodup (fsWrite fs p fd) := by
  unfold fsNodup fsWrite
  rw [List.map_append, List.nodup_append]
  refine ⟨?_, by simp, ?_⟩
  · exact List.Nodup.sublist ((List.filter_sublist fs).map Prod.fst) h
  · intro a ha hb
    have hap : a = p := by simpa using hb
    rcases List.mem_map.mp ha with ⟨e, he, hkey⟩
    have h2 := List.of_mem_filter he
    rw [hkey, hap] at h2
    simp at h2

theorem fsGet_of_mem (p : String) (fd : FileData) :
    ∀ fs : FS, fsNodup fs → (p, fd) ∈ fs → fsGet fs p = some fd := by
  intro fs
  induction fs with
  | nil => intro _ hmem; cases hmem
  | cons e rest ih =>
      intro hnd hmem
      obtain ⟨k, v⟩ := e
      have hnd2 : fsNodup ((k, v) :: rest) := hnd
      unfold fsNodup at hnd2
      rw [List.map_cons, List.nodup_cons] at hnd2
      rcases List.mem_cons.mp hmem with h | h
      · cases h
        unfold fsGet
        rw [List.find?_cons_of_pos _ (by simp)]
        rfl
      · have hpk : p ∈ rest.map Prod.fst := List.mem_map.mpr ⟨(p, fd), h, rfl⟩
        have hne : ¬ ((k, v).1 == p) = true := by
          simp only [beq_iff_eq]
          intro hh
          exact hnd2.1 (hh ▸ hpk)
        unfold fsGet
        rw [List.find?_cons_of_neg _ (by exact hne)]
        exact ih hnd2.2 h

theorem fsGet_mem {p : String} {fd : FileData} :
    ∀ {fs : FS}, fsGet fs p = some fd → (p, fd) ∈ fs := by
  intro fs
  induction fs with
  | nil => intro h; exact absurd h (by simp [fsGet])
  | cons e rest ih =>
      intro h
      obtain ⟨k, v⟩ := e
      by_cases he : ((k, v).1 == p) = true
      · unfold fsGet at h
        rw [List.find?_cons_of_pos _ (by exact he)] at h
        simp at h
        have h1 : k = p := by simpa using he
        subst h1
        subst h
        exact List.mem_cons_self _ _
      · unfold fsGet at h
        rw [List.find?_cons_of_neg _ (by exact he)] at h
        exact List.mem_cons_of_mem _ (ih h)

theorem fsExists_of_mem {fs : FS} {e : String × FileData} (h : e ∈ fs) :
    fsExists fs e.1 = true := by
  unfold fsExists fsGet
  have h1 : (fs.find? (fun x => x.1 == e.1)).isSome :=
    List.find?_isSome.mpr ⟨e, h, by simp⟩
  rcases Option.isSome_iff_exists.mp h1 with ⟨a, ha⟩
  rw [ha]
  rfl

theorem exists_of_fsExists {fs : FS} {p : String} (h : fsExists fs p = true) :
    ∃ fd, (p, fd) ∈ fs := by
  unfold fsExists fsGet at h
  cases hf : fs.find? (fun e => e.1 == p) with
  | none => rw [hf] at h; simp at h
  | some e =>
      have he := List.find?_some hf
      have hmem := List.mem_of_find?_eq_some hf
      have h1 : e.1 = p := by simpa using he
      refine ⟨e.2, ?_⟩
      rw [← h1]
      simpa using hmem

theorem fsExists_of_fsGet {fs : FS} {p : String} {fd : FileData}
    (h : fsGet fs p = some fd) : fsExists fs p = true := by
  unfold fsExists
  rw [h]
  rfl

end RefuaReg

namespace RefuaReg

/-! ## Checksum file round trip (toward claim C1) -/

/-- A checksum entry the builder can emit: 64-character whitespace-free
digest, nonempty whitespace-free relative path. -/
def goodEntry (e : String × String) : Prop :=
  e.1.length = 64 ∧ (∀ c ∈ e.1.data, wsChar c = false) ∧
    e.2 ≠ "" ∧ (∀ c ∈ e.2.data, wsChar c = false)

theorem length_ne_empty {d : String} (h64 : d.length = 64) : d ≠ "" := by
  intro h0
  rw [h0] at h64
  simp at h64

theorem checksum_text_lines : ∀ entries : List (String × String),
    (∀ e ∈ entries, goodEntry e) →
    splitLines (checksumLinesText entries)
      = entries.map (fun e => e.1 ++ "  " ++ e.2) := by
  intro entries
  induction entries with
  | nil => intro _; rfl
  | cons e rest ih =>
      intro hg
      obtain ⟨d, p⟩ := e
      obtain ⟨h64, hdw, hpne, hpw⟩ := hg (d, p) (List.mem_cons_self _ _)
      unfold splitLines
      have hdata : (checksumLinesText ((d, p) :: rest)).data
          = ((d ++ "  " ++ p).data) ++ '\n' :: (checksumLinesText rest).data := by
        show (d ++ "  " ++ p ++ "\n" ++ checksumLinesText rest).data = _
        simp [String.data_append]
      rw [hdata, splitLinesChars_append_nl _ _ (by
        intro c hc
        have hc2 : c ∈ (d.data ++ (' ' :: ' ' :: p.data)) := by
          simpa [String.data_append] using hc
        rcases List.mem_append.mp hc2 with h | h
        · exact no_newline_of_no_ws hdw c h
        · rcases List.mem_cons.mp h with h' | h'
          · subst h'; decide
          · rcases List.mem_cons.mp h' with h2 | h2
            · subst h2; decide
            · exact no_newline_of_no_ws hpw c h2)]
      rw [List.map_cons]
      have ht := ih (fun x hx => hg x (List.mem_cons_of_mem _ hx))
      unfold splitLines at ht
      rw [ht]
      rfl

theorem parse_lines_entries : ∀ (entries : List (String × String)) (k : Nat),
    (∀ e ∈ entries, goodEntry e) →
    parseChecksumLines k (entries.map (fun e => e.1 ++ "  " ++ e.2)) = .ok entries := by
  intro entries
  induction entries with
  | nil => intro k _; rfl
  | cons e rest ih =>
      intro k hg
      obtain ⟨d, p⟩ := e
      obtain ⟨h64, hdw, hpne, hpw⟩ := hg (d, p) (List.mem_cons_self _ _)
      have hdne : d ≠ "" := length_ne_empty h64
      rw [List.map_cons, parseChecksumLines]
      rw [pstrip_sep_line d "  " p hdw hdne hpw hpne]
      rw [if_neg (sep_line_ne_empty d "  " p hdne)]
      have hdata : (d ++ "  " ++ p).data = d.data ++ ' ' :: ' ' :: p.data := by
        simp [String.data_append]
      rw [hdata, splitTwoSpace_append d.data p.data (no_space_of_no_ws hdw)]
      simp only []
      rw [pstrip_mk_eq_self d.data hdw, pstrip_mk_eq_self p.data hpw]
      rw [if_neg (by simpa using h64)]
      rw [if_neg (by
        show ¬ (⟨p.data⟩ : String) = ""
        intro h0
        exact (data_ne_nil_of_ne_empty hpne) (by
          have h1 := congrArg String.data h0
          simpa using h1))]
      rw [ih (k + 1) (fun x hx => hg x (List.mem_cons_of_mem _ hx))]

theorem parse_checksum_roundtrip (entries : List (String × String))
    (hg : ∀ e ∈ entries, goodEntry e) :
    parse_checksum_file (checksumLinesText entries) = .ok entries := by
  unfold parse_checksum_file
  rw [checksum_text_lines entries hg, parse_lines_entries entries 1 hg]

end RefuaReg

namespace RefuaReg

/-! ## Verifier loop lemmas (toward claim C1) -/

theorem checksumLoop_all_match (sha : String → String) (fs : FS) :
    ∀ (entries : List (String × String)) (checked : Nat)
      (errs warns : List String),
    (∀ e ∈ entries, e.2 ≠ "checksums.sha256" ∧
      ∃ fd, fsGet fs e.2 = some fd ∧ sha fd.raw = e.1) →
    checksumLoop sha fs entries checked errs warns
      = (checked + entries.length, errs, warns) := by
  intro entries
  induction entries with
  | nil => intro checked errs warns _; simp [checksumLoop]
  | cons e rest ih =>
      intro checked errs warns h
      obtain ⟨d, p⟩ := e
      obtain ⟨hp, fd, hget, hsha⟩ := h (d, p) (List.mem_cons_self _ _)
      rw [checksumLoop]
      rw [if_neg hp, hget]
      simp only []
      rw [hsha]
      rw [if_neg (by exact fun hh => hh rfl)]
      rw [ih (checked + 1) errs warns (fun x hx => h x (List.mem_cons_of_mem _ hx))]
      have h2 : checked + 1 + rest.length = checked + ((d, p) :: rest).length := by
        rw [List.length_cons]
        omega
      rw [h2]

theorem filesLoop_all_exist (fs : FS) :
    ∀ (items : List JVal) (missing : List String),
    (∀ v ∈ items, ∃ s, v = JVal.jstr s ∧ fsExists fs s = true) →
    filesLoop fs items missing = ([], missing) := by
  intro items
  induction items with
  | nil => intro missing _; rfl
  | cons v rest ih =>
      intro missing h
      obtain ⟨s, hs, hex⟩ := h v (List.mem_cons_self _ _)
      subst hs
      rw [filesLoop]
      rw [if_pos hex]
      exact ih missing (fun x hx => h x (List.mem_cons_of_mem _ hx))

theorem templatesLookup_isSome_cases {t : String}
    (h : (templatesLookup t).isSome = true) :
    t = "core" ∨ t = "drug_discovery_comprehensive" ∨ t = "fda_cder_ai_ml" := by
  unfold templatesLookup at h
  by_cases h1 : t = "core"
  · exact Or.inl h1
  rw [if_neg h1] at h
  by_cases h2 : t = "drug_discovery_comprehensive"
  · exact Or.inr (Or.inl h2)
  rw [if_neg h2] at h
  by_cases h3 : t = "fda_cder_ai_ml"
  · exact Or.inr (Or.inr h3)
  rw [if_neg h3] at h
  simp at h

theorem evaluate_ok_isSome {sha : String → String} {now dirPath : String}
    {ofs : Option FS} {t : String} {r : ChecklistReport}
    (h : evaluate_regulatory_checklist sha now dirPath ofs t = .ok r) :
    (templatesLookup t).isSome = true := by
  unfold evaluate_regulatory_checklist at h
  cases htl : templatesLookup t with
  | none => rw [htl] at h; simp at h
  | some checks => rfl

end RefuaReg

namespace RefuaReg

/-! ## Checklist generation loop invariants (toward claim C1) -/

theorem cgl_preserve (sha : String → String) (now dirPath : String) (q : String)
    (hq : ∀ s : String, q ≠ "checklists/" ++ s) :
    ∀ (ts : List String) (fs : FS) (reports : List ChecklistReport)
      (rels : List String) (fs2 : FS) (reports2 : List ChecklistReport)
      (rels2 : List String),
    checklistGenLoop sha now dirPath ts fs reports rels = .ok (fs2, reports2, rels2) →
    fsGet fs2 q = fsGet fs q := by
  intro ts
  induction ts with
  | nil =>
      intro fs r rl fs2 r2 rl2 h
      rw [checklistGenLoop] at h
      simp only [Except.ok.injEq, Prod.mk.injEq] at h
      rw [← h.1]
  | cons t rest ih =>
      intro fs r rl fs2 r2 rl2 h
      rw [checklistGenLoop] at h
      cases heval : evaluate_regulatory_checklist sha now dirPath (some fs) t with
      | error e => rw [heval] at h; simp at h
      | ok report =>
          rw [heval] at h
          simp only [] at h
          rw [ih _ _ _ _ _ _ h]
          rw [fsGet_write_ne _ _ _ _ (by
            have hmd := hq (t ++ ".md")
            rw [← String.append_assoc] at hmd
            exact hmd)]
          rw [fsGet_write_ne _ _ _ _ (by
            have hjs := hq (t ++ ".json")
            rw [← String.append_assoc] at hjs
            exact hjs)]

theorem cgl_exists_mono (sha : String → String) (now dirPath : String)
    (q : String) :
    ∀ (ts : List String) (fs : FS) (reports : List ChecklistReport)
      (rels : List String) (fs2 : FS) (reports2 : List ChecklistReport)
      (rels2 : List String),
    checklistGenLoop sha now dirPath ts fs reports rels = .ok (fs2, reports2, rels2) →
    fsExists fs q = true → fsExists fs2 q = true := by
  intro ts
  induction ts with
  | nil =>
      intro fs r rl fs2 r2 rl2 h hex
      rw [checklistGenLoop] at h
      simp only [Except.ok.injEq, Prod.mk.injEq] at h
      rw [← h.1]
      exact hex
  | cons t rest ih =>
      intro fs r rl fs2 r2 rl2 h hex
      rw [checklistGenLoop] at h
      cases heval : evaluate_regulatory_checklist sha now dirPath (some fs) t with
      | error e => rw [heval] at h; simp at h
      | ok report =>
          rw [heval] at h
          simp only [] at h
          exact ih _ _ _ _ _ _ h
            (fsExists_write_mono _ _ (fsExists_write_mono _ _ hex))

theorem cgl_nodup (sha : String → String) (now dirPath : String) :
    ∀ (ts : List String) (fs : FS) (reports : List ChecklistReport)
      (rels : List String) (fs2 : FS) (reports2 : List ChecklistReport)
      (rels2 : List String),
    checklistGenLoop sha now dirPath ts fs reports rels = .ok (fs2, reports2, rels2) →
    fsNodup fs → fsNodup fs2 := by
  intro ts
  induction ts with
  | nil =>
      intro fs r rl fs2 r2 rl2 h hnd
      rw [checklistGenLoop] at h
      simp only [Except.ok.injEq, Prod.mk.injEq] at h
      rw [← h.1]
      exact hnd
  | cons t rest ih =>
      intro fs r rl fs2 r2 rl2 h hnd
      rw [checklistGenLoop] at h
      cases heval : evaluate_regulatory_checklist sha now dirPath (some fs) t with
      | error e => rw [heval] at h; simp at h
      | ok report =>
          rw [heval] at h
          simp only [] at h
          exact ih _ _ _ _ _ _ h (fsNodup_write _ _ _ (fsNodup_write _ _ _ hnd))

theorem cgl_names (sha : String → String) (now dirPath : String) :
    ∀ (ts : List String) (fs : FS) (reports : List ChecklistReport)
      (rels : List String) (fs2 : FS) (reports2 : List ChecklistReport)
      (rels2 : List String),
    checklistGenLoop sha now dirPath ts fs reports rels = .ok (fs2, reports2, rels2) →
    ∀ n, fsExists fs2 n = true →
      fsExists fs n = true ∨ ∃ t2, (templatesLookup t2).isSome = true ∧
        (n = "checklists/" ++ t2 ++ ".json" ∨ n = "checklists/" ++ t2 ++ ".md") := by
  intro ts
  induction ts with
  | nil =>
      intro fs r rl fs2 r2 rl2 h n hex
      rw [checklistGenLoop] at h
      simp only [Except.ok.injEq, Prod.mk.injEq] at h
      rw [← h.1] at hex
      exact Or.inl hex
  | cons t rest ih =>
      intro fs r rl fs2 r2 rl2 h n hex
      rw [checklistGenLoop] at h
      cases heval : evaluate_regulatory_checklist sha now dirPath (some fs) t with
      | error e => rw [heval] at h; simp at h
      | ok report =>
          rw [heval] at h
          simp only [] at h
          rcases ih _ _ _ _ _ _ h n hex with h3 | h3
          · rcases fsExists_write_elim h3 with hmd | h4
            · exact Or.inr ⟨t, evaluate_ok_isSome heval, Or.inr hmd⟩
            · rcases fsExists_write_elim h4 with hjs | h5
              · exact Or.inr ⟨t, evaluate_ok_isSome heval, Or.inl hjs⟩
              · exact Or.inl h5
          · exact Or.inr h3

end RefuaReg

namespace RefuaReg

/-! ## The verifier accepts a well-shaped bundle directory (toward claim C1) -/

/-- The field list of the serialized manifest object. -/
def manifestFieldsOf (m : EvidenceBundleManifest) : List (String × JVal) :=
  match manifestToJVal m with
  | .jobj fields => fields
  | _ => []

theorem verify_ok_of_shape (sha : String → String) (dirPath : String) (G : FS)
    (M : EvidenceBundleManifest) (entries : List (String × String))
    (fieldss : List (List (String × JVal)))
    (hcs : fsGet G "checksums.sha256" = some (fdText (checksumLinesText entries)))
    (hgood : ∀ e ∈ entries, goodEntry e)
    (hloop : ∀ e ∈ entries, e.2 ≠ "checksums.sha256" ∧
      ∃ fd, fsGet G e.2 = some fd ∧ sha fd.raw = e.1)
    (hman : fsGet G "manifest.json" = some (fdJson (manifestToJVal M)))
    (hfiles : ∀ n ∈ M.files, fsExists G n = true)
    (hlin : fsExists G "lineage.json" = true)
    (hdec : fsGet G "decisions.jsonl" = some (fdJsonl (fieldss.map JVal.jobj)))
    (hcount : M.decision_count = fieldss.length) :
    verify_evidence_bundle sha dirPath (some G)
      = ⟨true, entries.length, [], []⟩ := by
  have hexm : fsExists G "manifest.json" = true := fsExists_of_fsGet hman
  have hexd : fsExists G "decisions.jsonl" = true := fsExists_of_fsGet hdec
  have hexcs : fsExists G "checksums.sha256" = true := fsExists_of_fsGet hcs
  have herr0 : REQUIRED_BUNDLE_FILES.filter (fun n => !(fsExists G n)) = [] := by
    unfold REQUIRED_BUNDLE_FILES
    simp [hexm, hexd, hexcs, hlin]
  have hread : read_json_object (fdJson (manifestToJVal M))
      = .ok (manifestFieldsOf M) := rfl
  have hjfiles : jget (manifestFieldsOf M) "files"
      = some (.jarr (M.files.map .jstr)) := rfl
  have hjdc : jget (manifestFieldsOf M) "decision_count"
      = some (.jnum (M.decision_count : Int)) := rfl
  have hcond : ∀ v ∈ M.files.map JVal.jstr,
      ∃ s, v = JVal.jstr s ∧ fsExists G s = true := by
    intro v hv
    rcases List.mem_map.mp hv with ⟨n, hn, hrfl⟩
    exact ⟨n, hrfl.symm, hfiles n hn⟩
  have hobjs : ∀ v ∈ fieldss.map JVal.jobj, ∃ f, v = JVal.jobj f := by
    intro v hv
    rcases List.mem_map.mp hv with ⟨f, _, hrfl⟩
    exact ⟨f, hrfl.symm⟩
  have hdceq : (M.decision_count : Int) = (fieldss.length : Int) := by
    exact_mod_cast hcount
  simp only [verify_evidence_bundle, herr0, List.map_nil, hman, hread, hcs, fdText,
    fdJsonl, parse_checksum_roundtrip entries hgood,
    checksumLoop_all_match sha G entries 0 [] [] hloop,
    hjfiles, filesLoop_all_exist G (M.files.map JVal.jstr) [] hcond,
    List.isEmpty_nil, hdec, count_jsonl_lines_jsonl (fieldss.map JVal.jobj) hobjs,
    List.length_map, hjdc, hdceq, ne_eq, List.append_nil, List.nil_append,
    Nat.zero_add, if_true, ite_self]
  simp

end RefuaReg

namespace RefuaReg

theorem verify_write_checksums_ok (sha : String → String) (dirPath : String)
    (fs7 : FS) (M : EvidenceBundleManifest)
    (fieldss : List (List (String × JVal)))
    (hlen : ∀ s, (sha s).length = 64)
    (hws : ∀ s, ∀ c ∈ (sha s).data, wsChar c = false)
    (hnd : fsNodup fs7)
    (hnames : ∀ n, fsExists fs7 n = true → n ≠ "" ∧ ∀ c ∈ n.data, wsChar c = false)
    (hman : fsGet fs7 "manifest.json" = some (fdJson (manifestToJVal M)))
    (hfiles : ∀ n ∈ M.files, fsExists fs7 n = true)
    (hlin : fsExists fs7 "lineage.json" = true)
    (hdec : fsGet fs7 "decisions.jsonl" = some (fdJsonl (fieldss.map JVal.jobj)))
    (hcount : M.decision_count = fieldss.length) :
    verify_evidence_bundle sha dirPath (some (write_checksums sha fs7))
      = ⟨true, (checksumEntriesOf sha fs7).length, [], []⟩ := by
  have hmemfs7 : ∀ x ∈ (sortFS fs7).filter (fun e => e.1 ≠ "checksums.sha256"),
      x ∈ fs7 := by
    intro x hx
    have h1 : x ∈ sortFS fs7 := List.mem_of_mem_filter hx
    unfold sortFS at h1
    exact (List.perm_insertionSort _ fs7).mem_iff.mp h1
  apply verify_ok_of_shape sha dirPath _ M (checksumEntriesOf sha fs7) fieldss
  · unfold write_checksums
    exact fsGet_write_self _ _ _
  · intro e he
    rcases List.mem_map.mp he with ⟨x, hx, hxe⟩
    subst hxe
    have hx7 : x ∈ fs7 := hmemfs7 x hx
    have hname := hnames x.1 (fsExists_of_mem hx7)
    exact ⟨hlen _, hws _, hname.1, hname.2⟩
  · intro e he
    rcases List.mem_map.mp he with ⟨x, hx, hxe⟩
    subst hxe
    have hx7 : x ∈ fs7 := hmemfs7 x hx
    have hne : x.1 ≠ "checksums.sha256" := by
      simpa using List.of_mem_filter hx
    refine ⟨hne, x.2, ?_, rfl⟩
    unfold write_checksums
    rw [fsGet_write_ne _ _ _ _ hne]
    obtain ⟨k, v⟩ := x
    exact fsGet_of_mem k v fs7 hnd hx7
  · unfold write_checksums
    rw [fsGet_write_ne _ _ _ _ (by decide)]
    exact hman
  · intro n hn
    unfold write_checksums
    exact fsExists_write_mono _ _ (hfiles n hn)
  · unfold write_checksums
    exact fsExists_write_mono _ _ hlin
  · unfold write_checksums
    rw [fsGet_write_ne _ _ _ _ (by decide)]
    exact hdec
  · exact hcount

theorem checksumEntries_pos (sha : String → String) {fs7 : FS} {fd : FileData}
    (h : ("manifest.json", fd) ∈ fs7) : 0 < (checksumEntriesOf sha fs7).length := by
  unfold checksumEntriesOf
  rw [List.length_map]
  have h1 : ("manifest.json", fd) ∈ sortFS fs7 := by
    unfold sortFS
    exact (List.perm_insertionSort _ fs7).mem_iff.mpr h
  have h2 : ("manifest.json", fd) ∈
      (sortFS fs7).filter (fun e => e.1 ≠ "checksums.sha256") :=
    List.mem_filter.mpr ⟨h1, by simp⟩
  exact List.length_pos.mpr (List.ne_nil_of_mem h2)

end RefuaReg

namespace RefuaReg

/-! ## Build-side assembly facts (toward claim C1) -/

/-- The field list of a serialized decision record. -/
def decisionFields (d : DecisionRecord) : List (String × JVal) :=
  [("decision_id", .jstr d.decision_id),
   ("campaign_run_id", .jstr d.campaign_run_id),
   ("step_index", .jnum d.step_index),
   ("timestamp", .jstr d.timestamp),
   ("decision_type", .jstr d.decision_type),
   ("actor", .jstr d.actor),
   ("rationale", .jstr d.rationale),
   ("tool", optStrJ d.tool),
   ("args", .jobj d.args),
   ("output_preview", optStrJ d.output_preview),
   ("input_refs", .jarr (d.input_refs.map .jstr)),
   ("output_refs", .jarr (d.output_refs.map .jstr)),
   ("metadata", .jobj d.metadata)]

theorem map_decisionToJVal (ds : List DecisionRecord) :
    ds.map decisionToJVal = (ds.map decisionFields).map JVal.jobj := by
  rw [List.map_map]
  exact List.map_congr_left (fun d _ => rfl)

theorem mem_fsWrite_self (fs : FS) (p : String) (fd : FileData) :
    (p, fd) ∈ fsWrite fs p fd := by
  unfold fsWrite
  exact List.mem_append_right _ (List.mem_cons_self _ _)

theorem bundleFileList_exists {fs : FS} {n : String}
    (h : n ∈ bundleFileList fs false) : fsExists fs n = true := by
  unfold bundleFileList at h
  have h1 : n ∈ sortStrings (fs.map (fun e => e.1)) := List.mem_of_mem_filter h
  unfold sortStrings at h1
  have h2 : n ∈ fs.map (fun e => e.1) :=
    (List.perm_insertionSort _ _).mem_iff.mp h1
  rcases List.mem_map.mp h2 with ⟨e, he, hkey⟩
  rw [← hkey]
  exact fsExists_of_mem he

theorem built_verify_core (sha : String → String) (dirPath : String) (fs6 : FS)
    (M : EvidenceBundleManifest) (decisions : List DecisionRecord)
    (hlen : ∀ s, (sha s).length = 64)
    (hws : ∀ s, ∀ c ∈ (sha s).data, wsChar c = false)
    (hnd6 : fsNodup fs6)
    (hnames6 : ∀ n, fsExists fs6 n = true → n ≠ "" ∧ ∀ c ∈ n.data, wsChar c = false)
    (hdec6 : fsGet fs6 "decisions.jsonl"
      = some (fdJsonl (decisions.map decisionToJVal)))
    (hlin6 : fsExists fs6 "lineage.json" = true)
    (hMfiles : M.files = bundleFileList fs6 false)
    (hMcount : M.decision_count = decisions.length) :
    (verify_evidence_bundle sha dirPath (some (write_checksums sha
        (fsWrite fs6 "manifest.json" (fdJson (manifestToJVal M)))))).ok = true ∧
    0 < (verify_evidence_bundle sha dirPath (some (write_checksums sha
        (fsWrite fs6 "manifest.json" (fdJson (manifestToJVal M)))))).checked_files := by
  have hnames7 : ∀ n, fsExists (fsWrite fs6 "manifest.json"
        (fdJson (manifestToJVal M))) n = true →
      n ≠ "" ∧ ∀ c ∈ n.data, wsChar c = false := by
    intro n hn
    rcases fsExists_write_elim hn with hm | h6
    · subst hm
      exact ⟨by decide, by decide⟩
    · exact hnames6 n h6
  have hfiles7 : ∀ n ∈ M.files, fsExists (fsWrite fs6 "manifest.json"
      (fdJson (manifestToJVal M))) n = true := by
    intro n hn
    rw [hMfiles] at hn
    exact fsExists_write_mono _ _ (bundleFileList_exists hn)
  have hdec7 : fsGet (fsWrite fs6 "manifest.json" (fdJson (manifestToJVal M)))
      "decisions.jsonl" = some (fdJsonl ((decisions.map decisionFields).map
        JVal.jobj)) := by
    rw [fsGet_write_ne _ _ _ _ (by decide)]
    rw [hdec6, map_decisionToJVal]
  have hv := verify_write_checksums_ok sha dirPath
    (fsWrite fs6 "manifest.json" (fdJson (manifestToJVal M))) M
    (decisions.map decisionFields) hlen hws
    (fsNodup_write _ _ _ hnd6) hnames7 (fsGet_write_self _ _ _) hfiles7
    (fsExists_write_mono _ _ hlin6) hdec7
    (by rw [hMcount, List.length_map])
  rw [hv]
  refine ⟨rfl, ?_⟩
  exact checksumEntries_pos sha (mem_fsWrite_self fs6 "manifest.json"
    (fdJson (manifestToJVal M)))

end RefuaReg

namespace RefuaReg

theorem decisions_ne_checklists : ∀ s : String,
    "decisions.jsonl" ≠ "checklists/" ++ s := by
  intro s h
  have h1 := congrArg (fun t => t.data.head?) h
  simp only [String.data_append, List.head?_append] at h1
  have h2 : some 'd' = some 'c' := by
    rw [show "decisions.jsonl".data.head? = some 'd' from rfl] at h1
    rw [show "checklists/".data.head? = some 'c' from rfl] at h1
    exact h1
  simp at h2

theorem base_nodup (sha : String → String) (a b c d : FileData) :
    fsNodup (write_checksums sha (fsWrite (fsWrite (fsWrite
      (fsWrite [] "artifacts/campaign_run.json" a) "decisions.jsonl" b)
      "lineage.json" c) "manifest.json" d)) := by
  unfold write_checksums
  exact fsNodup_write _ _ _ (fsNodup_write _ _ _ (fsNodup_write _ _ _
    (fsNodup_write _ _ _ (fsNodup_write _ _ _ fsNodup_nil))))

theorem base_get_dec (sha : String → String) (a b c d : FileData) :
    fsGet (write_checksums sha (fsWrite (fsWrite (fsWrite
      (fsWrite [] "artifacts/campaign_run.json" a) "decisions.jsonl" b)
      "lineage.json" c) "manifest.json" d)) "decisions.jsonl" = some b := by
  unfold write_checksums
  rw [fsGet_write_ne _ _ _ _ (by decide), fsGet_write_ne _ _ _ _ (by decide),
    fsGet_write_ne _ _ _ _ (by decide), fsGet_write_self]

theorem base_exists_lin (sha : String → String) (a b c d : FileData) :
    fsExists (write_checksums sha (fsWrite (fsWrite (fsWrite
      (fsWrite [] "artifacts/campaign_run.json" a) "decisions.jsonl" b)
      "lineage.json" c) "manifest.json" d)) "lineage.json" = true := by
  unfold write_checksums
  apply fsExists_write_mono
  apply fsExists_write_mono
  exact fsExists_of_fsGet (fsGet_write_self _ _ _)

theorem base_names (sha : String → String) (a b c d : FileData) :
    ∀ n, fsExists (write_checksums sha (fsWrite (fsWrite (fsWrite
      (fsWrite [] "artifacts/campaign_run.json" a) "decisions.jsonl" b)
      "lineage.json" c) "manifest.json" d)) n = true →
      n = "checksums.sha256" ∨ n = "manifest.json" ∨ n = "lineage.json" ∨
        n = "decisions.jsonl" ∨ n = "artifacts/campaign_run.json" := by
  intro n h
  unfold write_checksums at h
  rcases fsExists_write_elim h with h | h
  · exact Or.inl h
  rcases fsExists_write_elim h with h | h
  · exact Or.inr (Or.inl h)
  rcases fsExists_write_elim h with h | h
  · exact Or.inr (Or.inr (Or.inl h))
  rcases fsExists_write_elim h with h | h
  · exact Or.inr (Or.inr (Or.inr (Or.inl h)))
  rcases fsExists_write_elim h with h | h
  · exact Or.inr (Or.inr (Or.inr (Or.inr h)))
  simp [fsExists, fsGet] at h

theorem base_names_ws (sha : String → String) (a b c d : FileData) :
    ∀ n, fsExists (write_checksums sha (fsWrite (fsWrite (fsWrite
      (fsWrite [] "artifacts/campaign_run.json" a) "decisions.jsonl" b)
      "lineage.json" c) "manifest.json" d)) n = true →
      n ≠ "" ∧ ∀ c' ∈ n.data, wsChar c' = false := by
  intro n h
  rcases base_names sha a b c d n h with h2 | h2 | h2 | h2 | h2 <;>
    (subst h2; exact ⟨by decide, by decide⟩)

end RefuaReg


namespace RefuaReg

/-- Case analysis on the checklist-generation step of the builder: in a
successful build the pre-manifest directory state is either the base state
(checklists disabled) or a successful checklist-generation result over it. -/
theorem checklist_step_cases (sha : String → String) (now dirPath : String)
    (cond : Bool) (ts : List String) (fs5 : FS) (bs bm : Bool)
    (out : FS × List String × JVal)
    (h : (if cond then
        match checklistGenLoop sha now dirPath ts fs5 [] [] with
        | .error e => .error e
        | .ok (fs6, reports, relPaths) =>
            match enforce_checklist_policy reports bs bm with
            | .error e => .error e
            | .ok _ => .ok (fs6, relPaths, checklistSummaryJVal reports)
      else .ok (fs5, [], .jobj [])) = Except.ok out) :
    out.1 = fs5 ∨ ∃ reports rels2,
      checklistGenLoop sha now dirPath ts fs5 [] [] = .ok (out.1, reports, rels2) := by
  split at h
  · split at h
    · simp at h
    · rename_i fs6 reports relPaths heq
      split at h
      · simp at h
      · simp only [Except.ok.injEq] at h
        subst h
        exact Or.inr ⟨reports, relPaths, heq⟩
  · simp only [Except.ok.injEq] at h
    subst h
    exact Or.inl rfl

set_option maxHeartbeats 1000000 in
/-- C1: for a valid campaign record (a JSON-object payload) built into a
fresh output directory, whenever `build_evidence_bundle` succeeds, running
`verify_evidence_bundle` on the resulting bundle directory yields
`ok = true` with at least one checked file.  The SHA-256 primitive is
assumed to produce 64-character whitespace-free digests. -/
theorem C1_build_then_verify
    (sha uh : String → String)
    (hlen : ∀ s, (sha s).length = 64)
    (hws : ∀ s, ∀ c ∈ (sha s).data, wsChar c = false)
    (now recordText sourcePathStr source_kind outputDirPath : String)
    (payload : List (String × JVal)) (execProv : JVal)
    (bundle_id model_name model_version : Option String)
    (include_checklists : Bool) (checklist_templates : List String)
    (checklist_strict checklist_require_no_manual_review : Bool)
    (fsOut : FS)
    (hbuild : build_evidence_bundle sha uh now recordText payload sourcePathStr
      execProv source_kind bundle_id model_name model_version outputDirPath
      include_checklists checklist_templates checklist_strict
      checklist_require_no_manual_review = .ok fsOut) :
    (verify_evidence_bundle sha outputDirPath (some fsOut)).ok = true ∧
    0 < (verify_evidence_bundle sha outputDirPath (some fsOut)).checked_files := by
  unfold build_evidence_bundle at hbuild
  simp only [] at hbuild
  split at hbuild
  · exact absurd hbuild (by simp)
  · rename_i fs6 relPaths summaryJ heq
    simp only [Except.ok.injEq] at hbuild
    subst hbuild
    have hcases := checklist_step_cases sha now outputDirPath _ _ _
      checklist_strict checklist_require_no_manual_review
      (fs6, relPaths, summaryJ) heq
    rcases hcases with h5 | ⟨reports, rels2, hloop⟩
    · simp only [] at h5
      subst h5
      apply built_verify_core sha outputDirPath _ _
        (extract_decisions_from_campaign uh now payload
          (infer_campaign_run_id uh payload sourcePathStr)) hlen hws
      · exact base_nodup sha _ _ _ _
      · exact base_names_ws sha _ _ _ _
      · exact base_get_dec sha _ _ _ _
      · exact base_exists_lin sha _ _ _ _
      · rfl
      · rfl
    · simp only [] at hloop
      apply built_verify_core sha outputDirPath _ _
        (extract_decisions_from_campaign uh now payload
          (infer_campaign_run_id uh payload sourcePathStr)) hlen hws
      · exact cgl_nodup sha now outputDirPath _ _ _ _ _ _ _ hloop
          (base_nodup sha _ _ _ _)
      · intro n hn
        rcases cgl_names sha now outputDirPath _ _ _ _ _ _ _ hloop n hn with
          hb | ⟨t2, hsome, hshape⟩
        · exact base_names_ws sha _ _ _ _ n hb
        · rcases templatesLookup_isSome_cases hsome with ht | ht | ht <;>
            (subst ht; rcases hshape with hs2 | hs2 <;>
              (subst hs2; exact ⟨by decide, by decide⟩))
      · rw [cgl_preserve sha now outputDirPath "decisions.jsonl"
          decisions_ne_checklists _ _ _ _ _ _ _ hloop]
        exact base_get_dec sha _ _ _ _
      · exact cgl_exists_mono sha now outputDirPath "lineage.json"
          _ _ _ _ _ _ _ hloop (base_exists_lin sha _ _ _ _)
      · rfl
      · rfl

end RefuaReg

namespace RefuaReg

/-- A concrete 64-character digest function for the C1 witness. -/
def C1sha : String → String := fun _ => String.mk (List.replicate 64 'a')

/-- The bundle directory produced by a concrete successful build. -/
def C1fsOut : FS :=
  match build_evidence_bundle C1sha (fun s => s) "t0" "rec" [] "src" (.jobj [])
      "campaign" none none none "out" false [] false false with
  | .ok fs => fs
  | .error _ => []

theorem C1_build_then_verify_witness :
    (verify_evidence_bundle C1sha "out" (some C1fsOut)).ok = true ∧
    0 < (verify_evidence_bundle C1sha "out" (some C1fsOut)).checked_files :=
  C1_build_then_verify C1sha (fun s => s)
    (fun _ => by
      show (String.mk (List.replicate 64 'a')).length = 64
      decide)
    (fun _ => by
      show ∀ c ∈ (String.mk (List.replicate 64 'a')).data, wsChar c = false
      decide)
    "t0" "rec" "src" "campaign" "out" [] (.jobj [])
    none none none false [] false false
    C1fsOut (by rfl)

end RefuaReg
